import Mathlib

/-!
# IRITA wasm keeper: contract-execution orchestrator

A shallow embedding of `modules/wasm/internal/keeper/keeper.go`, followed by
the binding operations of `modules/service/internal/keeper/binding.go` and the
profiler commands of `modules/guardian/client/cli/tx.go`.

* Go `uint64` values are natural numbers; every arithmetic operation of the
  source that can leave the 64-bit range is reduced modulo `2 ^ 64` here.
* The external collaborators (the VM, the bank and account keepers, the
  message router, the bech32 codec, the address hash) are the fields of `Env`.
  `L` is the state of the host ledger outside this keeper's own store.
* Every operation returns its result together with the context it leaves
  behind: the keeper itself never rolls anything back.
* `ctx.KVStore` is the host's gas-metered store. The gas its reads charge is
  modelled for `contractInstance` (`contractInstanceMetered`), the lookup in
  front of `Execute` and `QuerySmart`; the gas charged by the other store
  accesses, inside the collaborators and by the VM's own use of its prefixed
  store is not.
* The integers and coins of the host library (`sdk.Int`, `sdk.Coins`) are
  modelled with their 255-bit bound: an operation that panics on overflow
  returns `none`.
-/

namespace Irita

/-! ## Machine integers -/

/-- Number of values of a Go `uint64`. -/
def u64 : Nat := 2 ^ 64

/-- Go `a + b` on `uint64`. -/
def add64 (a b : Nat) : Nat := (a + b) % u64

/-- Go `a - b` on `uint64` (wraps around below zero). -/
def sub64 (a b : Nat) : Nat := (a % u64 + (u64 - b % u64)) % u64

/-- Go `a * b` on `uint64`. -/
def mul64 (a b : Nat) : Nat := (a * b) % u64

/-- Go `a << k` on `uint64`. -/
def shl64 (a k : Nat) : Nat := (a <<< k) % u64

/-! ## Constants of the keeper -/

/-- GasMultiplier is how many cosmwasm gas points = 1 sdk gas point. -/
def GasMultiplier : Nat := 100

/-- MaxGas for a contract is 900 million. -/
def MaxGas : Nat := 900000000

/-- Gas limit of the fresh meter a smart query runs under. -/
def smartQueryGasLimit : Nat := 3000000

/-! ## Data model -/

abbrev Bytes := List Nat

abbrev AccAddress := List Nat

/-- One `sdk.Coin`. -/
structure Coin where
  denom : String
  amount : Int
  deriving DecidableEq, Repr

abbrev Coins := List Coin

/-- Error kinds the keeper returns. `abci` is an error of the host ledger or
of a routed handler, identified by codespace and code. -/
inductive ErrCode where
  | createFailed
  | accountExists
  | notFound
  | instantiateFailed
  | executeFailed
  | queryFailed
  | invalidAddress
  | invalidCoins
  | unauthorized
  | unknownRequest
  | abci (codespace : String) (code : Nat)
  deriving DecidableEq, Repr

/-- A returned error: its kind and the wrapped message. -/
structure Err where
  code : ErrCode
  msg : String
  deriving DecidableEq, Repr

/-- The Go panics of the keeper. -/
inductive Panic where
  | opaqueNotImplemented
  | unknownCosmosMsg
  | outOfGas
  | gasOverflow
  | nilAccount
  deriving DecidableEq, Repr

/-- Outcome of a call: a value, a returned error, a panic, or the recursion
budget of the model running out. -/
inductive Res (α : Type) where
  | ok (a : α)
  | err (e : Err)
  | panic (p : Panic)
  | outOfFuel
  deriving DecidableEq, Repr

/-- Modelled from the spec: the host gas meter (`sdk.GasMeter`, owned by the
host ledger), a limit and a consumed value, both `uint64`. -/
structure GasMeter where
  limit : Nat
  consumed : Nat
  deriving DecidableEq, Repr

/-- Modelled from the spec: `GasMeter.ConsumeGas`. It adds the amount to the
consumed value and is fatal when the sum leaves the 64-bit range or passes
the meter's limit ("out of gas"). -/
def GasMeter.ConsumeGas (m : GasMeter) (amount : Nat) : Option Panic × GasMeter :=
  let m1 : GasMeter := { m with consumed := add64 m.consumed amount }
  if u64 ≤ m.consumed + amount then (some Panic.gasOverflow, m1)
  else if m1.consumed > m1.limit then (some Panic.outOfGas, m1)
  else (none, m1)

/-- Go `gasForContract`. -/
def gasForContract (meter : GasMeter) : Nat :=
  let remaining := mul64 (sub64 meter.limit meter.consumed) GasMultiplier
  if remaining > MaxGas then MaxGas else remaining

/-- Go `consumeGas`, on the meter of the context. -/
def consumeGas (meter : GasMeter) (gas : Nat) : Option Panic × GasMeter :=
  let consumed := gas / GasMultiplier
  meter.ConsumeGas consumed

/-- Stored record of one uploaded code artifact (`types.CodeInfo`). -/
structure CodeInfo where
  codeHash : Bytes
  creator : AccAddress
  deriving DecidableEq, Repr

/-- Go `types.NewCodeInfo`. -/
def NewCodeInfo (codeHash : Bytes) (creator : AccAddress) : CodeInfo :=
  { codeHash := codeHash, creator := creator }

/-- Stored metadata of one instance (`types.ContractInfo`). -/
structure ContractInfo where
  codeID : Nat
  creator : AccAddress
  initMsg : Bytes
  deriving DecidableEq, Repr

/-- Go `types.NewContractInfo`. -/
def NewContractInfo (codeID : Nat) (creator : AccAddress) (initMsg : Bytes) : ContractInfo :=
  { codeID := codeID, creator := creator, initMsg := initMsg }

/-- The key/value namespace of one instance (a prefixed view of the store). -/
abbrev Storage := Bytes → Option Bytes

/-- The two counter keys, `types.KeyLastCodeID` and `types.KeyLastInstanceID`. -/
inductive IDKey where
  | KeyLastCodeID
  | KeyLastInstanceID
  deriving DecidableEq, Repr

/-- Modelled from the spec: the persisted key layout of the keeper's store
(the key constructors of the `types` package): `lastCodeID` → counter,
`lastInstanceID` → counter, `code/{codeID}` → CodeInfo, `contract/{address}`
→ ContractInfo, `contract-store/{address}/{key}` → value bytes. An absent key
(`store.Get` returning nil) is `none`. -/
structure KVStore where
  lastCodeID : Option Nat
  lastInstanceID : Option Nat
  codes : Nat → Option CodeInfo
  contracts : AccAddress → Option ContractInfo
  contractStore : AccAddress → Storage

/-- The store before anything was written. -/
def KVStore.empty : KVStore :=
  { lastCodeID := none, lastInstanceID := none, codes := fun _ => none,
    contracts := fun _ => none, contractStore := fun _ _ => none }

/-- Go `store.Get(lastIDKey)`, decoded. -/
def KVStore.getID (st : KVStore) : IDKey → Option Nat
  | IDKey.KeyLastCodeID => st.lastCodeID
  | IDKey.KeyLastInstanceID => st.lastInstanceID

/-- Go `store.Set(lastIDKey, sdk.Uint64ToBigEndian(v))`. -/
def KVStore.setID (st : KVStore) (k : IDKey) (v : Nat) : KVStore :=
  match k with
  | IDKey.KeyLastCodeID => { st with lastCodeID := some v }
  | IDKey.KeyLastInstanceID => { st with lastInstanceID := some v }

/-- Go `store.Set(types.GetCodeKey(codeID), ...)`. -/
def KVStore.setCode (st : KVStore) (codeID : Nat) (info : CodeInfo) : KVStore :=
  { st with codes := fun i => if i = codeID then some info else st.codes i }

/-- Go `store.Set(types.GetContractAddressKey(addr), ...)`. -/
def KVStore.setContract (st : KVStore) (addr : AccAddress) (info : ContractInfo) : KVStore :=
  { st with contracts := fun a => if a = addr then some info else st.contracts a }

/-- What the VM left in the prefixed store of `addr`. -/
def KVStore.setContractStore (st : KVStore) (addr : AccAddress) (ps : Storage) : KVStore :=
  { st with contractStore := fun a => if a = addr then ps else st.contractStore a }

/-- An account of the host ledger (`exported.Account`). -/
structure Account where
  address : AccAddress
  coins : Coins
  deriving DecidableEq, Repr

/-- One `wasmTypes.Coin`: the amount is a decimal string. -/
structure WasmCoin where
  Denom : String
  Amount : String
  deriving DecidableEq, Repr

/-- Go `wasmTypes.SendMsg`. -/
structure SendMsg where
  FromAddress : String
  ToAddress : String
  Amount : List WasmCoin
  deriving DecidableEq, Repr

/-- Go `wasmTypes.ContractMsg`. -/
structure ContractMsg where
  ContractAddr : String
  Msg : Bytes
  deriving DecidableEq, Repr

/-- Go `wasmTypes.OpaqueMsg`. -/
structure OpaqueMsg where
  Data : String
  deriving DecidableEq, Repr

/-- Go `wasmTypes.CosmosMsg`: a struct of the three kinds, the unused ones
left at their zero value. -/
structure CosmosMsg where
  Send : SendMsg
  Contract : ContractMsg
  Opaque : OpaqueMsg
  deriving DecidableEq, Repr

/-- Go `bank.MsgSend`. -/
structure MsgSend where
  FromAddress : AccAddress
  ToAddress : AccAddress
  Amount : Coins
  deriving DecidableEq, Repr

/-- Payload of a host message. -/
inductive MsgBody where
  | send (m : MsgSend)
  | other (bz : Bytes)
  deriving DecidableEq, Repr

/-- What `handleSdkMessage` uses of an `sdk.Msg`: its route, its required
signers, and its payload. -/
structure SdkMsg where
  route : String
  signers : List AccAddress
  body : MsgBody
  deriving DecidableEq, Repr

/-- The `sdk.Msg` view of a `bank.MsgSend`: routed to the bank module and
signed by the sender. -/
def MsgSend.toMsg (m : MsgSend) : SdkMsg :=
  { route := "bank", signers := [m.FromAddress], body := MsgBody.send m }

/-- Go `sdk.Result`, as far as the keeper reads it. -/
structure SdkResult where
  codespace : String
  code : Nat
  data : Bytes
  log : String
  deriving DecidableEq, Repr

/-- Go `Result.IsOK`: the code is `CodeOK`. -/
def SdkResult.IsOK (r : SdkResult) : Bool := r.code == 0

/-- Modelled from the spec: the execution parameters handed to the VM
(`types.NewParams`): caller address, funds attached, and the instance's own
account reference. -/
structure Params where
  sender : AccAddress
  sentFunds : Coins
  contract : Option Account
  deriving DecidableEq, Repr

/-- Go `types.NewParams`. -/
def NewParams (creator : AccAddress) (deposit : Coins) (contractAcct : Option Account) : Params :=
  { sender := creator, sentFunds := deposit, contract := contractAcct }

/-- What the VM returns from instantiate and execute. -/
structure VMResult where
  data : Bytes
  log : String
  messages : List CosmosMsg
  gasUsed : Nat
  deriving DecidableEq, Repr

/-- A call the keeper made to an external collaborator. -/
inductive Event where
  | vmCreate (code : Bytes)
  | vmInstantiate (codeHash : Bytes) (params : Params) (initMsg : Bytes) (gas : Nat)
  | vmExecute (codeHash : Bytes) (params : Params) (msg : Bytes) (gas : Nat)
  | vmQuery (codeHash : Bytes) (req : Bytes) (gas : Nat)
  | sendCoins (sender recipient : AccAddress) (amount : Coins)
  | handler (route : String) (msg : SdkMsg)
  deriving DecidableEq, Repr

/-- The `sdk.Context` as the keeper uses it: its own store, the rest of the
host ledger, the gas meter, and the record of the calls made to the external
collaborators (most recent first). -/
structure Ctx (L : Type) where
  store : KVStore
  ledger : L
  gas : GasMeter
  trace : List Event

/-- The external collaborators of the keeper. The VM works on the prefixed
store it is handed and returns what it left there, also when it fails. The
bank keeper and the routed handlers work on the ledger `L`: they hold no key
to the keeper's own store. `contractInfoSize` and `codeInfoSize` are the
lengths of `cdc.MustMarshalBinaryBare` of a record, the bytes the store
holds for it. -/
structure Env (L : Type) where
  contractInfoSize : ContractInfo → Nat
  codeInfoSize : CodeInfo → Nat
  uncompress : Bytes → Except String Bytes
  wasmerCreate : Bytes → Except String Bytes
  wasmerInstantiate : Bytes → Params → Bytes → Storage → Nat → Except String VMResult × Storage
  wasmerExecute : Bytes → Params → Bytes → Storage → Nat → Except String VMResult × Storage
  wasmerQuery : Bytes → Bytes → Storage → Nat → Except String (Bytes × Nat) × Storage
  wasmerGetCode : Bytes → Except String Bytes
  getAccount : L → AccAddress → Option Account
  sendCoins : L → AccAddress → AccAddress → Coins → Except Err L
  route : String → Option (L → SdkMsg → SdkResult × L)
  accAddressFromBech32 : String → Option AccAddress
  accAddressString : AccAddress → String
  newIntFromString : String → Option Int
  addressHash : Bytes → AccAddress
  cosmosResult : VMResult → SdkResult

/-! ## Counters and address derivation -/

/-- Go `Keeper.autoIncrementID`: returns the stored counter (1 when absent)
and stores its successor. -/
def autoIncrementID (st : KVStore) (lastIDKey : IDKey) : Nat × KVStore :=
  let id := match st.getID lastIDKey with
    | some v => v
    | none => 1
  (id, st.setID lastIDKey (add64 id 1))

/-- Go `Keeper.GetNextCodeID`. -/
def GetNextCodeID (st : KVStore) : Nat :=
  match st.getID IDKey.KeyLastCodeID with
  | some v => v
  | none => 1

/-- The loop of Go `binary.PutUvarint`; `n` bounds the number of
continuation bytes. -/
def putUvarintLoop : Nat → Nat → List Nat
  | 0, x => [x % 256]
  | n + 1, x =>
    if x ≥ 128 then ((x % 256) ||| 128) :: putUvarintLoop n (x >>> 7)
    else [x % 256]

/-- Go `binary.PutUvarint` of a `uint64`: at most nine continuation bytes. -/
def putUvarint (x : Nat) : List Nat := putUvarintLoop 9 x

/-- The 20-byte buffer `addrFromUint64` hashes: `'C'`, then the uvarint of
the identifier, then zeroes. -/
def addrBuffer (id : Nat) : Bytes :=
  let written := 67 :: putUvarint id
  written ++ List.replicate (20 - written.length) 0

/-- Go `addrFromUint64`. -/
def addrFromUint64 {L : Type} (env : Env L) (id : Nat) : AccAddress :=
  env.addressHash (addrBuffer id)

/-- The combined identifier of `generateContractAddress`:
`codeID<<32 + instanceID`. -/
def contractID (codeID instanceID : Nat) : Nat :=
  add64 (shl64 codeID 32) instanceID

/-- Go `Keeper.generateContractAddress`. -/
def generateContractAddress {L : Type} (env : Env L) (st : KVStore) (codeID : Nat) :
    AccAddress × KVStore :=
  let (instanceID, st1) := autoIncrementID st IDKey.KeyLastInstanceID
  (addrFromUint64 env (contractID codeID instanceID), st1)

/-! ## Code registry -/

/-- Go `Keeper.Create`. -/
def Create {L : Type} (env : Env L) (ctx : Ctx L) (creator : AccAddress) (wasmCode : Bytes) :
    Res Nat × Ctx L :=
  match env.uncompress wasmCode with
  | Except.error e => (Res.err ⟨ErrCode.createFailed, e⟩, ctx)
  | Except.ok code =>
    let ctx1 : Ctx L := { ctx with trace := Event.vmCreate code :: ctx.trace }
    match env.wasmerCreate code with
    | Except.error e => (Res.err ⟨ErrCode.createFailed, e⟩, ctx1)
    | Except.ok codeHash =>
      let (codeID, st1) := autoIncrementID ctx1.store IDKey.KeyLastCodeID
      let contractInfo := NewCodeInfo codeHash creator
      (Res.ok codeID, { ctx1 with store := st1.setCode codeID contractInfo })

/-- Go `Keeper.GetCodeInfo`. -/
def GetCodeInfo {L : Type} (ctx : Ctx L) (codeID : Nat) : Option CodeInfo :=
  ctx.store.codes codeID

/-- Go `Keeper.GetContractInfo`. -/
def GetContractInfo {L : Type} (ctx : Ctx L) (contractAddress : AccAddress) : Option ContractInfo :=
  ctx.store.contracts contractAddress

/-- Go `Keeper.contractInstance` without the gas its reads are charged: what
it returns whenever the meter covers them. `contractInstanceMetered` is the
function with the charges. -/
def contractInstance {L : Type} (ctx : Ctx L) (contractAddress : AccAddress) :
    Except Err (CodeInfo × Storage) :=
  match ctx.store.contracts contractAddress with
  | none => Except.error ⟨ErrCode.notFound, "contract"⟩
  | some contract =>
    match ctx.store.codes contract.codeID with
    | none => Except.error ⟨ErrCode.notFound, "contract info"⟩
    | some codeInfo => Except.ok (codeInfo, ctx.store.contractStore contractAddress)

/-- `ReadCostFlat` of the host's store gas configuration (`KVGasConfig`):
the "1k sdk gas" of one read in the keeper's comment on `GasMultiplier`. -/
def ReadCostFlat : Nat := 1000

/-- `ReadCostPerByte` of the host's store gas configuration. -/
def ReadCostPerByte : Nat := 3

/-- What one `store.Get` on `ctx.KVStore` charges the meter of the context
(the host's `gaskv.Store.Get`): the flat cost before the read, then the
per-byte cost of the value read. `valueLen` is the length of that value, 0
for an absent key. -/
def chargeGet (meter : GasMeter) (valueLen : Nat) : Option Panic × GasMeter :=
  match meter.ConsumeGas ReadCostFlat with
  | (some p, meter1) => (some p, meter1)
  | (none, meter1) => meter1.ConsumeGas (mul64 ReadCostPerByte valueLen)

/-- Go `Keeper.contractInstance` on the gas-metered store of the context:
each of its two `store.Get` charges the meter, and is fatal when the meter
runs out, before the value read is looked at. Returns the meter it leaves. -/
def contractInstanceMetered {L : Type} (env : Env L) (ctx : Ctx L)
    (contractAddress : AccAddress) : Res (CodeInfo × Storage) × GasMeter :=
  let contractBz := ctx.store.contracts contractAddress
  match chargeGet ctx.gas
      (match contractBz with
        | none => 0
        | some contract => env.contractInfoSize contract) with
  | (some p, meter1) => (Res.panic p, meter1)
  | (none, meter1) =>
    match contractBz with
    | none => (Res.err ⟨ErrCode.notFound, "contract"⟩, meter1)
    | some contract =>
      let contractInfoBz := ctx.store.codes contract.codeID
      match chargeGet meter1
          (match contractInfoBz with
            | none => 0
            | some codeInfo => env.codeInfoSize codeInfo) with
      | (some p, meter2) => (Res.panic p, meter2)
      | (none, meter2) =>
        match contractInfoBz with
        | none => (Res.err ⟨ErrCode.notFound, "contract info"⟩, meter2)
        | some codeInfo =>
          (Res.ok (codeInfo, ctx.store.contractStore contractAddress), meter2)

/-- The gas the two reads of `contractInstance` charge when both records are
found. -/
def contractInstanceReadGas {L : Type} (env : Env L) (contract : ContractInfo)
    (codeInfo : CodeInfo) : Nat :=
  (ReadCostFlat + mul64 ReadCostPerByte (env.contractInfoSize contract))
    + (ReadCostFlat + mul64 ReadCostPerByte (env.codeInfoSize codeInfo))

/-! ## Message dispatcher -/

/-- The coin loop of `convertCosmosSendMsg`. -/
def convertCoins {L : Type} (env : Env L) : List WasmCoin → Except Err Coins
  | [] => Except.ok []
  | coin :: rest =>
    match env.newIntFromString coin.Amount with
    | none => Except.error ⟨ErrCode.invalidCoins, coin.Amount ++ coin.Denom⟩
    | some amount =>
      match convertCoins env rest with
      | Except.error e => Except.error e
      | Except.ok coins => Except.ok ({ denom := coin.Denom, amount := amount } :: coins)

/-- Go `convertCosmosSendMsg`. -/
def convertCosmosSendMsg {L : Type} (env : Env L) (msg : SendMsg) : Except Err MsgSend :=
  match env.accAddressFromBech32 msg.FromAddress with
  | none => Except.error ⟨ErrCode.invalidAddress, msg.FromAddress⟩
  | some fromAddr =>
    match env.accAddressFromBech32 msg.ToAddress with
    | none => Except.error ⟨ErrCode.invalidAddress, msg.ToAddress⟩
    | some toAddr =>
      match convertCoins env msg.Amount with
      | Except.error e => Except.error e
      | Except.ok coins =>
        Except.ok { FromAddress := fromAddr, ToAddress := toAddr, Amount := coins }

/-- Go `Keeper.handleSdkMessage`. A nil `contract` panics at `GetAddress`. -/
def handleSdkMessage {L : Type} (env : Env L) (ctx : Ctx L) (contract : Option Account)
    (msg : SdkMsg) : Res Unit × Ctx L :=
  match contract with
  | none => (Res.panic Panic.nilAccount, ctx)
  | some acct =>
    let contractAddr := acct.address
    if msg.signers.any (fun signer => signer != contractAddr) then
      (Res.err ⟨ErrCode.unauthorized, "contract doesn't have permission"⟩, ctx)
    else
      match env.route msg.route with
      | none => (Res.err ⟨ErrCode.unknownRequest, msg.route⟩, ctx)
      | some h =>
        let (res, ledger1) := h ctx.ledger msg
        let ctx1 : Ctx L :=
          { ctx with ledger := ledger1, trace := Event.handler msg.route msg :: ctx.trace }
        if res.IsOK then (Res.ok (), ctx1)
        else (Res.err ⟨ErrCode.abci res.codespace res.code, res.log⟩, ctx1)

/-- The signature of `Keeper.Execute`: context, contract address, caller,
coins, message. -/
abbrev Exec (L : Type) :=
  Ctx L → AccAddress → AccAddress → Coins → Bytes → Res SdkResult × Ctx L

/-- The `if / else if` chain of `Keeper.dispatchMessage`: `some r` is a
`return` (or panic) inside the chain, `none` is control leaving the chain
without one. `exec` is the `Keeper.Execute` the contract branch calls. -/
def dispatchChain {L : Type} (env : Env L) (exec : Exec L) (ctx : Ctx L)
    (contract : Option Account) (msg : CosmosMsg) : Option (Res Unit) × Ctx L :=
  if msg.Send.FromAddress ≠ "" then
    match convertCosmosSendMsg env msg.Send with
    | Except.error e => (some (Res.err e), ctx)
    | Except.ok sendMsg =>
      let r := handleSdkMessage env ctx contract sendMsg.toMsg
      (some r.1, r.2)
  else if msg.Contract.ContractAddr ≠ "" then
    match env.accAddressFromBech32 msg.Contract.ContractAddr with
    | none => (some (Res.err ⟨ErrCode.invalidAddress, msg.Contract.ContractAddr⟩), ctx)
    | some targetAddr =>
      match contract with
      | none => (some (Res.panic Panic.nilAccount), ctx)
      | some acct =>
        match exec ctx targetAddr acct.address [] msg.Contract.Msg with
        | (Res.err e, ctx1) => (some (Res.err e), ctx1)
        | (Res.panic p, ctx1) => (some (Res.panic p), ctx1)
        | (Res.outOfFuel, ctx1) => (some Res.outOfFuel, ctx1)
        | (Res.ok _, ctx1) => (none, ctx1)
  else if msg.Opaque.Data ≠ "" then
    (some (Res.panic Panic.opaqueNotImplemented), ctx)
  else (none, ctx)

/-- Go `Keeper.dispatchMessage`: the chain, then the final
`panic("Unknown CosmosMsg")` for whatever leaves it. -/
def dispatchMessage {L : Type} (env : Env L) (exec : Exec L) (ctx : Ctx L)
    (contract : Option Account) (msg : CosmosMsg) : Res Unit × Ctx L :=
  match dispatchChain env exec ctx contract msg with
  | (some r, ctx1) => (r, ctx1)
  | (none, ctx1) => (Res.panic Panic.unknownCosmosMsg, ctx1)

/-- Go `Keeper.dispatchMessages`. -/
def dispatchMessages {L : Type} (env : Env L) (exec : Exec L) (ctx : Ctx L)
    (contract : Option Account) : List CosmosMsg → Res Unit × Ctx L
  | [] => (Res.ok (), ctx)
  | msg :: msgs =>
    match dispatchMessage env exec ctx contract msg with
    | (Res.ok _, ctx1) => dispatchMessages env exec ctx1 contract msgs
    | (r, ctx1) => (r, ctx1)

/-! ## Execution orchestrator -/

/-- The body of Go `Keeper.Execute`; `exec` is the `Keeper.Execute` that the
dispatch of the emitted messages calls back into. -/
def ExecuteWith {L : Type} (env : Env L) (exec : Exec L) : Exec L :=
  fun ctx contractAddress caller coins msg =>
  match contractInstanceMetered env ctx contractAddress with
  | (Res.err e, meter0) => (Res.err e, { ctx with gas := meter0 })
  | (Res.panic p, meter0) => (Res.panic p, { ctx with gas := meter0 })
  | (Res.outOfFuel, meter0) => (Res.outOfFuel, { ctx with gas := meter0 })
  | (Res.ok (codeInfo, prefixStore), meter0) =>
    let ctx1 : Ctx L :=
      { ctx with
        gas := meter0
        trace := Event.sendCoins caller contractAddress coins :: ctx.trace }
    match env.sendCoins ctx1.ledger caller contractAddress coins with
    | Except.error e => (Res.err e, ctx1)
    | Except.ok ledger1 =>
      let ctx2 : Ctx L := { ctx1 with ledger := ledger1 }
      let contractAccount := env.getAccount ctx2.ledger contractAddress
      let params := NewParams caller coins contractAccount
      let gas := gasForContract ctx2.gas
      let vm := env.wasmerExecute codeInfo.codeHash params msg prefixStore gas
      let ctx3 : Ctx L :=
        { ctx2 with
          store := ctx2.store.setContractStore contractAddress vm.2
          trace := Event.vmExecute codeInfo.codeHash params msg gas :: ctx2.trace }
      match vm.1 with
      | Except.error e => (Res.err ⟨ErrCode.executeFailed, e⟩, ctx3)
      | Except.ok res =>
        match consumeGas ctx3.gas res.gasUsed with
        | (some p, meter) => (Res.panic p, { ctx3 with gas := meter })
        | (none, meter) =>
          match dispatchMessages env exec { ctx3 with gas := meter } contractAccount
              res.messages with
          | (Res.ok _, ctx5) => (Res.ok (env.cosmosResult res), ctx5)
          | (Res.err e, ctx5) => (Res.err e, ctx5)
          | (Res.panic p, ctx5) => (Res.panic p, ctx5)
          | (Res.outOfFuel, ctx5) => (Res.outOfFuel, ctx5)

/-- Go `Keeper.Execute`. `fuel` is the nesting depth of contract-to-contract
calls the model follows; a call nested deeper than that is `outOfFuel`. -/
def Execute {L : Type} (env : Env L) : Nat → Exec L
  | 0 => ExecuteWith env (fun ctx _ _ _ _ => (Res.outOfFuel, ctx))
  | fuel + 1 => ExecuteWith env (Execute env fuel)

/-- The body of Go `Keeper.Instantiate`, over the `Keeper.Execute` that
dispatch calls. On the VM-failure path the Go code also returns the derived
address next to the error. -/
def InstantiateWith {L : Type} (env : Env L) (exec : Exec L) (ctx : Ctx L)
    (creator : AccAddress) (codeID : Nat) (initMsg : Bytes) (deposit : Coins) :
    Res AccAddress × Ctx L :=
  let (contractAddress, st1) := generateContractAddress env ctx.store codeID
  let ctx1 : Ctx L := { ctx with store := st1 }
  match env.getAccount ctx1.ledger contractAddress with
  | some existingAcct =>
    (Res.err ⟨ErrCode.accountExists, env.accAddressString existingAcct.address⟩, ctx1)
  | none =>
    let ctx2 : Ctx L :=
      { ctx1 with trace := Event.sendCoins creator contractAddress deposit :: ctx1.trace }
    match env.sendCoins ctx2.ledger creator contractAddress deposit with
    | Except.error e => (Res.err e, ctx2)
    | Except.ok ledger1 =>
      let ctx3 : Ctx L := { ctx2 with ledger := ledger1 }
      let contractAccount := env.getAccount ctx3.ledger contractAddress
      match ctx3.store.codes codeID with
      | none => (Res.err ⟨ErrCode.notFound, "contract"⟩, ctx3)
      | some codeInfo =>
        let params := NewParams creator deposit contractAccount
        let prefixStore := ctx3.store.contractStore contractAddress
        let gas := gasForContract ctx3.gas
        let vm := env.wasmerInstantiate codeInfo.codeHash params initMsg prefixStore gas
        let ctx4 : Ctx L :=
          { ctx3 with
            store := ctx3.store.setContractStore contractAddress vm.2
            trace := Event.vmInstantiate codeInfo.codeHash params initMsg gas :: ctx3.trace }
        match vm.1 with
        | Except.error e => (Res.err ⟨ErrCode.instantiateFailed, e⟩, ctx4)
        | Except.ok res =>
          match consumeGas ctx4.gas res.gasUsed with
          | (some p, meter) => (Res.panic p, { ctx4 with gas := meter })
          | (none, meter) =>
            match dispatchMessages env exec { ctx4 with gas := meter } contractAccount
                res.messages with
            | (Res.err e, ctx6) => (Res.err e, ctx6)
            | (Res.panic p, ctx6) => (Res.panic p, ctx6)
            | (Res.outOfFuel, ctx6) => (Res.outOfFuel, ctx6)
            | (Res.ok _, ctx6) =>
              let info := NewContractInfo codeID creator initMsg
              (Res.ok contractAddress,
                { ctx6 with store := ctx6.store.setContract contractAddress info })

/-- Go `Keeper.Instantiate`, with `fuel` as in `Execute`. -/
def Instantiate {L : Type} (env : Env L) (fuel : Nat) (ctx : Ctx L)
    (creator : AccAddress) (codeID : Nat) (initMsg : Bytes) (deposit : Coins) :
    Res AccAddress × Ctx L :=
  InstantiateWith env (Execute env fuel) ctx creator codeID initMsg deposit

/-! ## A small concrete host, for evaluating the keeper -/

/-- A one-denomination ledger: the balance of each account that exists. -/
abbrev Bank := List (AccAddress × Int)

/-- Balance lookup; `none` when the account does not exist. -/
def Bank.balance (b : Bank) (a : AccAddress) : Option Int :=
  match b with
  | [] => none
  | (x, v) :: rest => if x = a then some v else Bank.balance rest a

/-- Sets the balance of an account, creating it when needed. -/
def Bank.set (b : Bank) (a : AccAddress) (v : Int) : Bank :=
  match b with
  | [] => [(a, v)]
  | (x, w) :: rest => if x = a then (x, v) :: rest else (x, w) :: Bank.set rest a v

/-- Sum of the amounts of some coins. -/
def coinsTotal : Coins → Int
  | [] => 0
  | c :: cs => c.amount + coinsTotal cs

/-- Transfer on the sample ledger: fails on insufficient funds. -/
def Bank.send (b : Bank) (sender recipient : AccAddress) (amt : Coins) : Except Err Bank :=
  let total := coinsTotal amt
  let have_ := (Bank.balance b sender).getD 0
  if have_ < total then Except.error ⟨ErrCode.abci "sdk" 10, "insufficient coins"⟩
  else
    let b1 := Bank.set b sender (have_ - total)
    Except.ok (Bank.set b1 recipient ((Bank.balance b1 recipient).getD 0 + total))

/-- A message that sets none of the three kinds. -/
def emptyMsg : CosmosMsg :=
  { Send := ⟨"", "", []⟩, Contract := ⟨"", []⟩, Opaque := ⟨""⟩ }

/-- A contract-call message to the bech32 address `target`. -/
def callMsg (target : String) (payload : Bytes) : CosmosMsg :=
  { emptyMsg with Contract := ⟨target, payload⟩ }

/-- A transfer message. -/
def transferMsg (sender recipient : String) (amt : List WasmCoin) : CosmosMsg :=
  { emptyMsg with Send := ⟨sender, recipient, amt⟩ }

/-- The sample VM's execute entry point: payload `[0]` fails, `[1]` emits a
call to instance `"B"`, `[2]` emits a transfer of one token from `"B"` to
`"A"`, anything else succeeds quietly; every successful run records the
payload under key `[0]`. -/
def sampleExecute (msg : Bytes) (ps : Storage) : Except String VMResult × Storage :=
  let ps1 : Storage := fun k => if k = [0] then some msg else ps k
  match msg with
  | [0] => (Except.error "contract error", ps)
  | [1] => (Except.ok ⟨[], "", [callMsg "B" [3]], 500⟩, ps1)
  | [2] => (Except.ok ⟨[], "", [transferMsg "B" "A" [⟨"token", "1"⟩]], 500⟩, ps1)
  | _ => (Except.ok ⟨msg, "", [], 500⟩, ps1)

/-- The sample bech32 codec: one-letter names `"A"`, `"B"`, `"C"`. -/
def sampleFromBech32 (s : String) : Option AccAddress :=
  if s = "A" then some [65]
  else if s = "B" then some [66]
  else if s = "C" then some [67]
  else none

/-- Decimal digits to a number; `none` on any other character. -/
def parseDigits : List Char → Nat → Option Nat
  | [], acc => some acc
  | c :: cs, acc =>
    if 48 ≤ c.toNat ∧ c.toNat ≤ 57 then parseDigits cs (acc * 10 + (c.toNat - 48))
    else none

/-- The sample integer parser: an optional minus sign and decimal digits. -/
def sampleIntFromString (s : String) : Option Int :=
  match s.data with
  | [] => none
  | ['-'] => none
  | '-' :: ds => (parseDigits ds 0).map (fun n => - (n : Int))
  | ds => (parseDigits ds 0).map (fun n => (n : Int))

/-- The bank module's handler on the sample ledger. -/
def sampleBankHandler (b : Bank) (m : SdkMsg) : SdkResult × Bank :=
  match m.body with
  | MsgBody.send s =>
    match Bank.send b s.FromAddress s.ToAddress s.Amount with
    | Except.ok b1 => (⟨"", 0, [], ""⟩, b1)
    | Except.error e => (⟨"sdk", 10, [], e.msg⟩, b)
  | MsgBody.other _ => (⟨"sdk", 6, [], "unknown request"⟩, b)

/-- A concrete set of collaborators: a decompressor that rejects blobs
starting with `0`, a VM that rejects blobs shorter than two bytes, the sample
ledger, a router that knows the bank module only, and the identity as
address hash. -/
def sampleEnv : Env Bank :=
  { contractInfoSize := fun c => 8 + c.creator.length + c.initMsg.length
    codeInfoSize := fun c => c.codeHash.length + c.creator.length
    uncompress := fun code =>
      match code with
      | 0 :: _ => Except.error "invalid gzip header"
      | _ => Except.ok code
    wasmerCreate := fun code =>
      if code.length < 2 then Except.error "validation failed"
      else Except.ok [code.length % 256, code.sum % 256]
    wasmerInstantiate := fun _ _ initMsg ps _ =>
      match initMsg with
      | [0] => (Except.error "init error", ps)
      | _ => (Except.ok ⟨[], "", [], 1000⟩, ps)
    wasmerExecute := fun _ _ msg ps _ => sampleExecute msg ps
    wasmerQuery := fun _ req ps _ => (Except.ok (req, 100), ps)
    wasmerGetCode := fun h => Except.ok h
    getAccount := fun b a => (Bank.balance b a).map (fun v => ⟨a, [⟨"token", v⟩]⟩)
    sendCoins := Bank.send
    route := fun r => if r = "bank" then some sampleBankHandler else none
    accAddressFromBech32 := sampleFromBech32
    accAddressString := fun a => String.mk (a.map Char.ofNat)
    newIntFromString := sampleIntFromString
    addressHash := fun b => b
    cosmosResult := fun r => ⟨"", 0, r.data, r.log⟩ }

/-- A context on the sample ledger: creator `"A"` holds 100 tokens, the
store is empty, the meter has a limit of one million. -/
def sampleCtx : Ctx Bank :=
  { store := KVStore.empty, ledger := [([65], 100)], gas := ⟨1000000, 0⟩, trace := [] }

/-- A context in which code 1 is registered and instance `"B"` runs it. -/
def sampleCtxB : Ctx Bank :=
  { store :=
      { lastCodeID := some 2, lastInstanceID := some 2,
        codes := fun i => if i = 1 then some ⟨[2, 3], [65]⟩ else none,
        contracts := fun a => if a = [66] then some ⟨1, [65], []⟩ else none,
        contractStore := fun _ _ => none }
    ledger := [([65], 100), ([66], 5)], gas := ⟨1000000, 0⟩, trace := [] }

/-- The empty store with the instance counter set to `n`. -/
def storeAtInstance (n : Nat) : KVStore :=
  { KVStore.empty with lastInstanceID := some n }

/-! ## Runs of the keeper -/

/-- One step of a run: a public operation of the keeper on the current
context, or the host moving on (a new transaction brings its own gas meter,
other modules change the ledger) without touching the keeper's store. -/
inductive Step {L : Type} (env : Env L) : Ctx L → Ctx L → Prop where
  | create (ctx : Ctx L) (creator : AccAddress) (wasmCode : Bytes) :
      Step env ctx (Create env ctx creator wasmCode).2
  | instantiate (ctx : Ctx L) (fuel : Nat) (creator : AccAddress) (codeID : Nat)
      (initMsg : Bytes) (deposit : Coins) :
      Step env ctx (Instantiate env fuel ctx creator codeID initMsg deposit).2
  | execute (ctx : Ctx L) (fuel : Nat) (contractAddress caller : AccAddress) (coins : Coins)
      (msg : Bytes) :
      Step env ctx (Execute env fuel ctx contractAddress caller coins msg).2
  | host (ctx : Ctx L) (ledger : L) (gas : GasMeter) :
      Step env ctx { ctx with ledger := ledger, gas := gas }

/-- `Steps env a n b`: a run of `n` steps leads from `a` to `b`. -/
inductive Steps {L : Type} (env : Env L) : Ctx L → Nat → Ctx L → Prop where
  | refl (a : Ctx L) : Steps env a 0 a
  | tail {a b c : Ctx L} {n : Nat} : Steps env a n b → Step env b c → Steps env a (n + 1) c

/-- Two stores agree on what the code registry owns: the code counter and
every `CodeInfo`. -/
def SameCodes (a b : KVStore) : Prop :=
  a.lastCodeID = b.lastCodeID ∧ a.codes = b.codes

/-- The code registry is consistent after at most `n` steps: the next
codeID is between 1 and `n + 1`, and no `CodeInfo` is stored at it or above. -/
def CodeInv (n : Nat) (st : KVStore) : Prop :=
  1 ≤ GetNextCodeID st ∧ GetNextCodeID st ≤ n + 1 ∧
  ∀ id, GetNextCodeID st ≤ id → st.codes id = none

/-! ## Decoding the address buffer -/

/-- Go `binary.Uvarint` on a buffer: the inverse of `putUvarint` (without the
overflow check of the Go decoder). -/
def Uvarint : List Nat → Nat
  | [] => 0
  | b :: bs => if b ≥ 128 then b % 128 + 128 * Uvarint bs else b

/-! ## Queries -/

/-- Go `Keeper.QuerySmart`. `queryGasLimit` is the keeper's field of that
name (`NewKeeper` sets it to `smartQueryGasLimit`). The query runs under
`ctx.WithGasMeter(sdk.NewGasMeter(queryGasLimit))`, a meter local to the
call: the context returned is the caller's, with the caller's own meter. -/
def QuerySmart {L : Type} (env : Env L) (queryGasLimit : Nat) (ctx : Ctx L)
    (contractAddr : AccAddress) (req : Bytes) : Res Bytes × Ctx L :=
  let qctx : Ctx L := { ctx with gas := { limit := queryGasLimit, consumed := 0 } }
  match contractInstanceMetered env qctx contractAddr with
  | (Res.err e, _) => (Res.err e, ctx)
  | (Res.panic p, _) => (Res.panic p, ctx)
  | (Res.outOfFuel, _) => (Res.outOfFuel, ctx)
  | (Res.ok (codeInfo, prefixStore), qmeter) =>
    let gas := gasForContract qmeter
    let vm := env.wasmerQuery codeInfo.codeHash req prefixStore gas
    let ctx1 : Ctx L :=
      { ctx with
        store := ctx.store.setContractStore contractAddr vm.2
        trace := Event.vmQuery codeInfo.codeHash req gas :: ctx.trace }
    match vm.1 with
    | Except.error e => (Res.err ⟨ErrCode.queryFailed, e⟩, ctx1)
    | Except.ok (queryResult, gasUsed) =>
      match consumeGas qmeter gasUsed with
      | (some p, _) => (Res.panic p, ctx1)
      | (none, _) => (Res.ok queryResult, ctx1)

/-- One raw storage entry (`types.Model`). -/
structure Model where
  Key : Bytes
  Value : Bytes
  deriving DecidableEq, Repr

/-- The body of Go `Keeper.QueryRaw` once the prefixed store is built. A nil
key is `none`. -/
def QueryRawOn (prefixStore : Storage) (key : Option Bytes) : List Model :=
  match key with
  | none => []
  | some k =>
    match prefixStore k with
    | some val => [{ Key := k, Value := val }]
    | none => []

/-- Go `Keeper.QueryRaw`. -/
def QueryRaw {L : Type} (ctx : Ctx L) (contractAddress : AccAddress) (key : Option Bytes) :
    List Model :=
  QueryRawOn (ctx.store.contractStore contractAddress) key

/-- Go `prefixStore.Set(key, value)`. -/
def Storage.set (ps : Storage) (key value : Bytes) : Storage :=
  fun k => if k = key then some value else ps k

/-- The loop of Go `Keeper.setContractState` on the prefixed store. -/
def setModels (ps : Storage) : List Model → Storage
  | [] => ps
  | model :: models => setModels (ps.set model.Key model.Value) models

/-- Go `Keeper.setContractState`. -/
def setContractState {L : Type} (ctx : Ctx L) (contractAddress : AccAddress)
    (models : List Model) : Ctx L :=
  { ctx with
    store := ctx.store.setContractStore contractAddress
      (setModels (ctx.store.contractStore contractAddress) models) }

/-! ## The byte keys beneath the store -/

/-- The keeper's store as the host keeps it: bytes to bytes. -/
abbrev RawStore := Bytes → Option Bytes

/-- Go `store.Set` on the raw store. -/
def RawStore.set (raw : RawStore) (key value : Bytes) : RawStore :=
  fun k => if k = key then some value else raw k

/-- Go `sdk.Uint64ToBigEndian`: the eight bytes of a `uint64`, most
significant first. -/
def Uint64ToBigEndian (v : Nat) : Bytes :=
  [v / 2 ^ 56 % 256, v / 2 ^ 48 % 256, v / 2 ^ 40 % 256, v / 2 ^ 32 % 256,
    v / 2 ^ 24 % 256, v / 2 ^ 16 % 256, v / 2 ^ 8 % 256, v % 256]

/-- Modelled from the spec: `types.GetCodeKey`, the key `code/{codeID}`; the
keeper's comment gives it as `0x01 | codeID (uint64)`. -/
def GetCodeKey (codeID : Nat) : Bytes := 1 :: Uint64ToBigEndian codeID

/-- Modelled from the spec: `types.GetContractAddressKey`, the key
`contract/{address}`; the keeper's comment gives it as
`0x02 | contractAddress`. -/
def GetContractAddressKey (addr : AccAddress) : Bytes := 2 :: addr

/-- Modelled from the spec: `types.GetContractStorePrefixKey`, the prefix of
`contract-store/{address}/{key}`; the keeper's comment gives it as
`0x03 | contractAddress`. -/
def GetContractStorePrefixKey (addr : AccAddress) : Bytes := 3 :: addr

/-- Modelled from the spec: `prefix.NewStore(store, prefixKey)` read through:
every key is prefixed with `prefixKey`. -/
def RawStore.prefixed (raw : RawStore) (prefixKey : Bytes) : Storage :=
  fun k => raw (prefixKey ++ k)

/-- Go `Keeper.QueryRaw` on the raw store. -/
def QueryRawBytes (raw : RawStore) (contractAddress : AccAddress) (key : Option Bytes) :
    List Model :=
  QueryRawOn (raw.prefixed (GetContractStorePrefixKey contractAddress)) key

/-- Go `Keeper.setContractState` on the raw store: each model is written
under the instance's prefix. -/
def setContractStateBytes (raw : RawStore) (contractAddress : AccAddress) :
    List Model → RawStore
  | [] => raw
  | model :: models =>
    setContractStateBytes
      (raw.set (GetContractStorePrefixKey contractAddress ++ model.Key) model.Value)
      contractAddress models

/-! ## What the orchestrator leaves alone -/

/-- `After a b`: context `a` has the counters, the `CodeInfo`s and the
`ContractInfo`s of `b`, and its record of external calls extends that of
`b`. -/
def After {L : Type} (a b : Ctx L) : Prop :=
  a.store.lastCodeID = b.store.lastCodeID ∧
  a.store.lastInstanceID = b.store.lastInstanceID ∧
  a.store.codes = b.store.codes ∧
  a.store.contracts = b.store.contracts ∧
  ∃ pre : List Event, a.trace = pre ++ b.trace

/-- Every stored `ContractInfo` refers to a stored `CodeInfo`. -/
def ContractsHaveCode (st : KVStore) : Prop :=
  ∀ (addr : AccAddress) (info : ContractInfo),
    st.contracts addr = some info → st.codes info.codeID ≠ none

/-- The sample context after code 1 has been uploaded by `"A"`. -/
def sampleCtxCode : Ctx Bank := (Create sampleEnv sampleCtx [65] [1, 2]).2

/-- The sample context with code 1 uploaded and an account already sitting at
the address the next instantiation of code 1 derives. -/
def sampleCtxOccupied : Ctx Bank :=
  { sampleCtxCode with ledger := [([65], 100), (addrBuffer (contractID 1 1), 3)] }

/-! ## Dispatch in emission order -/

/-- The messages dispatched one after the other for as long as each one
succeeds: the context after the last of them, or `none` as soon as one
fails. -/
def dispatchInOrder {L : Type} (env : Env L) (exec : Exec L) (contract : Option Account) :
    Ctx L → List CosmosMsg → Option (Ctx L)
  | ctx, [] => some ctx
  | ctx, msg :: msgs =>
    match dispatchMessage env exec ctx contract msg with
    | (Res.ok _, ctx1) => dispatchInOrder env exec contract ctx1 msgs
    | _ => none

/-- The store counter `generateContractAddress` reads next. -/
def nextInstanceID (st : KVStore) : Nat :=
  (autoIncrementID st IDKey.KeyLastInstanceID).1

/-! ## Service module: integers and coins of the host library -/

/-- The maximal bit length of an `sdk.Int`. -/
def maxBitLen : Nat := 255

/-- The bit length of a natural number by repeated halving; `fuel` bounds
the number of halvings. -/
def bitLenLoop : Nat → Nat → Nat
  | 0, _ => 0
  | fuel + 1, n => if n = 0 then 0 else bitLenLoop fuel (n / 2) + 1

/-- Go `big.Int.BitLen`: the length of the absolute value in bits, 0 for 0. -/
def BitLen (x : Int) : Nat := bitLenLoop x.natAbs x.natAbs

/-- Go `strings.Compare(a, b) == -1` on denominations: lexicographic order
of the characters. -/
def denomLt (a b : String) : Prop := a.data < b.data

instance (a b : String) : Decidable (denomLt a b) :=
  inferInstanceAs (Decidable (a.data < b.data))

/-- Go `sdk.Int.Mul`: a pre-check on the bit lengths of the factors, the
product, and a check of the product's bit length; `none` is the panic
"Int overflow". -/
def IntMul (a b : Int) : Option Int :=
  if (BitLen a : Int) + (BitLen b : Int) - 1 > (maxBitLen : Int) then none
  else if BitLen (a * b) > maxBitLen then none
  else some (a * b)

/-- Go `sdk.Int.Add`; `none` is the panic "Int overflow". -/
def IntAdd (a b : Int) : Option Int :=
  if BitLen (a + b) > maxBitLen then none else some (a + b)

/-- Go `removeZeroCoins`. -/
def removeZeroCoins (coins : Coins) : Coins :=
  coins.filter (fun c => decide (c.amount ≠ 0))

/-- The amount held in a denomination: that of the first coin of the
denomination, zero when there is none. On coins sorted by denomination this
is what `Coins.AmountOf` finds (`AmountOf_eq_lookup`). -/
def Coins.lookup : Coins → String → Int
  | [], _ => 0
  | c :: rest, denom => if c.denom = denom then c.amount else Coins.lookup rest denom

/-- The recursion of Go `sdk.Coins.AmountOf`, a binary search by
denomination; `n` bounds its depth. -/
def amountOfLoop : Nat → Coins → String → Int
  | 0, _, _ => 0
  | _ + 1, [], _ => 0
  | _ + 1, [coin], denom => if coin.denom = denom then coin.amount else 0
  | n + 1, c1 :: c2 :: rest, denom =>
    let midIdx := (c1 :: c2 :: rest).length / 2
    match (c1 :: c2 :: rest).drop midIdx with
    | [] => 0
    | coin :: after =>
      if denomLt denom coin.denom then amountOfLoop n ((c1 :: c2 :: rest).take midIdx) denom
      else if denom = coin.denom then coin.amount
      else amountOfLoop n after denom

/-- Go `sdk.Coins.AmountOf`. Its check of the denomination is left out: the
keeper looks up only denominations of coins `NewCoin` has validated. -/
def Coins.AmountOf (coins : Coins) (denom : String) : Int :=
  amountOfLoop coins.length coins denom

/-- Go `sdk.Coins.IsZero`. -/
def Coins.IsZero (coins : Coins) : Bool :=
  coins.all (fun c => decide (c.amount = 0))

/-- Go `sdk.Coins.IsAnyNegative`. -/
def Coins.IsAnyNegative (coins : Coins) : Bool :=
  coins.any (fun c => decide (c.amount < 0))

/-- Go `sdk.Coins.IsAllGTE`: false if some denomination of `coinsB` is held
at a smaller amount in `coins`. -/
def Coins.IsAllGTE (coins coinsB : Coins) : Bool :=
  if coinsB.length = 0 then true
  else if coins.length = 0 then false
  else coinsB.all (fun coinB => !decide (coinB.amount > Coins.AmountOf coins coinB.denom))

/-- The loop of Go `sdk.Coins.safeAdd`, a merge of two lists sorted by
denomination that sums equal denominations and drops zero amounts; `n`
bounds the number of iterations, `none` is the panic of an overflowing
sum. -/
def safeAddLoop : Nat → Coins → Coins → Option Coins
  | 0, _, _ => some []
  | _ + 1, [], coinsB => some (removeZeroCoins coinsB)
  | _ + 1, coinA :: restA, [] => some (removeZeroCoins (coinA :: restA))
  | n + 1, coinA :: restA, coinB :: restB =>
    if denomLt coinA.denom coinB.denom then
      (safeAddLoop n restA (coinB :: restB)).map
        (fun sum => if coinA.amount = 0 then sum else coinA :: sum)
    else if coinA.denom = coinB.denom then
      match IntAdd coinA.amount coinB.amount with
      | none => none
      | some res =>
        (safeAddLoop n restA restB).map
          (fun sum => if res = 0 then sum else { denom := coinA.denom, amount := res } :: sum)
    else
      (safeAddLoop n (coinA :: restA) restB).map
        (fun sum => if coinB.amount = 0 then sum else coinB :: sum)

/-- Go `sdk.Coins.Add`. -/
def Coins.Add (coins coinsB : Coins) : Option Coins :=
  safeAddLoop (coins.length + coinsB.length + 1) coins coinsB

/-- Go `sdk.NewCoin`: panics (`none`) on an invalid denomination or a
negative amount. `validDenom` is the host's denomination check. -/
def NewCoin (validDenom : String → Bool) (denom : String) (amount : Int) : Option Coin :=
  if validDenom denom = false then none
  else if amount < 0 then none
  else some { denom := denom, amount := amount }

/-- Go `sdk.NewCoins` of one coin built by `NewCoin`: the coin, or nothing
when its amount is zero. -/
def NewCoins1 (coin : Coin) : Coins := removeZeroCoins [coin]

/-- The sum of the amounts of the prices in one denomination. -/
def priceSum : List Coin → String → Int
  | [], _ => 0
  | p :: rest, denom => (if p.denom = denom then p.amount else 0) + priceSum rest denom

/-- Coins sorted by strictly increasing denomination, as valid `sdk.Coins`
are. -/
def CoinsSorted (coins : Coins) : Prop :=
  List.Pairwise (fun x y : Coin => denomLt x.denom y.denom) coins

/-! ## Service module: bindings -/

/-- Error kinds of the service keeper (the wrapped text is left out);
`supply` is an error of the supply keeper. -/
inductive SvcErr where
  | ErrUnknownSvcDef
  | ErrSvcBindingExists
  | ErrUnknownSvcBinding
  | ErrUnavailable
  | ErrAvailable
  | ErrLtMinProviderDeposit
  | ErrRefundDeposit
  | ErrIntOverflow
  | ErrInvalidPriceCount
  | supply (code : Nat)
  deriving DecidableEq, Repr

/-- Outcome of a service keeper call: a value, a returned error, or a panic
of the host library. -/
inductive SvcRes (α : Type) where
  | ok (a : α)
  | err (e : SvcErr)
  | panic (reason : String)
  deriving DecidableEq, Repr

/-- The body of the price loop of Go `Keeper.getMinDeposit`, with the
deposit accumulated so far. -/
def getMinDepositLoop (validDenom : String → Bool) (minDepositMultiple : Int) :
    Coins → List Coin → SvcRes Coins
  | minDeposit, [] => SvcRes.ok minDeposit
  | minDeposit, price :: rest =>
    if (BitLen price.amount : Int) + (BitLen minDepositMultiple : Int) - 1 > 255 then
      SvcRes.err SvcErr.ErrIntOverflow
    else
      match IntMul price.amount minDepositMultiple with
      | none => SvcRes.panic "Int overflow"
      | some minInt =>
        match NewCoin validDenom price.denom minInt with
        | none => SvcRes.panic "invalid coin"
        | some coin =>
          match Coins.Add minDeposit (NewCoins1 coin) with
          | none => SvcRes.panic "Int overflow"
          | some sum => getMinDepositLoop validDenom minDepositMultiple sum rest

/-- Go `Keeper.getMinDeposit`; `minDepositMultiple` is
`params.MinDepositMultiple`. -/
def getMinDeposit (validDenom : String → Bool) (minDepositMultiple : Int)
    (prices : List Coin) : SvcRes Coins :=
  getMinDepositLoop validDenom minDepositMultiple [] prices

/-- Go `types.Level`. -/
structure Level where
  AvgRspTime : Int
  UsableTime : Int
  deriving DecidableEq, Repr

/-- Go `types.SvcBinding`. Times are counts of nanoseconds; the zero
`time.Time{}` is 0. -/
structure SvcBinding where
  DefName : String
  DefChainID : String
  BindChainID : String
  Provider : AccAddress
  BindingType : Nat
  Deposit : Coins
  Prices : List Coin
  Level : Level
  Available : Bool
  DisableTime : Int
  deriving DecidableEq, Repr

/-- Modelled from the spec: the store key `types.GetServiceBindingKey`
builds from its four arguments (the key constructor is not under src/). -/
structure BindingKey where
  defChainID : String
  defName : String
  bindChainID : String
  provider : AccAddress
  deriving DecidableEq, Repr

/-- The key `SetServiceBinding` stores a binding under: the binding's own
identifying fields. -/
def SvcBinding.key (b : SvcBinding) : BindingKey :=
  { defChainID := b.DefChainID, defName := b.DefName, bindChainID := b.BindChainID,
    provider := b.Provider }

/-- Modelled from the spec: `types.NewSvcBinding` (not under src/): the
binding with its fields set from the arguments; `AddServiceBinding` sets the
disable time itself. -/
def NewSvcBinding (blockTime : Int) (defChainID defName bindChainID : String)
    (provider : AccAddress) (bindingType : Nat) (deposit : Coins) (prices : List Coin)
    (level : Level) (available : Bool) : SvcBinding :=
  { DefName := defName, DefChainID := defChainID, BindChainID := bindChainID,
    Provider := provider, BindingType := bindingType, Deposit := deposit, Prices := prices,
    Level := level, Available := available, DisableTime := blockTime }

/-- The parameters of the service module the keeper reads. -/
structure SvcParams where
  MinDepositMultiple : Int
  ArbitrationTimeLimit : Int
  ComplaintRetrospect : Int
  deriving DecidableEq, Repr

/-- The context of a service keeper call: the stored bindings, whether a
service definition exists, how many methods it has, the parameters, the
block time, and the state `S` of the supply keeper. -/
structure SvcCtx (S : Type) where
  bindings : BindingKey → Option SvcBinding
  definitions : String → String → Bool
  methods : String → String → Nat
  params : SvcParams
  blockTime : Int
  supply : S

/-- The collaborators of the service keeper: the supply keeper's two
transfers, the host's denomination check, and the name of the deposit module
account. -/
structure SvcEnv (S : Type) where
  SendCoinsFromAccountToModule : S → AccAddress → String → Coins → Except SvcErr S
  SendCoinsFromModuleToAccount : S → String → AccAddress → Coins → Except SvcErr S
  validDenom : String → Bool
  DepositAccName : String

/-- Go `Keeper.GetServiceBinding`; `none` is `found = false`. -/
def GetServiceBinding {S : Type} (ctx : SvcCtx S) (defChainID defName bindChainID : String)
    (provider : AccAddress) : Option SvcBinding :=
  ctx.bindings ⟨defChainID, defName, bindChainID, provider⟩

/-- Go `Keeper.SetServiceBinding`. -/
def SetServiceBinding {S : Type} (ctx : SvcCtx S) (svcBinding : SvcBinding) : SvcCtx S :=
  { ctx with bindings := fun k => if k = svcBinding.key then some svcBinding else ctx.bindings k }

/-- Go `Keeper.validateMethodPrices`; `none` is no error. -/
def validateMethodPrices {S : Type} (ctx : SvcCtx S) (svcBinding : SvcBinding) : Option SvcErr :=
  if ctx.methods svcBinding.DefChainID svcBinding.DefName ≠ svcBinding.Prices.length then
    some SvcErr.ErrInvalidPriceCount
  else none

/-- Go `Keeper.AddServiceBinding`. -/
def AddServiceBinding {S : Type} (env : SvcEnv S) (ctx : SvcCtx S)
    (defChainID defName bindChainID : String) (provider : AccAddress) (bindingType : Nat)
    (deposit : Coins) (prices : List Coin) (level : Level) : SvcRes Unit × SvcCtx S :=
  if ctx.definitions defChainID defName = false then (SvcRes.err SvcErr.ErrUnknownSvcDef, ctx)
  else
    match GetServiceBinding ctx defChainID defName bindChainID provider with
    | some _ => (SvcRes.err SvcErr.ErrSvcBindingExists, ctx)
    | none =>
      match getMinDeposit env.validDenom ctx.params.MinDepositMultiple prices with
      | SvcRes.err e => (SvcRes.err e, ctx)
      | SvcRes.panic reason => (SvcRes.panic reason, ctx)
      | SvcRes.ok minDeposit =>
        if Coins.IsAllGTE deposit minDeposit = false then
          (SvcRes.err SvcErr.ErrLtMinProviderDeposit, ctx)
        else
          let svcBinding := NewSvcBinding ctx.blockTime defChainID defName bindChainID provider
            bindingType deposit prices level true
          match validateMethodPrices ctx svcBinding with
          | some e => (SvcRes.err e, ctx)
          | none =>
            match env.SendCoinsFromAccountToModule ctx.supply svcBinding.Provider
                env.DepositAccName svcBinding.Deposit with
            | Except.error e => (SvcRes.err e, ctx)
            | Except.ok supply1 =>
              (SvcRes.ok (),
                SetServiceBinding { ctx with supply := supply1 }
                  { svcBinding with DisableTime := 0 })

/-- Go `Keeper.Disable`. -/
def Disable {S : Type} (ctx : SvcCtx S) (defChainID defName bindChainID : String)
    (provider : AccAddress) : SvcRes Unit × SvcCtx S :=
  match GetServiceBinding ctx defChainID defName bindChainID provider with
  | none => (SvcRes.err SvcErr.ErrUnknownSvcBinding, ctx)
  | some binding =>
    if binding.Available = false then (SvcRes.err SvcErr.ErrUnavailable, ctx)
    else
      (SvcRes.ok (),
        SetServiceBinding ctx { binding with Available := false, DisableTime := ctx.blockTime })

/-- Go `Keeper.Enable`. -/
def Enable {S : Type} (env : SvcEnv S) (ctx : SvcCtx S) (defChainID defName bindChainID : String)
    (provider : AccAddress) (deposit : Coins) : SvcRes Unit × SvcCtx S :=
  match GetServiceBinding ctx defChainID defName bindChainID provider with
  | none => (SvcRes.err SvcErr.ErrUnknownSvcBinding, ctx)
  | some binding =>
    if binding.Available = true then (SvcRes.err SvcErr.ErrAvailable, ctx)
    else
      -- Add coins to svcBinding deposit
      match (if Coins.IsAnyNegative deposit = false then Coins.Add binding.Deposit deposit
          else some binding.Deposit) with
      | none => (SvcRes.panic "Int overflow", ctx)
      | some newDeposit =>
        let binding1 := { binding with Deposit := newDeposit }
        match getMinDeposit env.validDenom ctx.params.MinDepositMultiple binding1.Prices with
        | SvcRes.err e => (SvcRes.err e, ctx)
        | SvcRes.panic reason => (SvcRes.panic reason, ctx)
        | SvcRes.ok minDeposit =>
          if Coins.IsAllGTE binding1.Deposit minDeposit = false then
            (SvcRes.err SvcErr.ErrLtMinProviderDeposit, ctx)
          else
            match env.SendCoinsFromAccountToModule ctx.supply binding1.Provider
                env.DepositAccName deposit with
            | Except.error e => (SvcRes.err e, ctx)
            | Except.ok supply1 =>
              (SvcRes.ok (),
                SetServiceBinding { ctx with supply := supply1 }
                  { binding1 with Available := true, DisableTime := 0 })

/-- Go `Keeper.RefundDeposit`. -/
def RefundDeposit {S : Type} (env : SvcEnv S) (ctx : SvcCtx S)
    (defChainID defName bindChainID : String) (provider : AccAddress) :
    SvcRes Unit × SvcCtx S :=
  match GetServiceBinding ctx defChainID defName bindChainID provider with
  | none => (SvcRes.err SvcErr.ErrUnknownSvcBinding, ctx)
  | some binding =>
    if binding.Available = true then (SvcRes.err SvcErr.ErrAvailable, ctx)
    else if Coins.IsZero binding.Deposit = true then (SvcRes.err SvcErr.ErrRefundDeposit, ctx)
    else
      let blockTime := ctx.blockTime
      let refundTime :=
        binding.DisableTime + ctx.params.ArbitrationTimeLimit + ctx.params.ComplaintRetrospect
      if blockTime < refundTime then (SvcRes.err SvcErr.ErrRefundDeposit, ctx)
      else
        match env.SendCoinsFromModuleToAccount ctx.supply env.DepositAccName binding.Provider
            binding.Deposit with
        | Except.error e => (SvcRes.err e, ctx)
        | Except.ok supply1 =>
          (SvcRes.ok (),
            SetServiceBinding { ctx with supply := supply1 } { binding with Deposit := [] })

instance (coins : Coins) : Decidable (CoinsSorted coins) :=
  inferInstanceAs (Decidable (List.Pairwise (fun x y : Coin => denomLt x.denom y.denom) coins))

/-! ## Service module: a sample host -/

/-- One transfer of a sample supply keeper. -/
structure SvcTransfer where
  toModule : Bool
  account : AccAddress
  module : String
  amount : Coins
  deriving DecidableEq, Repr

/-- A sample host of the service keeper: the supply state is the log of the
transfers made (most recent first), and no transfer fails. -/
def sampleSvcEnv : SvcEnv (List SvcTransfer) :=
  { SendCoinsFromAccountToModule := fun s acc m amt =>
      Except.ok ({ toModule := true, account := acc, module := m, amount := amt } :: s)
    SendCoinsFromModuleToAccount := fun s m acc amt =>
      Except.ok ({ toModule := false, account := acc, module := m, amount := amt } :: s)
    validDenom := fun _ => true
    DepositAccName := "service_deposit_account" }

/-- A sample context: no binding stored, every definition known with two
methods, a deposit multiple of 3, block time 1000. -/
def sampleSvcCtx : SvcCtx (List SvcTransfer) :=
  { bindings := fun _ => none
    definitions := fun _ _ => true
    methods := fun _ _ => 2
    params := { MinDepositMultiple := 3, ArbitrationTimeLimit := 100, ComplaintRetrospect := 50 }
    blockTime := 1000
    supply := [] }

/-- A sample binding of provider `[7]`, available, with a deposit. -/
def sampleBinding : SvcBinding :=
  { DefName := "svc", DefChainID := "chain-a", BindChainID := "chain-b", Provider := [7],
    BindingType := 1, Deposit := [⟨"atom", 6⟩, ⟨"iris", 18⟩],
    Prices := [⟨"iris", 5⟩, ⟨"atom", 2⟩], Level := ⟨10, 9999⟩, Available := true,
    DisableTime := 0 }

/-- The sample context with the sample binding stored. -/
def sampleSvcCtxBound : SvcCtx (List SvcTransfer) := SetServiceBinding sampleSvcCtx sampleBinding

/-- The sample context with the sample binding stored as disabled at time
800. -/
def sampleSvcCtxDisabled : SvcCtx (List SvcTransfer) :=
  SetServiceBinding sampleSvcCtx { sampleBinding with Available := false, DisableTime := 800 }

/-! ## Guardian module: the profiler commands -/

/-- The messages the profiler commands build: Go `types.NewMsgAddProfiler`
and `types.NewMsgDeleteProfiler` with their arguments in order. -/
inductive GuardianMsg where
  | MsgAddProfiler (description : String) (address : AccAddress) (addedBy : AccAddress)
  | MsgDeleteProfiler (address : AccAddress) (deletedBy : AccAddress)
  deriving DecidableEq, Repr

/-- What a command's `RunE` does: return an error, or hand the messages to
`utils.GenerateOrBroadcastMsgs` and return what that returns. -/
inductive CmdRes where
  | error (text : String)
  | broadcast (msgs : List GuardianMsg)
  deriving DecidableEq, Repr

/-- What the commands read from their surroundings: the bech32 decoder and
the sender `cliCtx.GetFromAddress()`. -/
structure CliEnv where
  AccAddressFromBech32 : String → Except String AccAddress
  fromAddr : AccAddress

/-- The `RunE` of Go `GetCmdCreateProfiler`, on the values of the flags
`--address` and `--description`. -/
def GetCmdCreateProfiler (env : CliEnv) (paStr description : String) : CmdRes :=
  let fromAddr := env.fromAddr
  if paStr.length = 0 then CmdRes.error "must use --address flag"
  else
    match env.AccAddressFromBech32 paStr with
    | Except.error err => CmdRes.error err
    | Except.ok pAddr =>
      if description.length = 0 then CmdRes.error "must use --description flag"
      else CmdRes.broadcast [GuardianMsg.MsgAddProfiler description pAddr fromAddr]

/-- The `RunE` of Go `GetCmdDeleteProfiler`, on the value of the flag
`--address`. -/
def GetCmdDeleteProfiler (env : CliEnv) (paStr : String) : CmdRes :=
  let fromAddr := env.fromAddr
  if paStr.length = 0 then CmdRes.error "must use --address flag"
  else
    match env.AccAddressFromBech32 paStr with
    | Except.error err => CmdRes.error err
    | Except.ok pAddr => CmdRes.broadcast [GuardianMsg.MsgDeleteProfiler pAddr fromAddr]

/-- Modelled from the spec: the account type of a guardian
(`guardian.Ordinary` in `TestIritaCLIAddProfiler`; the guardian types are not
under src/). -/
inductive AccountType where
  | Genesis
  | Ordinary
  deriving DecidableEq, Repr

/-- Modelled from the spec: a guardian as `guardian.NewGuardian(description,
accountType, address, addedBy)` builds it in `TestIritaCLIAddProfiler`. -/
structure Guardian where
  Description : String
  AccountType : AccountType
  Address : AccAddress
  AddedBy : AccAddress
  deriving DecidableEq, Repr

/-- Modelled from the spec: `guardian.NewGuardian`. -/
def NewGuardian (description : String) (accountType : AccountType)
    (address addedBy : AccAddress) : Guardian :=
  { Description := description, AccountType := accountType, Address := address,
    AddedBy := addedBy }

/-- Modelled from the spec: what a delivered profiler message does to the
profilers the chain keeps, one per address, as `TestIritaCLIAddProfiler`
expects of it (the guardian handler and keeper are not under src/): an add
records the Ordinary guardian of the address, a delete removes the guardian of
the address. -/
def deliverGuardianMsg (profilers : List Guardian) : GuardianMsg → List Guardian
  | GuardianMsg.MsgAddProfiler description address addedBy =>
    NewGuardian description AccountType.Ordinary address addedBy
      :: profilers.filter (fun g => decide (g.Address ≠ address))
  | GuardianMsg.MsgDeleteProfiler address _ =>
    profilers.filter (fun g => decide (g.Address ≠ address))

/-- A sample command line: the sample bech32 codec, sender `"A"`. -/
def sampleCliEnv : CliEnv :=
  { AccAddressFromBech32 := fun s =>
      match sampleFromBech32 s with
      | some a => Except.ok a
      | none => Except.error "decoding bech32 failed"
    fromAddr := [65] }

/-! # Theorems -/

/-! ## Gas bridge -/

/-- Without wrap-around `gasForContract` is the clamped product. -/
theorem gasForContract_eq_min_of_no_wrap (meter : GasMeter) (hL : meter.limit < u64)
    (hc : meter.consumed ≤ meter.limit)
    (hr : (meter.limit - meter.consumed) * GasMultiplier < u64) :
    gasForContract meter = min ((meter.limit - meter.consumed) * GasMultiplier) MaxGas := by
  have hsub : sub64 meter.limit meter.consumed = meter.limit - meter.consumed := by
    unfold sub64 u64 at *
    omega
  unfold gasForContract
  simp only [hsub, mul64, Nat.mod_eq_of_lt hr]
  split <;> omega

/-- C3: `gasForContract` on a meter with limit 184467440737095517 and nothing
consumed returns 84, where the clamped true product is 900000000: the 64-bit
multiplication by `GasMultiplier` wraps around before the clamp. -/
theorem gasForContract_wraps_at_large_limit :
    gasForContract ⟨184467440737095517, 0⟩ = 84 ∧
    (0 : Nat) ≤ 184467440737095517 ∧ 184467440737095517 < u64 ∧
    min ((184467440737095517 - 0) * GasMultiplier) MaxGas = 900000000 := by
  decide

/-- C4: for every gas meter state whatsoever the VM gas budget returned by
`gasForContract` is at most `MaxGas`. -/
theorem gasForContract_le_MaxGas (meter : GasMeter) : gasForContract meter ≤ MaxGas := by
  simp only [gasForContract]
  split
  · exact le_refl _
  · omega

/-- C5: reporting VM gas `c ≤ L` through `consumeGas` on a fresh meter with
limit `L` does not panic, increases the consumed value by exactly
`c / 100`, and the resulting consumed value does not exceed `L`. -/
theorem consumeGas_fresh_meter (L c : Nat) (hL : L < u64) (hc : c ≤ L) :
    consumeGas ⟨L, 0⟩ c = (none, ⟨L, 0 + c / 100⟩) ∧
    (consumeGas ⟨L, 0⟩ c).2.consumed ≤ L := by
  have h1 : c / 100 ≤ L := le_trans (Nat.div_le_self c 100) hc
  have h2 : ¬ (u64 ≤ c / 100) := by omega
  have h3 : add64 0 (c / 100) = c / 100 := by
    unfold add64
    rw [Nat.zero_add]
    exact Nat.mod_eq_of_lt (by omega)
  have h4 : consumeGas ⟨L, 0⟩ c = (none, ⟨L, 0 + c / 100⟩) := by
    have h5 : ¬ (c / 100 > L) := by omega
    simp only [consumeGas, GasMeter.ConsumeGas, GasMultiplier, h3, h2, h5, if_false, Nat.zero_add]
  rw [h4]
  exact ⟨rfl, by simpa using h1⟩

/-- Witness of C5: a budget of 1000 and a consumption of 250. -/
theorem consumeGas_fresh_meter_witness :
    consumeGas ⟨1000, 0⟩ 250 = (none, ⟨1000, 0 + 250 / 100⟩) ∧
    (consumeGas ⟨1000, 0⟩ 250).2.consumed ≤ 1000 :=
  consumeGas_fresh_meter 1000 250 (by decide) (by decide)

/-- C6: when the budget is not clamped (`r * 100 ≤ MaxGas` for the remaining
gas `r = limit - consumed`), the budget is `r * 100`, dividing it back gives
`r`, and reporting the whole budget charges the host meter exactly `r`
without running it out of gas. -/
theorem gas_scaling_symmetric (meter : GasMeter) (hL : meter.limit < u64)
    (hc : meter.consumed ≤ meter.limit)
    (hr : (meter.limit - meter.consumed) * GasMultiplier ≤ MaxGas) :
    gasForContract meter = (meter.limit - meter.consumed) * GasMultiplier ∧
    gasForContract meter / GasMultiplier = meter.limit - meter.consumed ∧
    consumeGas meter (gasForContract meter) =
      (none, { meter with consumed := meter.consumed + (meter.limit - meter.consumed) }) := by
  have hM : MaxGas < u64 := by decide
  have hg : gasForContract meter = (meter.limit - meter.consumed) * GasMultiplier := by
    rw [gasForContract_eq_min_of_no_wrap meter hL hc (lt_of_le_of_lt hr hM)]
    exact min_eq_left hr
  have hd : (meter.limit - meter.consumed) * GasMultiplier / GasMultiplier
      = meter.limit - meter.consumed := Nat.mul_div_cancel _ (by decide)
  refine ⟨hg, by rw [hg, hd], ?_⟩
  have hsum : meter.consumed + (meter.limit - meter.consumed) = meter.limit := by omega
  have hadd : add64 meter.consumed (meter.limit - meter.consumed) = meter.limit := by
    unfold add64
    rw [hsum]
    exact Nat.mod_eq_of_lt hL
  unfold consumeGas GasMeter.ConsumeGas
  simp only [hg, hd, hadd, hsum]
  rw [if_neg (by omega), if_neg (by omega)]

/-- Witness of C6: limit 1000, 400 consumed, 600 remaining. -/
theorem gas_scaling_symmetric_witness :
    gasForContract ⟨1000, 400⟩ = (1000 - 400) * GasMultiplier ∧
    gasForContract ⟨1000, 400⟩ / GasMultiplier = 1000 - 400 ∧
    consumeGas ⟨1000, 400⟩ (gasForContract ⟨1000, 400⟩) =
      (none, { (⟨1000, 400⟩ : GasMeter) with consumed := 400 + (1000 - 400) }) :=
  gas_scaling_symmetric ⟨1000, 400⟩ (by decide) (by decide) (by decide)

/-! ## Message dispatcher -/

/-- A contract-call message with a well-formed target whose nested `Execute`
succeeds leaves the `if / else if` chain without a `return` and reaches the
final panic. -/
theorem dispatchMessage_call_ok_panics {L : Type} (env : Env L) (exec : Exec L) (ctx ctx1 : Ctx L)
    (acct : Account) (msg : CosmosMsg) (target : AccAddress) (r : SdkResult)
    (hs : msg.Send.FromAddress = "") (hc : msg.Contract.ContractAddr ≠ "")
    (ht : env.accAddressFromBech32 msg.Contract.ContractAddr = some target)
    (he : exec ctx target acct.address [] msg.Contract.Msg = (Res.ok r, ctx1)) :
    dispatchMessage env exec ctx (some acct) msg = (Res.panic Panic.unknownCosmosMsg, ctx1) := by
  simp [dispatchMessage, dispatchChain, hs, hc, ht, he]

/-- C1: instance `"C"` emits a contract-call message to the well-formed
address `"B"`; the nested `Execute` succeeds, and `dispatchMessage` ends in
the panic "Unknown CosmosMsg" instead of returning success. -/
theorem dispatchMessage_call_success_is_fatal :
    (callMsg "B" [9]).Send.FromAddress = "" ∧
    sampleEnv.accAddressFromBech32 (callMsg "B" [9]).Contract.ContractAddr = some [66] ∧
    (Execute sampleEnv 0 sampleCtxB [66] [67] [] (callMsg "B" [9]).Contract.Msg).1
      = Res.ok ⟨"", 0, [9], ""⟩ ∧
    (dispatchMessage sampleEnv (Execute sampleEnv 0) sampleCtxB (some ⟨[67], []⟩)
      (callMsg "B" [9])).1 = Res.panic Panic.unknownCosmosMsg := by
  decide

/-- C2: if some signer required by the message differs from the emitting
instance's address, `handleSdkMessage` fails with `Unauthorized` whatever
the rest of the message and the router are, and the context is returned as
it was: no handler was invoked. -/
theorem handleSdkMessage_unauthorized {L : Type} (env : Env L) (ctx : Ctx L) (acct : Account)
    (msg : SdkMsg) (h : ∃ signer ∈ msg.signers, signer ≠ acct.address) :
    handleSdkMessage env ctx (some acct) msg =
      (Res.err ⟨ErrCode.unauthorized, "contract doesn't have permission"⟩, ctx) := by
  have hany : msg.signers.any (fun signer => signer != acct.address) = true := by
    obtain ⟨signer, hmem, hne⟩ := h
    exact List.any_eq_true.mpr ⟨signer, hmem, by simpa using hne⟩
  simp [handleSdkMessage, hany]

/-- Witness of C2: a transfer signed by `"A"` emitted by instance `"B"`. -/
theorem handleSdkMessage_unauthorized_witness :
    handleSdkMessage sampleEnv sampleCtxB (some ⟨[66], []⟩)
        (MsgSend.toMsg ⟨[65], [66], [⟨"token", 1⟩]⟩) =
      (Res.err ⟨ErrCode.unauthorized, "contract doesn't have permission"⟩, sampleCtxB) :=
  handleSdkMessage_unauthorized sampleEnv sampleCtxB ⟨[66], []⟩
    (MsgSend.toMsg ⟨[65], [66], [⟨"token", 1⟩]⟩) ⟨[65], by decide, by decide⟩

/-! ## Code registry -/

/-- C8, as the code has it: when the decompressor rejects `rawCode`, `Create`
fails with `CreateFailed` wrapping the decompressor's message, and the
context is returned as it was: no codeID allocated, nothing written, the VM
not called. -/
theorem create_decompress_failure {L : Type} (env : Env L) (ctx : Ctx L) (creator : AccAddress)
    (rawCode : Bytes) (e : String) (h : env.uncompress rawCode = Except.error e) :
    Create env ctx creator rawCode = (Res.err ⟨ErrCode.createFailed, e⟩, ctx) := by
  simp [Create, h]

/-- Witness of C8: a blob the sample decompressor rejects. -/
theorem create_decompress_failure_witness :
    Create sampleEnv sampleCtx [65] [0, 1, 2] =
      (Res.err ⟨ErrCode.createFailed, "invalid gzip header"⟩, sampleCtx) :=
  create_decompress_failure sampleEnv sampleCtx [65] [0, 1, 2] "invalid gzip header" rfl

/-- C8, as stated, fails: the error of a rejected decompression has the kind
`CreateFailed`, the same kind as the error of a VM validation failure. -/
theorem create_decompress_failure_kind_is_createFailed :
    sampleEnv.uncompress [0, 1, 2] = Except.error "invalid gzip header" ∧
    (Create sampleEnv sampleCtx [65] [0, 1, 2]).1
      = Res.err ⟨ErrCode.createFailed, "invalid gzip header"⟩ ∧
    sampleEnv.uncompress [7] = Except.ok [7] ∧
    sampleEnv.wasmerCreate [7] = Except.error "validation failed" ∧
    (Create sampleEnv sampleCtx [65] [7]).1
      = Res.err ⟨ErrCode.createFailed, "validation failed"⟩ := by
  refine ⟨rfl, by decide, rfl, rfl, by decide⟩

/-! ## Address derivation -/

/-- With an instance counter below `2 ^ 32` the sum `codeID<<32 + instanceID`
has no carry and is the bitwise OR. -/
theorem contractID_eq_or (codeID instanceID : Nat) (h : instanceID < 2 ^ 32) :
    contractID codeID instanceID = shl64 codeID 32 ||| instanceID := by
  have hshl : shl64 codeID 32 = 2 ^ 32 * (codeID % 2 ^ 32) := by
    unfold shl64 u64
    rw [Nat.shiftLeft_eq, show (2 : Nat) ^ 64 = 2 ^ 32 * 2 ^ 32 by norm_num,
      Nat.mul_mod_mul_right, Nat.mul_comm]
  have hx : codeID % 2 ^ 32 < 2 ^ 32 := Nat.mod_lt _ (by norm_num)
  unfold contractID add64
  rw [hshl, ← Nat.mul_add_lt_is_or h]
  apply Nat.mod_eq_of_lt
  unfold u64
  have h32 : (2 : Nat) ^ 32 = 4294967296 := by norm_num
  have h64 : (2 : Nat) ^ 64 = 18446744073709551616 := by norm_num
  rw [h32, h64] at *
  omega

/-- C10, as the code has it: the identifier hashed by
`generateContractAddress` is `(codeID << 32) + counter` in 64-bit
arithmetic; whenever the instance counter read by the call is below
`2 ^ 32` this is `(codeID << 32)` bitwise-OR the counter. -/
theorem generateContractAddress_id_or {L : Type} (env : Env L) (st : KVStore) (codeID : Nat)
    (h : (autoIncrementID st IDKey.KeyLastInstanceID).1 < 2 ^ 32) :
    (generateContractAddress env st codeID).1 =
        addrFromUint64 env (add64 (shl64 codeID 32) (autoIncrementID st IDKey.KeyLastInstanceID).1) ∧
    add64 (shl64 codeID 32) (autoIncrementID st IDKey.KeyLastInstanceID).1 =
        shl64 codeID 32 ||| (autoIncrementID st IDKey.KeyLastInstanceID).1 := by
  refine ⟨rfl, ?_⟩
  exact contractID_eq_or codeID _ h

/-- Witness of C10: code 3 and an instance counter of 7. -/
theorem generateContractAddress_id_or_witness :
    (generateContractAddress sampleEnv (storeAtInstance 7) 3).1 =
        addrFromUint64 sampleEnv
          (add64 (shl64 3 32) (autoIncrementID (storeAtInstance 7) IDKey.KeyLastInstanceID).1) ∧
    add64 (shl64 3 32) (autoIncrementID (storeAtInstance 7) IDKey.KeyLastInstanceID).1 =
        shl64 3 32 ||| (autoIncrementID (storeAtInstance 7) IDKey.KeyLastInstanceID).1 :=
  generateContractAddress_id_or sampleEnv (storeAtInstance 7) 3 (by decide)

/-- C10, as stated, fails: with code 1 and the instance counter at `2 ^ 32`
the identifier is `2 ^ 33`, the bitwise OR is `2 ^ 32`, and the two hash to
different addresses. -/
theorem generateContractAddress_id_not_or :
    (autoIncrementID (storeAtInstance 4294967296) IDKey.KeyLastInstanceID).1 = 4294967296 ∧
    contractID 1 4294967296 = 8589934592 ∧
    (shl64 1 32 ||| 4294967296) = 4294967296 ∧
    (generateContractAddress sampleEnv (storeAtInstance 4294967296) 1).1 ≠
      addrFromUint64 sampleEnv (shl64 1 32 ||| 4294967296) := by
  decide

/-! ## The code registry along a run -/

theorem SameCodes.rfl_ (a : KVStore) : SameCodes a a := ⟨rfl, rfl⟩

theorem SameCodes.trans_ {a b c : KVStore} (h1 : SameCodes a b) (h2 : SameCodes b c) :
    SameCodes a c := ⟨h1.1.trans h2.1, h1.2.trans h2.2⟩

/-- `handleSdkMessage` does not touch the keeper's store. -/
theorem handleSdkMessage_store {L : Type} (env : Env L) (ctx : Ctx L) (contract : Option Account)
    (msg : SdkMsg) : (handleSdkMessage env ctx contract msg).2.store = ctx.store := by
  unfold handleSdkMessage
  split
  · rfl
  · dsimp only
    split
    · rfl
    · split
      · rfl
      · split <;> rfl

/-- Dispatching one message keeps the code registry when the nested
`Execute` does. -/
theorem dispatchMessage_sameCodes {L : Type} (env : Env L) (exec : Exec L)
    (hexec : ∀ ctx a b c m, SameCodes (exec ctx a b c m).2.store ctx.store)
    (ctx : Ctx L) (contract : Option Account) (msg : CosmosMsg) :
    SameCodes (dispatchMessage env exec ctx contract msg).2.store ctx.store := by
  have hchain : SameCodes (dispatchChain env exec ctx contract msg).2.store ctx.store := by
    unfold dispatchChain
    split
    · split
      · exact SameCodes.rfl_ _
      · dsimp only
        rw [handleSdkMessage_store]
        exact SameCodes.rfl_ _
    · split
      · split
        · exact SameCodes.rfl_ _
        · split
          · exact SameCodes.rfl_ _
          · rename_i _ target _ _ acct
            have h := hexec ctx target acct.address [] msg.Contract.Msg
            split <;> rename_i heq <;> rw [heq] at h <;> exact h
      · split <;> exact SameCodes.rfl_ _
  unfold dispatchMessage
  split <;> rename_i heq <;> rw [heq] at hchain <;> exact hchain

/-- Dispatching a list of messages keeps the code registry when the nested
`Execute` does. -/
theorem dispatchMessages_sameCodes {L : Type} (env : Env L) (exec : Exec L)
    (hexec : ∀ ctx a b c m, SameCodes (exec ctx a b c m).2.store ctx.store)
    (contract : Option Account) (msgs : List CosmosMsg) :
    ∀ ctx : Ctx L, SameCodes (dispatchMessages env exec ctx contract msgs).2.store ctx.store := by
  induction msgs with
  | nil => intro ctx; exact SameCodes.rfl_ _
  | cons msg rest ih =>
    intro ctx
    have h1 := dispatchMessage_sameCodes env exec hexec ctx contract msg
    unfold dispatchMessages
    split
    · rename_i heq
      rw [heq] at h1
      exact SameCodes.trans_ (ih _) h1
    · rename_i heq
      rw [heq] at h1
      exact h1

/-- The context a dispatch returns has the code registry of the one it
started from. -/
theorem dispatchMessages_sameCodes_of_eq {L : Type} (env : Env L) (exec : Exec L)
    (hexec : ∀ ctx a b c m, SameCodes (exec ctx a b c m).2.store ctx.store)
    {contract : Option Account} {msgs : List CosmosMsg} {ctx ctx1 : Ctx L} {r : Res Unit}
    (h : dispatchMessages env exec ctx contract msgs = (r, ctx1)) :
    SameCodes ctx1.store ctx.store := by
  have h1 := dispatchMessages_sameCodes env exec hexec contract msgs ctx
  rw [h] at h1
  exact h1

/-- The body of `Execute` keeps the code registry when the nested `Execute`
does. -/
theorem ExecuteWith_sameCodes {L : Type} (env : Env L) (exec : Exec L)
    (hexec : ∀ ctx a b c m, SameCodes (exec ctx a b c m).2.store ctx.store)
    (ctx : Ctx L) (contractAddress caller : AccAddress) (coins : Coins) (msg : Bytes) :
    SameCodes (ExecuteWith env exec ctx contractAddress caller coins msg).2.store ctx.store := by
  unfold ExecuteWith
  dsimp only
  split
  · exact ⟨rfl, rfl⟩
  · exact ⟨rfl, rfl⟩
  · exact ⟨rfl, rfl⟩
  · split
    · exact ⟨rfl, rfl⟩
    · split
      · exact ⟨rfl, rfl⟩
      · split
        · exact ⟨rfl, rfl⟩
        · split <;> rename_i heq <;>
            exact SameCodes.trans_ (dispatchMessages_sameCodes_of_eq env exec hexec heq) ⟨rfl, rfl⟩

set_option maxRecDepth 4096 in
/-- `Execute` never touches the code counter or a `CodeInfo`, whatever the
nesting depth. -/
theorem Execute_sameCodes {L : Type} (env : Env L) (fuel : Nat) :
    ∀ (ctx : Ctx L) (contractAddress caller : AccAddress) (coins : Coins) (msg : Bytes),
      SameCodes (Execute env fuel ctx contractAddress caller coins msg).2.store ctx.store := by
  induction fuel with
  | zero =>
    intro ctx a b c m
    have h := ExecuteWith_sameCodes env (fun ctx _ _ _ _ => (Res.outOfFuel, ctx))
      (fun ctx _ _ _ _ => ⟨rfl, rfl⟩) ctx a b c m
    exact h
  | succ n ih =>
    intro ctx a b c m
    have h := ExecuteWith_sameCodes env (Execute env n) ih ctx a b c m
    exact h

/-- `Instantiate` never touches the code counter or a `CodeInfo`. -/
theorem Instantiate_sameCodes {L : Type} (env : Env L) (fuel : Nat) (ctx : Ctx L)
    (creator : AccAddress) (codeID : Nat) (initMsg : Bytes) (deposit : Coins) :
    SameCodes (Instantiate env fuel ctx creator codeID initMsg deposit).2.store ctx.store := by
  have hexec := Execute_sameCodes env fuel
  unfold Instantiate InstantiateWith
  dsimp only
  split
  · exact ⟨rfl, rfl⟩
  · split
    · exact ⟨rfl, rfl⟩
    · split
      · exact ⟨rfl, rfl⟩
      · split
        · exact ⟨rfl, rfl⟩
        · split
          · exact ⟨rfl, rfl⟩
          · split
            · rename_i heq
              exact SameCodes.trans_ (dispatchMessages_sameCodes_of_eq env _ hexec heq) ⟨rfl, rfl⟩
            · rename_i heq
              exact SameCodes.trans_ (dispatchMessages_sameCodes_of_eq env _ hexec heq) ⟨rfl, rfl⟩
            · rename_i heq
              exact SameCodes.trans_ (dispatchMessages_sameCodes_of_eq env _ hexec heq) ⟨rfl, rfl⟩
            · rename_i heq
              have h1 := dispatchMessages_sameCodes_of_eq env _ hexec heq
              exact SameCodes.trans_ ⟨rfl, rfl⟩ (SameCodes.trans_ h1 ⟨rfl, rfl⟩)

/-- What a successful `Create` returns and stores. -/
theorem Create_ok {L : Type} (env : Env L) (ctx : Ctx L) (creator : AccAddress)
    (rawCode code hash : Bytes) (hu : env.uncompress rawCode = Except.ok code)
    (hv : env.wasmerCreate code = Except.ok hash) :
    (Create env ctx creator rawCode).1 = Res.ok (GetNextCodeID ctx.store) ∧
    (Create env ctx creator rawCode).2.store =
      (ctx.store.setID IDKey.KeyLastCodeID (add64 (GetNextCodeID ctx.store) 1)).setCode
        (GetNextCodeID ctx.store) (NewCodeInfo hash creator) := by
  simp [Create, hu, hv, autoIncrementID, GetNextCodeID]

/-- A `Create` either leaves the store alone and returns no codeID, or
allocates the next codeID and stores one record under it. -/
theorem Create_store_cases {L : Type} (env : Env L) (ctx : Ctx L) (creator : AccAddress)
    (rawCode : Bytes) :
    ((Create env ctx creator rawCode).2.store = ctx.store ∧
      ∀ id, (Create env ctx creator rawCode).1 ≠ Res.ok id) ∨
    ∃ hash, (Create env ctx creator rawCode).1 = Res.ok (GetNextCodeID ctx.store) ∧
      (Create env ctx creator rawCode).2.store =
        (ctx.store.setID IDKey.KeyLastCodeID (add64 (GetNextCodeID ctx.store) 1)).setCode
          (GetNextCodeID ctx.store) (NewCodeInfo hash creator) := by
  cases hu : env.uncompress rawCode with
  | error e =>
    left
    simp [Create, hu]
  | ok code =>
    cases hv : env.wasmerCreate code with
    | error e =>
      left
      simp [Create, hu, hv]
    | ok hash =>
      right
      exact ⟨hash, Create_ok env ctx creator rawCode code hash hu hv⟩

/-- Stores with the same code registry have the same next codeID. -/
theorem SameCodes.next_eq {a b : KVStore} (h : SameCodes a b) :
    GetNextCodeID a = GetNextCodeID b := by
  unfold GetNextCodeID KVStore.getID
  rw [h.1]

/-- One step keeps the registry consistent, never lowers the next codeID and
never changes a stored `CodeInfo`. -/
theorem step_codeInv {L : Type} (env : Env L) {b c : Ctx L} {n : Nat} (hstep : Step env b c)
    (hinv : CodeInv n b.store) (hn : n + 2 < u64) :
    CodeInv (n + 1) c.store ∧ GetNextCodeID b.store ≤ GetNextCodeID c.store ∧
    ∀ id ci, b.store.codes id = some ci → c.store.codes id = some ci := by
  have hsame : ∀ st : KVStore, SameCodes st b.store →
      CodeInv (n + 1) st ∧ GetNextCodeID b.store ≤ GetNextCodeID st ∧
      ∀ id ci, b.store.codes id = some ci → st.codes id = some ci := by
    intro st hs
    have hnext := hs.next_eq
    refine ⟨⟨?_, ?_, ?_⟩, le_of_eq hnext.symm, ?_⟩
    · rw [hnext]; exact hinv.1
    · rw [hnext]; exact le_trans hinv.2.1 (Nat.le_succ _)
    · intro id hid
      rw [hs.2]
      exact hinv.2.2 id (by rw [← hnext]; exact hid)
    · intro id ci h
      rw [hs.2]
      exact h
  cases hstep with
  | create creator wasmCode =>
    rcases Create_store_cases env b creator wasmCode with ⟨hst, _⟩ | ⟨hash, _, hst⟩
    · exact hsame _ (by rw [hst]; exact SameCodes.rfl_ _)
    · have hlt : GetNextCodeID b.store + 1 < u64 := by
        have := hinv.2.1
        omega
      have hadd : add64 (GetNextCodeID b.store) 1 = GetNextCodeID b.store + 1 :=
        Nat.mod_eq_of_lt hlt
      have hnext : GetNextCodeID (Create env b creator wasmCode).2.store
          = GetNextCodeID b.store + 1 := by
        rw [hst, hadd]
        rfl
      have hcodes : ∀ id, (Create env b creator wasmCode).2.store.codes id =
          if id = GetNextCodeID b.store then some (NewCodeInfo hash creator)
          else b.store.codes id := by
        intro id
        rw [hst]
        rfl
      refine ⟨⟨?_, ?_, ?_⟩, ?_, ?_⟩
      · rw [hnext]; exact Nat.succ_le_succ (Nat.zero_le _)
      · rw [hnext]; exact Nat.succ_le_succ hinv.2.1
      · intro id hid
        rw [hnext] at hid
        rw [hcodes, if_neg (by omega)]
        exact hinv.2.2 id (by omega)
      · rw [hnext]; exact Nat.le_succ _
      · intro id ci h
        have hne : id ≠ GetNextCodeID b.store := by
          intro heq
          rw [hinv.2.2 id (le_of_eq heq.symm)] at h
          exact Option.noConfusion h
        rw [hcodes, if_neg hne]
        exact h
  | instantiate fuel creator codeID initMsg deposit =>
    exact hsame _ (Instantiate_sameCodes env fuel b creator codeID initMsg deposit)
  | execute fuel contractAddress caller coins msg =>
    exact hsame _ (Execute_sameCodes env fuel b contractAddress caller coins msg)
  | host ledger gas =>
    exact hsame _ (SameCodes.rfl_ _)

/-- A run keeps the registry consistent, never lowers the next codeID and
never changes a stored `CodeInfo`. -/
theorem steps_codeInv {L : Type} (env : Env L) {b c : Ctx L} {m : Nat} (hrun : Steps env b m c) :
    ∀ n, CodeInv n b.store → n + m + 1 < u64 →
      CodeInv (n + m) c.store ∧ GetNextCodeID b.store ≤ GetNextCodeID c.store ∧
      ∀ id ci, b.store.codes id = some ci → c.store.codes id = some ci := by
  induction hrun with
  | refl => intro n hinv _; exact ⟨hinv, le_refl _, fun _ _ h => h⟩
  | tail hrun hstep ih =>
    intro n hinv hn
    obtain ⟨h1, h2, h3⟩ := ih n hinv (by omega)
    obtain ⟨k1, k2, k3⟩ := step_codeInv env hstep h1 (by omega)
    exact ⟨k1, le_trans h2 k2, fun id ci h => k3 id ci (h3 id ci h)⟩

/-- The empty store is a consistent registry. -/
theorem codeInv_empty : CodeInv 0 KVStore.empty :=
  ⟨le_refl _, le_refl _, fun _ _ => rfl⟩

/-- A `Create` that returns a codeID returns the next codeID and stores one
record under it. -/
theorem Create_ok_id {L : Type} (env : Env L) (ctx : Ctx L) (creator : AccAddress)
    (rawCode : Bytes) (id : Nat) (h : (Create env ctx creator rawCode).1 = Res.ok id) :
    id = GetNextCodeID ctx.store ∧
    ∃ hash, (Create env ctx creator rawCode).2.store =
      (ctx.store.setID IDKey.KeyLastCodeID (add64 (GetNextCodeID ctx.store) 1)).setCode
        (GetNextCodeID ctx.store) (NewCodeInfo hash creator) := by
  rcases Create_store_cases env ctx creator rawCode with ⟨_, hno⟩ | ⟨hash, hid, hst⟩
  · exact absurd h (hno id)
  · rw [hid] at h
    exact ⟨(Res.ok.inj h).symm, hash, hst⟩

/-- After a successful `Create` in a consistent registry the next codeID is
one more than the codeID returned. -/
theorem Create_next {L : Type} (env : Env L) (ctx : Ctx L) (creator : AccAddress)
    (rawCode : Bytes) (id n : Nat) (h : (Create env ctx creator rawCode).1 = Res.ok id)
    (hinv : CodeInv n ctx.store) (hn : n + 2 < u64) :
    GetNextCodeID (Create env ctx creator rawCode).2.store = id + 1 := by
  obtain ⟨hid, hash, hst⟩ := Create_ok_id env ctx creator rawCode id h
  have hlt : GetNextCodeID ctx.store + 1 < u64 := by
    have := hinv.2.1
    omega
  rw [hst, hid]
  show add64 (GetNextCodeID ctx.store) 1 = GetNextCodeID ctx.store + 1
  exact Nat.mod_eq_of_lt hlt

/-- C7: for every code blob the decompressor and the VM accept, `Create`
returns a codeID under which `GetCodeInfo` finds the record with the caller
as creator and the VM's hash as codeHash; on an empty store that codeID is
1; and in a run from the empty store (of fewer than `2 ^ 64` steps, with any
operations in between) a later successful `Create` returns a strictly larger
codeID than an earlier one. -/
theorem create_codeID_recorded_and_increasing {L : Type} (env : Env L) :
    (∀ (ctx : Ctx L) (creator : AccAddress) (rawCode code hash : Bytes),
      env.uncompress rawCode = Except.ok code → env.wasmerCreate code = Except.ok hash →
      ∃ codeID, (Create env ctx creator rawCode).1 = Res.ok codeID ∧
        GetCodeInfo (Create env ctx creator rawCode).2 codeID
          = some { codeHash := hash, creator := creator } ∧
        (ctx.store = KVStore.empty → codeID = 1)) ∧
    (∀ (ctx0 ctx1 ctx2 : Ctx L) (n m : Nat) (c1 c2 : AccAddress) (r1 r2 : Bytes) (id1 id2 : Nat),
      ctx0.store = KVStore.empty → Steps env ctx0 n ctx1 →
      Steps env (Create env ctx1 c1 r1).2 m ctx2 → n + m + 2 < u64 →
      (Create env ctx1 c1 r1).1 = Res.ok id1 → (Create env ctx2 c2 r2).1 = Res.ok id2 →
      id1 < id2) := by
  constructor
  · intro ctx creator rawCode code hash hu hv
    obtain ⟨hid, hst⟩ := Create_ok env ctx creator rawCode code hash hu hv
    refine ⟨GetNextCodeID ctx.store, hid, ?_, ?_⟩
    · unfold GetCodeInfo
      rw [hst]
      simp [KVStore.setCode, NewCodeInfo]
    · intro he
      rw [he]
      rfl
  · intro ctx0 ctx1 ctx2 n m c1 c2 r1 r2 id1 id2 h0 hrun1 hrun2 hb hc1 hc2
    have hinv0 : CodeInv 0 ctx0.store := by rw [h0]; exact codeInv_empty
    obtain ⟨hinv1, _, _⟩ := steps_codeInv env hrun1 0 hinv0 (by omega)
    rw [Nat.zero_add] at hinv1
    have hnext1 := Create_next env ctx1 c1 r1 id1 n hc1 hinv1 (by omega)
    obtain ⟨hinv1', _, _⟩ := step_codeInv env (Step.create ctx1 c1 r1) hinv1 (by omega)
    obtain ⟨_, hle, _⟩ := steps_codeInv env hrun2 (n + 1) hinv1' (by omega)
    obtain ⟨hid2, _⟩ := Create_ok_id env ctx2 c2 r2 id2 hc2
    omega

/-- Witness of C7: two uploads on the sample host, starting from the empty
store, get the codeIDs 1 and 2. -/
theorem create_codeID_recorded_and_increasing_witness :
    (∃ codeID, (Create sampleEnv sampleCtx [65] [1, 2]).1 = Res.ok codeID ∧
        GetCodeInfo (Create sampleEnv sampleCtx [65] [1, 2]).2 codeID
          = some { codeHash := [2, 3], creator := [65] } ∧
        (sampleCtx.store = KVStore.empty → codeID = 1)) ∧
    (Create sampleEnv (Create sampleEnv sampleCtx [65] [1, 2]).2 [66] [1, 2]).1 = Res.ok 2 ∧
    (1 : Nat) < 2 :=
  ⟨(create_codeID_recorded_and_increasing sampleEnv).1 sampleCtx [65] [1, 2] [1, 2] [2, 3] rfl rfl,
    by decide,
    (create_codeID_recorded_and_increasing sampleEnv).2 sampleCtx sampleCtx
      (Create sampleEnv sampleCtx [65] [1, 2]).2 0 0 [65] [66] [1, 2] [1, 2] 1 2 rfl
      (Steps.refl _) (Steps.refl _) (by decide) (by decide) (by decide)⟩

/-- C9: in a run from the empty store (of fewer than `2 ^ 64` steps) through
`Create`, `Instantiate` and `Execute`, a `CodeInfo` found under a codeID is
found unchanged in every later state; and two successful `Create` calls with
the same bytes return two different codeIDs, both of which resolve, after the
second call, to a record with the VM's hash of those bytes. -/
theorem codeInfo_immutable_not_deduplicated {L : Type} (env : Env L) :
    (∀ (ctx0 ctx1 ctx2 : Ctx L) (n m id : Nat) (ci : CodeInfo),
      ctx0.store = KVStore.empty → Steps env ctx0 n ctx1 → Steps env ctx1 m ctx2 →
      n + m + 1 < u64 →
      GetCodeInfo ctx1 id = some ci → GetCodeInfo ctx2 id = some ci) ∧
    (∀ (ctx0 ctx1 ctx2 : Ctx L) (n m : Nat) (c1 c2 : AccAddress) (rawCode code hash : Bytes),
      ctx0.store = KVStore.empty → Steps env ctx0 n ctx1 →
      env.uncompress rawCode = Except.ok code → env.wasmerCreate code = Except.ok hash →
      Steps env (Create env ctx1 c1 rawCode).2 m ctx2 → n + m + 3 < u64 →
      ∃ id1 id2, (Create env ctx1 c1 rawCode).1 = Res.ok id1 ∧
        (Create env ctx2 c2 rawCode).1 = Res.ok id2 ∧ id1 ≠ id2 ∧
        GetCodeInfo (Create env ctx2 c2 rawCode).2 id1
          = some { codeHash := hash, creator := c1 } ∧
        GetCodeInfo (Create env ctx2 c2 rawCode).2 id2
          = some { codeHash := hash, creator := c2 }) := by
  constructor
  · intro ctx0 ctx1 ctx2 n m id ci h0 hrun1 hrun2 hb hget
    have hinv0 : CodeInv 0 ctx0.store := by rw [h0]; exact codeInv_empty
    obtain ⟨hinv1, _, _⟩ := steps_codeInv env hrun1 0 hinv0 (by omega)
    rw [Nat.zero_add] at hinv1
    obtain ⟨_, _, hkeep⟩ := steps_codeInv env hrun2 n hinv1 (by omega)
    exact hkeep id ci hget
  · intro ctx0 ctx1 ctx2 n m c1 c2 rawCode code hash h0 hrun1 hu hv hrun2 hb
    have hinv0 : CodeInv 0 ctx0.store := by rw [h0]; exact codeInv_empty
    obtain ⟨hinv1, _, _⟩ := steps_codeInv env hrun1 0 hinv0 (by omega)
    rw [Nat.zero_add] at hinv1
    obtain ⟨hc1, hst1⟩ := Create_ok env ctx1 c1 rawCode code hash hu hv
    obtain ⟨hc2, hst2⟩ := Create_ok env ctx2 c2 rawCode code hash hu hv
    have hnext1 := Create_next env ctx1 c1 rawCode _ n hc1 hinv1 (by omega)
    obtain ⟨hinv1', _, _⟩ := step_codeInv env (Step.create ctx1 c1 rawCode) hinv1 (by omega)
    obtain ⟨hinv2, hle, hkeep⟩ := steps_codeInv env hrun2 (n + 1) hinv1' (by omega)
    obtain ⟨_, _, hkeep2⟩ := step_codeInv env (Step.create ctx2 c2 rawCode) hinv2 (by omega)
    have hrec1 : (Create env ctx1 c1 rawCode).2.store.codes (GetNextCodeID ctx1.store)
        = some { codeHash := hash, creator := c1 } := by
      rw [hst1]
      simp [KVStore.setCode, NewCodeInfo]
    have hrec2 : (Create env ctx2 c2 rawCode).2.store.codes (GetNextCodeID ctx2.store)
        = some { codeHash := hash, creator := c2 } := by
      rw [hst2]
      simp [KVStore.setCode, NewCodeInfo]
    refine ⟨GetNextCodeID ctx1.store, GetNextCodeID ctx2.store, hc1, hc2, by omega, ?_, hrec2⟩
    exact hkeep2 _ _ (hkeep _ _ hrec1)

/-- Witness of C9: the same blob uploaded twice on the sample host gets the
codeIDs 1 and 2, both recorded with the hash `[2, 3]`, and the first record
survives the second upload. -/
theorem codeInfo_immutable_not_deduplicated_witness :
    (GetCodeInfo (Create sampleEnv sampleCtx [65] [1, 2]).2 1 = some ⟨[2, 3], [65]⟩ →
      GetCodeInfo (Create sampleEnv (Create sampleEnv sampleCtx [65] [1, 2]).2 [66] [1, 2]).2 1
        = some ⟨[2, 3], [65]⟩) ∧
    ∃ id1 id2, (Create sampleEnv sampleCtx [65] [1, 2]).1 = Res.ok id1 ∧
      (Create sampleEnv (Create sampleEnv sampleCtx [65] [1, 2]).2 [66] [1, 2]).1 = Res.ok id2 ∧
      id1 ≠ id2 ∧
      GetCodeInfo (Create sampleEnv (Create sampleEnv sampleCtx [65] [1, 2]).2 [66] [1, 2]).2 id1
        = some { codeHash := [2, 3], creator := [65] } ∧
      GetCodeInfo (Create sampleEnv (Create sampleEnv sampleCtx [65] [1, 2]).2 [66] [1, 2]).2 id2
        = some { codeHash := [2, 3], creator := [66] } :=
  ⟨(codeInfo_immutable_not_deduplicated sampleEnv).1 sampleCtx
      (Create sampleEnv sampleCtx [65] [1, 2]).2
      (Create sampleEnv (Create sampleEnv sampleCtx [65] [1, 2]).2 [66] [1, 2]).2 1 1 1
      ⟨[2, 3], [65]⟩ rfl
      (Steps.tail (Steps.refl _) (Step.create _ _ _))
      (Steps.tail (Steps.refl _) (Step.create _ _ _)) (by decide),
    (codeInfo_immutable_not_deduplicated sampleEnv).2 sampleCtx sampleCtx
      (Create sampleEnv sampleCtx [65] [1, 2]).2 0 0 [65] [66] [1, 2] [1, 2] [2, 3] rfl
      (Steps.refl _) rfl rfl (Steps.refl _) (by decide)⟩

/-! ## Injectivity of the address derivation -/

set_option maxRecDepth 100000 in
/-- Setting the continuation bit of a byte keeps its low seven bits. -/
theorem byte_or_128 : ∀ y, y < 256 → 128 ≤ (y ||| 128) ∧ (y ||| 128) % 128 = y % 128 := by
  decide

/-- The uvarint loop writes at most `n + 1` bytes. -/
theorem putUvarintLoop_length (n : Nat) : ∀ x, (putUvarintLoop n x).length ≤ n + 1 := by
  induction n with
  | zero => intro x; simp [putUvarintLoop]
  | succ n ih =>
    intro x
    unfold putUvarintLoop
    split
    · simp only [List.length_cons]
      have := ih (x >>> 7)
      omega
    · simp

/-- Decoding what the uvarint loop wrote gives the number back, whatever
follows in the buffer. -/
theorem Uvarint_putUvarintLoop (n : Nat) :
    ∀ (x : Nat) (rest : List Nat), x < 128 ^ (n + 1) →
      Uvarint (putUvarintLoop n x ++ rest) = x := by
  induction n with
  | zero =>
    intro x rest hx
    have hx' : x < 128 := by simpa using hx
    have hmod : x % 256 = x := Nat.mod_eq_of_lt (by omega)
    have hnot : ¬ x ≥ 128 := by omega
    simp only [putUvarintLoop, hmod, List.singleton_append, Uvarint, if_neg hnot]
  | succ n ih =>
    intro x rest hx
    unfold putUvarintLoop
    split
    · rename_i hge
      obtain ⟨h1, h2⟩ := byte_or_128 (x % 256) (Nat.mod_lt _ (by norm_num))
      have hdiv : x >>> 7 = x / 128 := by
        rw [Nat.shiftRight_eq_div_pow]
      have hlt : x / 128 < 128 ^ (n + 1) := by
        rw [Nat.div_lt_iff_lt_mul (by norm_num)]
        calc x < 128 ^ (n + 1 + 1) := hx
          _ = 128 ^ (n + 1) * 128 := by rw [pow_succ]
      have hih := ih (x / 128) rest hlt
      rw [hdiv, List.cons_append]
      show (if x % 256 ||| 128 ≥ 128 then
          (x % 256 ||| 128) % 128 + 128 * Uvarint (putUvarintLoop n (x / 128) ++ rest)
        else x % 256 ||| 128) = x
      rw [if_pos h1, h2, hih]
      omega
    · rename_i hlt
      have hmod : x % 256 = x := Nat.mod_eq_of_lt (by omega)
      simp only [hmod, List.singleton_append, Uvarint, if_neg hlt]

/-- With both components below `2 ^ 32` the combined identifier is
`codeID * 2 ^ 32 + instanceID`, without wrap-around. -/
theorem contractID_of_lt (codeID instanceID : Nat) (hc : codeID < 2 ^ 32)
    (hi : instanceID < 2 ^ 32) :
    contractID codeID instanceID = codeID * 4294967296 + instanceID := by
  have h32 : (2 : Nat) ^ 32 = 4294967296 := by norm_num
  rw [h32] at hc hi
  unfold contractID add64 shl64 u64
  rw [Nat.shiftLeft_eq, h32, show (2 : Nat) ^ 64 = 18446744073709551616 by norm_num]
  omega

/-- The buffer `addrFromUint64` hashes decodes back to the identifier. -/
theorem Uvarint_addrBuffer (id : Nat) (h : id < u64) : Uvarint (addrBuffer id).tail = id := by
  have hlt : id < 128 ^ (9 + 1) := lt_trans h (by unfold u64; norm_num)
  unfold addrBuffer putUvarint
  simp only [List.cons_append, List.tail_cons]
  exact Uvarint_putUvarintLoop 9 id _ hlt

/-- The buffer `addrFromUint64` hashes has 20 bytes. -/
theorem addrBuffer_length (id : Nat) : (addrBuffer id).length = 20 := by
  have h := putUvarintLoop_length 9 id
  unfold addrBuffer putUvarint
  simp only [List.length_append, List.length_cons, List.length_replicate]
  omega

/-- C11: the derived address is a function of the codeID and the instance
counter read; for any two distinct pairs (codeID, counter) with all
components below `2 ^ 32` the combined identifiers differ, the 20-byte
buffers (`'C'`, uvarint of the identifier, zero padding) differ, and the
addresses differ when the address hash is injective. -/
theorem address_derivation_injective {L : Type} (env : Env L) (c1 i1 c2 i2 : Nat)
    (hc1 : c1 < 2 ^ 32) (hi1 : i1 < 2 ^ 32) (hc2 : c2 < 2 ^ 32) (hi2 : i2 < 2 ^ 32)
    (hne : (c1, i1) ≠ (c2, i2)) :
    (∀ st1 st2 : KVStore,
      (autoIncrementID st1 IDKey.KeyLastInstanceID).1 = i1 →
      (autoIncrementID st2 IDKey.KeyLastInstanceID).1 = i1 →
      (generateContractAddress env st1 c1).1 = addrFromUint64 env (contractID c1 i1) ∧
      (generateContractAddress env st1 c1).1 = (generateContractAddress env st2 c1).1) ∧
    contractID c1 i1 ≠ contractID c2 i2 ∧
    (addrBuffer (contractID c1 i1)).length = 20 ∧
    (addrBuffer (contractID c2 i2)).length = 20 ∧
    addrBuffer (contractID c1 i1) ≠ addrBuffer (contractID c2 i2) ∧
    (Function.Injective env.addressHash →
      addrFromUint64 env (contractID c1 i1) ≠ addrFromUint64 env (contractID c2 i2)) := by
  have e1 := contractID_of_lt c1 i1 hc1 hi1
  have e2 := contractID_of_lt c2 i2 hc2 hi2
  have h32 : (2 : Nat) ^ 32 = 4294967296 := by norm_num
  rw [h32] at hc1 hi1 hc2 hi2
  have hid : contractID c1 i1 ≠ contractID c2 i2 := by
    intro heq
    rw [e1, e2] at heq
    apply hne
    have ha : c1 = c2 := by omega
    have hb : i1 = i2 := by omega
    rw [ha, hb]
  have hb1 : contractID c1 i1 < u64 := by rw [e1]; unfold u64; omega
  have hb2 : contractID c2 i2 < u64 := by rw [e2]; unfold u64; omega
  have hbuf : addrBuffer (contractID c1 i1) ≠ addrBuffer (contractID c2 i2) := by
    intro heq
    apply hid
    rw [← Uvarint_addrBuffer _ hb1, ← Uvarint_addrBuffer _ hb2, heq]
  refine ⟨?_, hid, addrBuffer_length _, addrBuffer_length _, hbuf, ?_⟩
  · intro st1 st2 h1 h2
    constructor
    · show addrFromUint64 env (contractID c1 (autoIncrementID st1 IDKey.KeyLastInstanceID).1) = _
      rw [h1]
    · show addrFromUint64 env (contractID c1 (autoIncrementID st1 IDKey.KeyLastInstanceID).1)
        = addrFromUint64 env (contractID c1 (autoIncrementID st2 IDKey.KeyLastInstanceID).1)
      rw [h1, h2]
  · intro hinj heq
    exact hbuf (hinj heq)

/-- Witness of C11: code 1 with the instance counters 1 and 2 on the sample
host. -/
theorem address_derivation_injective_witness :
    (∀ st1 st2 : KVStore,
      (autoIncrementID st1 IDKey.KeyLastInstanceID).1 = 1 →
      (autoIncrementID st2 IDKey.KeyLastInstanceID).1 = 1 →
      (generateContractAddress sampleEnv st1 1).1 = addrFromUint64 sampleEnv (contractID 1 1) ∧
      (generateContractAddress sampleEnv st1 1).1 = (generateContractAddress sampleEnv st2 1).1) ∧
    contractID 1 1 ≠ contractID 1 2 ∧
    (addrBuffer (contractID 1 1)).length = 20 ∧
    (addrBuffer (contractID 1 2)).length = 20 ∧
    addrBuffer (contractID 1 1) ≠ addrBuffer (contractID 1 2) ∧
    (Function.Injective sampleEnv.addressHash →
      addrFromUint64 sampleEnv (contractID 1 1) ≠ addrFromUint64 sampleEnv (contractID 1 2)) :=
  address_derivation_injective sampleEnv 1 1 1 2 (by decide) (by decide) (by decide) (by decide)
    (by decide)

/-! ## Instantiate and Execute: the error paths -/

/-- C12: when an account already occupies the derived address, `Instantiate`
fails with `AccountExists`; the context returned differs from the input only
in the instance counter: no transfer and no VM call were recorded, the ledger
and the gas meter are as before, and no `ContractInfo` was written. -/
theorem instantiate_account_exists {L : Type} (env : Env L) (fuel : Nat) (ctx : Ctx L)
    (creator : AccAddress) (codeID : Nat) (initMsg : Bytes) (deposit : Coins) (acct : Account)
    (h : env.getAccount ctx.ledger (generateContractAddress env ctx.store codeID).1 = some acct) :
    Instantiate env fuel ctx creator codeID initMsg deposit =
      (Res.err ⟨ErrCode.accountExists, env.accAddressString acct.address⟩,
        { ctx with store := (generateContractAddress env ctx.store codeID).2 }) ∧
    (Instantiate env fuel ctx creator codeID initMsg deposit).2.trace = ctx.trace ∧
    (Instantiate env fuel ctx creator codeID initMsg deposit).2.ledger = ctx.ledger ∧
    (Instantiate env fuel ctx creator codeID initMsg deposit).2.gas = ctx.gas ∧
    (Instantiate env fuel ctx creator codeID initMsg deposit).2.store.contracts
      = ctx.store.contracts ∧
    (Instantiate env fuel ctx creator codeID initMsg deposit).2.store.contractStore
      = ctx.store.contractStore := by
  have heq : Instantiate env fuel ctx creator codeID initMsg deposit =
      (Res.err ⟨ErrCode.accountExists, env.accAddressString acct.address⟩,
        { ctx with store := (generateContractAddress env ctx.store codeID).2 }) := by
    unfold Instantiate InstantiateWith
    simp only [h]
  rw [heq]
  exact ⟨rfl, rfl, rfl, rfl, rfl, rfl⟩

/-! ## What dispatch and Execute leave alone -/

theorem after_refl {L : Type} (a : Ctx L) : After a a := ⟨rfl, rfl, rfl, rfl, [], rfl⟩

theorem after_trans {L : Type} {a b c : Ctx L} (h1 : After a b) (h2 : After b c) : After a c := by
  obtain ⟨p1, p2, p3, p4, pre1, p5⟩ := h1
  obtain ⟨q1, q2, q3, q4, pre2, q5⟩ := h2
  refine ⟨p1.trans q1, p2.trans q2, p3.trans q3, p4.trans q4, pre1 ++ pre2, ?_⟩
  rw [p5, q5, List.append_assoc]

/-- `handleSdkMessage` leaves the keeper's store alone and records at most
the handler call. -/
theorem handleSdkMessage_after {L : Type} (env : Env L) (ctx : Ctx L) (contract : Option Account)
    (msg : SdkMsg) : After (handleSdkMessage env ctx contract msg).2 ctx := by
  unfold handleSdkMessage
  split
  · exact after_refl _
  · dsimp only
    split
    · exact after_refl _
    · split
      · exact after_refl _
      · split <;> exact ⟨rfl, rfl, rfl, rfl, [_], rfl⟩

/-- Dispatching one message leaves counters, `CodeInfo`s and `ContractInfo`s
alone when the nested `Execute` does. -/
theorem dispatchMessage_after {L : Type} (env : Env L) (exec : Exec L)
    (hexec : ∀ ctx a b c m, After (exec ctx a b c m).2 ctx)
    (ctx : Ctx L) (contract : Option Account) (msg : CosmosMsg) :
    After (dispatchMessage env exec ctx contract msg).2 ctx := by
  have hchain : After (dispatchChain env exec ctx contract msg).2 ctx := by
    unfold dispatchChain
    split
    · split
      · exact after_refl _
      · exact handleSdkMessage_after env ctx contract _
    · split
      · split
        · exact after_refl _
        · split
          · exact after_refl _
          · rename_i _ target _ _ acct
            have h := hexec ctx target acct.address [] msg.Contract.Msg
            split <;> rename_i heq <;> rw [heq] at h <;> exact h
      · split <;> exact after_refl _
  unfold dispatchMessage
  split <;> rename_i heq <;> rw [heq] at hchain <;> exact hchain

/-- Dispatching a list of messages leaves counters, `CodeInfo`s and
`ContractInfo`s alone when the nested `Execute` does. -/
theorem dispatchMessages_after {L : Type} (env : Env L) (exec : Exec L)
    (hexec : ∀ ctx a b c m, After (exec ctx a b c m).2 ctx)
    (contract : Option Account) (msgs : List CosmosMsg) :
    ∀ ctx : Ctx L, After (dispatchMessages env exec ctx contract msgs).2 ctx := by
  induction msgs with
  | nil => intro ctx; exact after_refl _
  | cons msg rest ih =>
    intro ctx
    have h1 := dispatchMessage_after env exec hexec ctx contract msg
    unfold dispatchMessages
    split
    · rename_i heq
      rw [heq] at h1
      exact after_trans (ih _) h1
    · rename_i heq
      rw [heq] at h1
      exact h1

/-- The context a dispatch returns, against the one it started from. -/
theorem dispatchMessages_after_of_eq {L : Type} (env : Env L) (exec : Exec L)
    (hexec : ∀ ctx a b c m, After (exec ctx a b c m).2 ctx)
    {contract : Option Account} {msgs : List CosmosMsg} {ctx ctx1 : Ctx L} {r : Res Unit}
    (h : dispatchMessages env exec ctx contract msgs = (r, ctx1)) : After ctx1 ctx := by
  have h1 := dispatchMessages_after env exec hexec contract msgs ctx
  rw [h] at h1
  exact h1

/-- The body of `Execute` writes only instance storage. -/
theorem ExecuteWith_after {L : Type} (env : Env L) (exec : Exec L)
    (hexec : ∀ ctx a b c m, After (exec ctx a b c m).2 ctx)
    (ctx : Ctx L) (contractAddress caller : AccAddress) (coins : Coins) (msg : Bytes) :
    After (ExecuteWith env exec ctx contractAddress caller coins msg).2 ctx := by
  unfold ExecuteWith
  dsimp only
  split
  · exact ⟨rfl, rfl, rfl, rfl, [], rfl⟩
  · exact ⟨rfl, rfl, rfl, rfl, [], rfl⟩
  · exact ⟨rfl, rfl, rfl, rfl, [], rfl⟩
  · split
    · exact ⟨rfl, rfl, rfl, rfl, [_], rfl⟩
    · split
      · exact ⟨rfl, rfl, rfl, rfl, [_, _], rfl⟩
      · split
        · exact ⟨rfl, rfl, rfl, rfl, [_, _], rfl⟩
        · split <;> rename_i heq <;>
            exact after_trans (dispatchMessages_after_of_eq env exec hexec heq)
              ⟨rfl, rfl, rfl, rfl, [_, _], rfl⟩

/-- `Execute`, at every nesting depth, leaves both counters, every
`CodeInfo` and every `ContractInfo` as they were, and only adds to the
record of external calls. -/
theorem Execute_after {L : Type} (env : Env L) (fuel : Nat) :
    ∀ (ctx : Ctx L) (contractAddress caller : AccAddress) (coins : Coins) (msg : Bytes),
      After (Execute env fuel ctx contractAddress caller coins msg).2 ctx := by
  induction fuel with
  | zero =>
    intro ctx a b c m
    exact ExecuteWith_after env _ (fun ctx _ _ _ _ => after_refl _) ctx a b c m
  | succ n ih =>
    intro ctx a b c m
    exact ExecuteWith_after env _ ih ctx a b c m

/-- Witness of C12: the address derived for code 1 is taken on the sample
ledger. -/
theorem instantiate_account_exists_witness :
    Instantiate sampleEnv 0 sampleCtxOccupied [65] 1 [] [⟨"token", 5⟩] =
      (Res.err ⟨ErrCode.accountExists,
          sampleEnv.accAddressString
            (⟨addrBuffer (contractID 1 1), [⟨"token", 3⟩]⟩ : Account).address⟩,
        { sampleCtxOccupied with
          store := (generateContractAddress sampleEnv sampleCtxOccupied.store 1).2 }) ∧
    (Instantiate sampleEnv 0 sampleCtxOccupied [65] 1 [] [⟨"token", 5⟩]).2.trace
      = sampleCtxOccupied.trace ∧
    (Instantiate sampleEnv 0 sampleCtxOccupied [65] 1 [] [⟨"token", 5⟩]).2.ledger
      = sampleCtxOccupied.ledger ∧
    (Instantiate sampleEnv 0 sampleCtxOccupied [65] 1 [] [⟨"token", 5⟩]).2.gas
      = sampleCtxOccupied.gas ∧
    (Instantiate sampleEnv 0 sampleCtxOccupied [65] 1 [] [⟨"token", 5⟩]).2.store.contracts
      = sampleCtxOccupied.store.contracts ∧
    (Instantiate sampleEnv 0 sampleCtxOccupied [65] 1 [] [⟨"token", 5⟩]).2.store.contractStore
      = sampleCtxOccupied.store.contractStore :=
  instantiate_account_exists sampleEnv 0 sampleCtxOccupied [65] 1 [] [⟨"token", 5⟩]
    ⟨addrBuffer (contractID 1 1), [⟨"token", 3⟩]⟩ (by decide)

/-- The `AccountExists` path of `Instantiate`, as an equation. -/
theorem instantiate_account_exists_aux {L : Type} (env : Env L) (fuel : Nat) (ctx : Ctx L)
    (creator : AccAddress) (codeID : Nat) (initMsg : Bytes) (deposit : Coins) (acct : Account)
    (h : env.getAccount ctx.ledger (generateContractAddress env ctx.store codeID).1 = some acct) :
    Instantiate env fuel ctx creator codeID initMsg deposit =
      (Res.err ⟨ErrCode.accountExists, env.accAddressString acct.address⟩,
        { ctx with store := (generateContractAddress env ctx.store codeID).2 }) := by
  unfold Instantiate InstantiateWith
  simp only [h]

/-- C13, as the code has it: `Instantiate` with a codeID that has no
`CodeInfo` never succeeds and never writes a `ContractInfo`. It fails with
`AccountExists` when the derived address is occupied, else with the ledger's
error when the deposit transfer fails, else with `NotFound`; on that last
path the deposit has been transferred and the VM has not been called. -/
theorem instantiate_unknown_code {L : Type} (env : Env L) (fuel : Nat) (ctx : Ctx L)
    (creator : AccAddress) (codeID : Nat) (initMsg : Bytes) (deposit : Coins)
    (h : ctx.store.codes codeID = none) :
    (∀ a, (Instantiate env fuel ctx creator codeID initMsg deposit).1 ≠ Res.ok a) ∧
    (Instantiate env fuel ctx creator codeID initMsg deposit).2.store.contracts
      = ctx.store.contracts ∧
    (∀ acct, env.getAccount ctx.ledger (generateContractAddress env ctx.store codeID).1
        = some acct →
      (Instantiate env fuel ctx creator codeID initMsg deposit).1
        = Res.err ⟨ErrCode.accountExists, env.accAddressString acct.address⟩) ∧
    (env.getAccount ctx.ledger (generateContractAddress env ctx.store codeID).1 = none →
      ∀ e, env.sendCoins ctx.ledger creator (generateContractAddress env ctx.store codeID).1
          deposit = Except.error e →
        (Instantiate env fuel ctx creator codeID initMsg deposit).1 = Res.err e) ∧
    (env.getAccount ctx.ledger (generateContractAddress env ctx.store codeID).1 = none →
      ∀ ledger1, env.sendCoins ctx.ledger creator
          (generateContractAddress env ctx.store codeID).1 deposit = Except.ok ledger1 →
        Instantiate env fuel ctx creator codeID initMsg deposit =
          (Res.err ⟨ErrCode.notFound, "contract"⟩,
            { store := (generateContractAddress env ctx.store codeID).2
              ledger := ledger1
              gas := ctx.gas
              trace := Event.sendCoins creator
                (generateContractAddress env ctx.store codeID).1 deposit :: ctx.trace })) := by
  have hcodes : (generateContractAddress env ctx.store codeID).2.codes codeID = none := h
  cases hga : env.getAccount ctx.ledger (generateContractAddress env ctx.store codeID).1 with
  | some acct0 =>
    have heq : Instantiate env fuel ctx creator codeID initMsg deposit =
        (Res.err ⟨ErrCode.accountExists, env.accAddressString acct0.address⟩,
          { ctx with store := (generateContractAddress env ctx.store codeID).2 }) :=
      (instantiate_account_exists_aux env fuel ctx creator codeID initMsg deposit acct0 hga)
    rw [heq]
    refine ⟨fun a hne => Res.noConfusion hne, rfl, ?_, fun hn => Option.noConfusion hn,
      fun hn => Option.noConfusion hn⟩
    intro acct hacct
    rw [Option.some.inj hacct]
  | none =>
    cases hsc : env.sendCoins ctx.ledger creator
        (generateContractAddress env ctx.store codeID).1 deposit with
    | error e0 =>
      have heq : Instantiate env fuel ctx creator codeID initMsg deposit =
          (Res.err e0,
            { store := (generateContractAddress env ctx.store codeID).2
              ledger := ctx.ledger
              gas := ctx.gas
              trace := Event.sendCoins creator
                (generateContractAddress env ctx.store codeID).1 deposit :: ctx.trace }) := by
        unfold Instantiate InstantiateWith
        simp only [hga, hsc]
      rw [heq]
      refine ⟨fun a hne => Res.noConfusion hne, rfl, fun acct hn => Option.noConfusion hn, ?_,
        fun _ l hl => Except.noConfusion hl⟩
      intro _ e he
      rw [Except.error.inj he]
    | ok l0 =>
      have heq : Instantiate env fuel ctx creator codeID initMsg deposit =
          (Res.err ⟨ErrCode.notFound, "contract"⟩,
            { store := (generateContractAddress env ctx.store codeID).2
              ledger := l0
              gas := ctx.gas
              trace := Event.sendCoins creator
                (generateContractAddress env ctx.store codeID).1 deposit :: ctx.trace }) := by
        unfold Instantiate InstantiateWith
        simp only [hga, hsc, hcodes]
      rw [heq]
      refine ⟨fun a hne => Res.noConfusion hne, rfl, fun acct hn => Option.noConfusion hn,
        fun _ e he => Except.noConfusion he, ?_⟩
      intro _ l hl
      rw [Except.ok.inj hl]

/-- Witness of C13: code 7 does not exist on the sample host; the deposit
of `"A"` is transferred and the call fails with `NotFound`. -/
theorem instantiate_unknown_code_witness :
    (∀ a, (Instantiate sampleEnv 0 sampleCtx [65] 7 [] [⟨"token", 5⟩]).1 ≠ Res.ok a) ∧
    (Instantiate sampleEnv 0 sampleCtx [65] 7 [] [⟨"token", 5⟩]).2.store.contracts
      = sampleCtx.store.contracts ∧
    Instantiate sampleEnv 0 sampleCtx [65] 7 [] [⟨"token", 5⟩] =
      (Res.err ⟨ErrCode.notFound, "contract"⟩,
        { store := (generateContractAddress sampleEnv sampleCtx.store 7).2
          ledger := [([65], 95), (addrBuffer (contractID 7 1), 5)]
          gas := sampleCtx.gas
          trace := Event.sendCoins [65]
            (generateContractAddress sampleEnv sampleCtx.store 7).1 [⟨"token", 5⟩]
              :: sampleCtx.trace }) :=
  ⟨(instantiate_unknown_code sampleEnv 0 sampleCtx [65] 7 [] [⟨"token", 5⟩] rfl).1,
    (instantiate_unknown_code sampleEnv 0 sampleCtx [65] 7 [] [⟨"token", 5⟩] rfl).2.1,
    (instantiate_unknown_code sampleEnv 0 sampleCtx [65] 7 [] [⟨"token", 5⟩] rfl).2.2.2.2
      (by decide) [([65], 95), (addrBuffer (contractID 7 1), 5)] rfl⟩

/-- C13, as stated, fails: code 7 has no `CodeInfo`, yet `Instantiate` by a
creator without funds fails with the ledger's error, not with `NotFound`,
because the deposit transfer comes before the code lookup. -/
theorem instantiate_unknown_code_not_always_notFound :
    sampleCtx.store.codes 7 = none ∧
    (Instantiate sampleEnv 0 sampleCtx [66] 7 [] [⟨"token", 5⟩]).1
      = Res.err ⟨ErrCode.abci "sdk" 10, "insufficient coins"⟩ ∧
    (Instantiate sampleEnv 0 sampleCtx [66] 7 [] [⟨"token", 5⟩]).1
      ≠ Res.err ⟨ErrCode.notFound, "contract"⟩ := by
  decide

/-- A charge the meter covers. -/
theorem ConsumeGas_covered (meter : GasMeter) (amount : Nat) (hL : meter.limit < u64)
    (h : meter.consumed + amount ≤ meter.limit) :
    meter.ConsumeGas amount
      = (none, { limit := meter.limit, consumed := meter.consumed + amount }) := by
  have hadd : add64 meter.consumed amount = meter.consumed + amount :=
    Nat.mod_eq_of_lt (by omega)
  unfold GasMeter.ConsumeGas
  simp only [hadd]
  rw [if_neg (by omega), if_neg (by omega)]

/-- One read the meter covers: the meter is charged the flat cost and the
per-byte cost of the value. -/
theorem chargeGet_covered (meter : GasMeter) (valueLen : Nat) (hL : meter.limit < u64)
    (h : meter.consumed + (ReadCostFlat + mul64 ReadCostPerByte valueLen) ≤ meter.limit) :
    chargeGet meter valueLen
      = (none, { limit := meter.limit,
                 consumed := meter.consumed + (ReadCostFlat + mul64 ReadCostPerByte valueLen) }) := by
  unfold chargeGet
  rw [ConsumeGas_covered meter ReadCostFlat hL (by omega)]
  simp only
  rw [ConsumeGas_covered { limit := meter.limit, consumed := meter.consumed + ReadCostFlat }
    (mul64 ReadCostPerByte valueLen) hL
    (by
      show meter.consumed + ReadCostFlat + mul64 ReadCostPerByte valueLen ≤ meter.limit
      rw [Nat.add_assoc]
      exact h), Nat.add_assoc]

/-- One read the meter does not cover is fatal. -/
theorem chargeGet_not_covered (meter : GasMeter) (valueLen : Nat)
    (h : meter.limit < meter.consumed + (ReadCostFlat + mul64 ReadCostPerByte valueLen)) :
    ∃ p m, chargeGet meter valueLen = (some p, m) := by
  unfold chargeGet
  cases h1 : meter.ConsumeGas ReadCostFlat with
  | mk r m1 =>
    cases r with
    | some p => exact ⟨p, m1, rfl⟩
    | none =>
      have hm1 : m1 = { meter with consumed := add64 meter.consumed ReadCostFlat } ∧
          meter.consumed + ReadCostFlat < u64 ∧
          add64 meter.consumed ReadCostFlat ≤ meter.limit := by
        unfold GasMeter.ConsumeGas at h1
        simp only at h1
        split at h1
        · exact Option.noConfusion (congrArg Prod.fst h1)
        · split at h1
          · exact Option.noConfusion (congrArg Prod.fst h1)
          · rename_i hlt hle
            exact ⟨(congrArg Prod.snd h1).symm, by omega, by omega⟩
      obtain ⟨hm, hlt, hle⟩ := hm1
      have hadd : add64 meter.consumed ReadCostFlat = meter.consumed + ReadCostFlat :=
        Nat.mod_eq_of_lt hlt
      simp only
      rw [hm]
      unfold GasMeter.ConsumeGas
      simp only [hadd]
      by_cases hov : u64 ≤ meter.consumed + ReadCostFlat + mul64 ReadCostPerByte valueLen
      · rw [if_pos hov]
        exact ⟨_, _, rfl⟩
      · rw [if_neg hov]
        have hadd2 : add64 (meter.consumed + ReadCostFlat) (mul64 ReadCostPerByte valueLen)
            = meter.consumed + ReadCostFlat + mul64 ReadCostPerByte valueLen :=
          Nat.mod_eq_of_lt (by omega)
        rw [if_pos (by rw [hadd2]; omega)]
        exact ⟨_, _, rfl⟩

/-- What `contractInstanceMetered` returns when it is not fatal is what
`contractInstance` returns. -/
theorem contractInstanceMetered_value {L : Type} (env : Env L) (ctx : Ctx L)
    (contractAddress : AccAddress) :
    (∃ p, (contractInstanceMetered env ctx contractAddress).1 = Res.panic p) ∨
    (contractInstanceMetered env ctx contractAddress).1
      = (match contractInstance ctx contractAddress with
          | Except.error e => Res.err e
          | Except.ok v => Res.ok v) := by
  unfold contractInstanceMetered contractInstance
  dsimp only
  split
  · exact Or.inl ⟨_, rfl⟩
  · cases hc : ctx.store.contracts contractAddress with
    | none => exact Or.inr rfl
    | some contract =>
      dsimp only
      split
      · exact Or.inl ⟨_, rfl⟩
      · cases hi : ctx.store.codes contract.codeID with
        | none => exact Or.inr rfl
        | some codeInfo => exact Or.inr rfl

/-- `Execute` at depth 0 and at any other depth is the same body. -/
theorem Execute_eq_ExecuteWith {L : Type} (env : Env L) (fuel : Nat) :
    ∃ exec : Exec L, Execute env fuel = ExecuteWith env exec := by
  cases fuel with
  | zero => exact ⟨_, rfl⟩
  | succ n => exact ⟨_, rfl⟩

/-- C17, as the code has it: `Execute` on an address with no stored
`ContractInfo` makes one read of the gas-metered store and nothing else. At
every nesting depth the store, the ledger and the record of external calls
(no transfer, no VM call) come back unchanged. When the meter covers the flat
cost of the read, `Execute` fails with `NotFound` and the meter has consumed
exactly `ReadCostFlat` more; when it does not, `Execute` is fatal (out of
gas) instead of returning `NotFound`. -/
theorem execute_unknown_contract {L : Type} (env : Env L) (fuel : Nat) (ctx : Ctx L)
    (contractAddress caller : AccAddress) (coins : Coins) (msg : Bytes)
    (h : ctx.store.contracts contractAddress = none) :
    (Execute env fuel ctx contractAddress caller coins msg).2
      = { ctx with gas := (Execute env fuel ctx contractAddress caller coins msg).2.gas } ∧
    (ctx.gas.limit < u64 → ctx.gas.consumed + ReadCostFlat ≤ ctx.gas.limit →
      Execute env fuel ctx contractAddress caller coins msg =
        (Res.err ⟨ErrCode.notFound, "contract"⟩,
          { ctx with gas := { limit := ctx.gas.limit,
                              consumed := ctx.gas.consumed + ReadCostFlat } })) ∧
    (ctx.gas.limit < ctx.gas.consumed + ReadCostFlat →
      ∃ p, (Execute env fuel ctx contractAddress caller coins msg).1 = Res.panic p) := by
  obtain ⟨exec, hexec⟩ := Execute_eq_ExecuteWith env fuel
  rw [hexec]
  have hmul : mul64 ReadCostPerByte 0 = 0 := by decide
  have hcim : contractInstanceMetered env ctx contractAddress
      = (match chargeGet ctx.gas 0 with
          | (some p, meter1) => (Res.panic p, meter1)
          | (none, meter1) => (Res.err ⟨ErrCode.notFound, "contract"⟩, meter1)) := by
    unfold contractInstanceMetered
    simp only [h]
  refine ⟨?_, ?_, ?_⟩
  · unfold ExecuteWith
    rw [hcim]
    cases hch : chargeGet ctx.gas 0 with
    | mk r m =>
      cases r with
      | some p => rfl
      | none => rfl
  · intro hL hcov
    have hch := chargeGet_covered ctx.gas 0 hL (by rw [hmul]; exact hcov)
    rw [hmul, Nat.add_zero] at hch
    unfold ExecuteWith
    rw [hcim, hch]
  · intro hnot
    obtain ⟨p, m, hch⟩ := chargeGet_not_covered ctx.gas 0 (by rw [hmul]; exact hnot)
    refine ⟨p, ?_⟩
    unfold ExecuteWith
    rw [hcim, hch]

/-- Witness of C17: no instance lives at `"C"` on the sample host; the
failed lookup costs the caller 1000 gas. -/
theorem execute_unknown_contract_witness :
    Execute sampleEnv 3 sampleCtxB [67] [65] [⟨"token", 2⟩] [9] =
      (Res.err ⟨ErrCode.notFound, "contract"⟩,
        { sampleCtxB with gas := { limit := sampleCtxB.gas.limit,
                                   consumed := sampleCtxB.gas.consumed + ReadCostFlat } }) :=
  (execute_unknown_contract sampleEnv 3 sampleCtxB [67] [65] [⟨"token", 2⟩] [9]
    (by decide)).2.1 (by decide) (by decide)

/-- C17, as stated, fails: `Execute` on the unknown address `"C"` does not
leave the gas meter unchanged (the read of the metered store is charged), and
on a meter that cannot cover the read it does not fail with `NotFound` but is
fatal. -/
theorem execute_unknown_contract_charges_gas :
    sampleCtxB.store.contracts [67] = none ∧
    sampleCtxB.gas = ⟨1000000, 0⟩ ∧
    (Execute sampleEnv 3 sampleCtxB [67] [65] [⟨"token", 2⟩] [9]).2.gas = ⟨1000000, 1000⟩ ∧
    (Execute sampleEnv 3 sampleCtxB [67] [65] [⟨"token", 2⟩] [9]).2.gas ≠ sampleCtxB.gas ∧
    (Execute sampleEnv 3 { sampleCtxB with gas := ⟨500, 0⟩ } [67] [65] [⟨"token", 2⟩] [9]).1
      = Res.panic Panic.outOfGas ∧
    (Execute sampleEnv 3 { sampleCtxB with gas := ⟨500, 0⟩ } [67] [65] [⟨"token", 2⟩] [9]).1
      ≠ Res.err ⟨ErrCode.notFound, "contract"⟩ := by
  decide

/-- C14, as the code has it: when the VM's instantiate call fails,
`Instantiate` fails with `InstantiateFailed` wrapping the VM's message. No
`ContractInfo` is written, the code registry is untouched, no gas is
reported and nothing is dispatched; what survives is the deposit transfer,
the instance counter advanced by one, and whatever the VM left in the new
instance's own prefixed store. -/
theorem instantiate_vm_failure {L : Type} (env : Env L) (fuel : Nat) (ctx : Ctx L)
    (creator : AccAddress) (codeID : Nat) (initMsg : Bytes) (deposit : Coins) (ledger1 : L)
    (codeInfo : CodeInfo) (e : String)
    (hga : env.getAccount ctx.ledger (generateContractAddress env ctx.store codeID).1 = none)
    (hsc : env.sendCoins ctx.ledger creator (generateContractAddress env ctx.store codeID).1
      deposit = Except.ok ledger1)
    (hcode : ctx.store.codes codeID = some codeInfo)
    (hvm : (env.wasmerInstantiate codeInfo.codeHash
        (NewParams creator deposit
          (env.getAccount ledger1 (generateContractAddress env ctx.store codeID).1))
        initMsg (ctx.store.contractStore (generateContractAddress env ctx.store codeID).1)
        (gasForContract ctx.gas)).1 = Except.error e) :
    (Instantiate env fuel ctx creator codeID initMsg deposit).1
      = Res.err ⟨ErrCode.instantiateFailed, e⟩ ∧
    (Instantiate env fuel ctx creator codeID initMsg deposit).2.store.contracts
      = ctx.store.contracts ∧
    (Instantiate env fuel ctx creator codeID initMsg deposit).2.store.codes
      = ctx.store.codes ∧
    (Instantiate env fuel ctx creator codeID initMsg deposit).2.store.lastCodeID
      = ctx.store.lastCodeID ∧
    (Instantiate env fuel ctx creator codeID initMsg deposit).2.store.lastInstanceID
      = some (add64 (autoIncrementID ctx.store IDKey.KeyLastInstanceID).1 1) ∧
    (∀ a, a ≠ (generateContractAddress env ctx.store codeID).1 →
      (Instantiate env fuel ctx creator codeID initMsg deposit).2.store.contractStore a
        = ctx.store.contractStore a) ∧
    (Instantiate env fuel ctx creator codeID initMsg deposit).2.gas = ctx.gas ∧
    (Instantiate env fuel ctx creator codeID initMsg deposit).2.ledger = ledger1 ∧
    (Instantiate env fuel ctx creator codeID initMsg deposit).2.trace =
      Event.vmInstantiate codeInfo.codeHash
          (NewParams creator deposit
            (env.getAccount ledger1 (generateContractAddress env ctx.store codeID).1))
          initMsg (gasForContract ctx.gas)
        :: Event.sendCoins creator (generateContractAddress env ctx.store codeID).1 deposit
        :: ctx.trace := by
  have hcodes : (generateContractAddress env ctx.store codeID).2.codes codeID = some codeInfo :=
    hcode
  have hvm1 : (env.wasmerInstantiate codeInfo.codeHash
        (NewParams creator deposit
          (env.getAccount ledger1 (generateContractAddress env ctx.store codeID).1))
        initMsg
        ((generateContractAddress env ctx.store codeID).2.contractStore
          (generateContractAddress env ctx.store codeID).1)
        (gasForContract ctx.gas)).1 = Except.error e := hvm
  have heq : Instantiate env fuel ctx creator codeID initMsg deposit =
      (Res.err ⟨ErrCode.instantiateFailed, e⟩,
        { store := (generateContractAddress env ctx.store codeID).2.setContractStore
            (generateContractAddress env ctx.store codeID).1
            (env.wasmerInstantiate codeInfo.codeHash
              (NewParams creator deposit
                (env.getAccount ledger1 (generateContractAddress env ctx.store codeID).1))
              initMsg
              ((generateContractAddress env ctx.store codeID).2.contractStore
                (generateContractAddress env ctx.store codeID).1)
              (gasForContract ctx.gas)).2
          ledger := ledger1
          gas := ctx.gas
          trace := Event.vmInstantiate codeInfo.codeHash
              (NewParams creator deposit
                (env.getAccount ledger1 (generateContractAddress env ctx.store codeID).1))
              initMsg (gasForContract ctx.gas)
            :: Event.sendCoins creator (generateContractAddress env ctx.store codeID).1 deposit
            :: ctx.trace }) := by
    unfold Instantiate InstantiateWith
    simp only [hga, hsc, hcodes, hvm1]
  rw [heq]
  refine ⟨rfl, rfl, rfl, rfl, rfl, ?_, rfl, rfl, rfl⟩
  intro a ha
  show (if a = (generateContractAddress env ctx.store codeID).1 then _ else _) = _
  rw [if_neg ha]
  rfl

/-- Witness of C14: the sample VM rejects the init message `[0]`. -/
theorem instantiate_vm_failure_witness :
    (Instantiate sampleEnv 0 sampleCtxCode [65] 1 [0] [⟨"token", 5⟩]).1
      = Res.err ⟨ErrCode.instantiateFailed, "init error"⟩ ∧
    (Instantiate sampleEnv 0 sampleCtxCode [65] 1 [0] [⟨"token", 5⟩]).2.store.contracts
      = sampleCtxCode.store.contracts ∧
    (Instantiate sampleEnv 0 sampleCtxCode [65] 1 [0] [⟨"token", 5⟩]).2.store.lastInstanceID
      = some (add64 (autoIncrementID sampleCtxCode.store IDKey.KeyLastInstanceID).1 1) ∧
    (Instantiate sampleEnv 0 sampleCtxCode [65] 1 [0] [⟨"token", 5⟩]).2.gas = sampleCtxCode.gas ∧
    (Instantiate sampleEnv 0 sampleCtxCode [65] 1 [0] [⟨"token", 5⟩]).2.ledger
      = [([65], 95), (addrBuffer (contractID 1 1), 5)] :=
  have h := instantiate_vm_failure sampleEnv 0 sampleCtxCode [65] 1 [0] [⟨"token", 5⟩]
    [([65], 95), (addrBuffer (contractID 1 1), 5)] ⟨[2, 3], [65]⟩ "init error"
    (by decide) rfl rfl rfl
  ⟨h.1, h.2.1, h.2.2.2.2.1, h.2.2.2.2.2.2.1, h.2.2.2.2.2.2.2.1⟩

/-- C14, as stated, fails: after a failed VM instantiate call the keeper's
store is not the store before the call, the instance counter has advanced. -/
theorem instantiate_vm_failure_changes_store :
    (Instantiate sampleEnv 0 sampleCtxCode [65] 1 [0] [⟨"token", 5⟩]).1
      = Res.err ⟨ErrCode.instantiateFailed, "init error"⟩ ∧
    sampleCtxCode.store.lastInstanceID = none ∧
    (Instantiate sampleEnv 0 sampleCtxCode [65] 1 [0] [⟨"token", 5⟩]).2.store.lastInstanceID
      = some 2 ∧
    (Instantiate sampleEnv 0 sampleCtxCode [65] 1 [0] [⟨"token", 5⟩]).2.store.lastInstanceID
      ≠ sampleCtxCode.store.lastInstanceID := by
  decide

/-! ## Instantiate: the success path -/

/-- C15: when `Instantiate` returns address `X`, then `X` is the address
derived from `codeID` and the instance counter this call read, the deposit
transfer from the creator to `X` was made and succeeded, and afterwards
`GetContractInfo X` is `ContractInfo{codeID, creator, initMsg}`. The context
returned is fixed by the path taken: the ledger the transfer left is handed
to the VM call and to the dispatch of the messages the VM emitted, and the
context that dispatch left, with the `ContractInfo` written, is the result;
when the VM emitted no message the ledger afterwards is the one the transfer
left. -/
theorem instantiate_success {L : Type} (env : Env L) (fuel : Nat) (ctx : Ctx L)
    (creator : AccAddress) (codeID : Nat) (initMsg : Bytes) (deposit : Coins) (X : AccAddress)
    (h : (Instantiate env fuel ctx creator codeID initMsg deposit).1 = Res.ok X) :
    X = addrFromUint64 env
      (contractID codeID (autoIncrementID ctx.store IDKey.KeyLastInstanceID).1) ∧
    GetContractInfo (Instantiate env fuel ctx creator codeID initMsg deposit).2 X
      = some { codeID := codeID, creator := creator, initMsg := initMsg } ∧
    (∃ ledger1, env.sendCoins ctx.ledger creator X deposit = Except.ok ledger1) ∧
    Event.sendCoins creator X deposit
      ∈ (Instantiate env fuel ctx creator codeID initMsg deposit).2.trace ∧
    (∃ ledger1 codeInfo res meter ctx6,
      env.sendCoins ctx.ledger creator X deposit = Except.ok ledger1 ∧
      ctx.store.codes codeID = some codeInfo ∧
      (env.wasmerInstantiate codeInfo.codeHash
        (NewParams creator deposit (env.getAccount ledger1 X)) initMsg
        (ctx.store.contractStore X) (gasForContract ctx.gas)).1 = Except.ok res ∧
      consumeGas ctx.gas res.gasUsed = (none, meter) ∧
      dispatchMessages env (Execute env fuel)
        { store := (generateContractAddress env ctx.store codeID).2.setContractStore X
            (env.wasmerInstantiate codeInfo.codeHash
              (NewParams creator deposit (env.getAccount ledger1 X)) initMsg
              (ctx.store.contractStore X) (gasForContract ctx.gas)).2
          ledger := ledger1
          gas := meter
          trace := Event.vmInstantiate codeInfo.codeHash
              (NewParams creator deposit (env.getAccount ledger1 X)) initMsg
              (gasForContract ctx.gas)
            :: Event.sendCoins creator X deposit :: ctx.trace }
        (env.getAccount ledger1 X) res.messages = (Res.ok (), ctx6) ∧
      (Instantiate env fuel ctx creator codeID initMsg deposit).2
        = { ctx6 with
            store := ctx6.store.setContract X (NewContractInfo codeID creator initMsg) } ∧
      (res.messages = [] →
        (Instantiate env fuel ctx creator codeID initMsg deposit).2.ledger = ledger1)) := by
  have hexec := Execute_after env fuel
  unfold Instantiate InstantiateWith at h ⊢
  dsimp only at h ⊢
  split at h
  · exact Res.noConfusion h
  · rename_i hga
    try simp only [hga]
    split at h
    · exact Res.noConfusion h
    · rename_i ledger1 hsc
      try simp only [hsc]
      split at h
      · exact Res.noConfusion h
      · rename_i codeInfo hcode
        try simp only [hcode]
        split at h
        · exact Res.noConfusion h
        · rename_i res hvm
          try simp only [hvm]
          split at h
          · exact Res.noConfusion h
          · rename_i meter hgas
            try simp only [hgas]
            split at h
            · exact Res.noConfusion h
            · exact Res.noConfusion h
            · exact Res.noConfusion h
            · rename_i u ctx6 hdisp
              try simp only [hdisp]
              have hX : X = (generateContractAddress env ctx.store codeID).1 :=
                (Res.ok.inj h).symm
              obtain ⟨_, _, _, _, pre, htrace⟩ :=
                dispatchMessages_after_of_eq env _ hexec hdisp
              refine ⟨hX, ?_, ⟨ledger1, by rw [hX]; exact hsc⟩, ?_, ?_⟩
              · rw [hX]
                simp [GetContractInfo, KVStore.setContract, NewContractInfo]
              · rw [htrace, hX]
                simp
              · refine ⟨ledger1, codeInfo, res, meter, ctx6, by rw [hX]; exact hsc, hcode,
                  by rw [hX]; exact hvm, hgas, by rw [hX]; exact hdisp, by rw [hX], ?_⟩
                intro hnil
                rw [hnil] at hdisp
                have hctx := (congrArg Prod.snd hdisp).symm
                simp only [dispatchMessages] at hctx
                rw [hctx]

/-- Witness of C15: code 1 instantiated by `"A"` with a deposit of five
tokens on the sample host. -/
theorem instantiate_success_witness :
    addrBuffer (contractID 1 1) = addrFromUint64 sampleEnv
      (contractID 1 (autoIncrementID sampleCtxCode.store IDKey.KeyLastInstanceID).1) ∧
    GetContractInfo (Instantiate sampleEnv 0 sampleCtxCode [65] 1 [9] [⟨"token", 5⟩]).2
        (addrBuffer (contractID 1 1))
      = some { codeID := 1, creator := [65], initMsg := [9] } ∧
    (∃ ledger1, sampleEnv.sendCoins sampleCtxCode.ledger [65] (addrBuffer (contractID 1 1))
      [⟨"token", 5⟩] = Except.ok ledger1) ∧
    Event.sendCoins [65] (addrBuffer (contractID 1 1)) [⟨"token", 5⟩]
      ∈ (Instantiate sampleEnv 0 sampleCtxCode [65] 1 [9] [⟨"token", 5⟩]).2.trace ∧
    sampleCtxCode.ledger = [([65], 100)] ∧
    (Instantiate sampleEnv 0 sampleCtxCode [65] 1 [9] [⟨"token", 5⟩]).2.ledger
      = [([65], 95), (addrBuffer (contractID 1 1), 5)] :=
  have h := instantiate_success sampleEnv 0 sampleCtxCode [65] 1 [9] [⟨"token", 5⟩]
    (addrBuffer (contractID 1 1)) (by decide)
  ⟨h.1, h.2.1, h.2.2.1, h.2.2.2.1, by decide, by decide⟩

/-! ## Every instance has its code -/

/-- What `Instantiate` does to the `ContractInfo`s: nothing, or one record
written for a codeID that has a `CodeInfo`. -/
theorem Instantiate_contracts {L : Type} (env : Env L) (fuel : Nat) (ctx : Ctx L)
    (creator : AccAddress) (codeID : Nat) (initMsg : Bytes) (deposit : Coins) :
    (Instantiate env fuel ctx creator codeID initMsg deposit).2.store.contracts
        = ctx.store.contracts ∨
    (ctx.store.codes codeID ≠ none ∧
      ∃ X, (Instantiate env fuel ctx creator codeID initMsg deposit).2.store.contracts
        = fun a => if a = X then some (NewContractInfo codeID creator initMsg)
            else ctx.store.contracts a) := by
  have hexec := Execute_after env fuel
  unfold Instantiate InstantiateWith
  dsimp only
  split
  · exact Or.inl rfl
  · split
    · exact Or.inl rfl
    · split
      · exact Or.inl rfl
      · rename_i codeInfo hcode
        split
        · exact Or.inl rfl
        · split
          · exact Or.inl rfl
          · split
            · rename_i heq
              exact Or.inl (dispatchMessages_after_of_eq env _ hexec heq).2.2.2.1
            · rename_i heq
              exact Or.inl (dispatchMessages_after_of_eq env _ hexec heq).2.2.2.1
            · rename_i heq
              exact Or.inl (dispatchMessages_after_of_eq env _ hexec heq).2.2.2.1
            · rename_i heq
              have hc := (dispatchMessages_after_of_eq env _ hexec heq).2.2.2.1
              refine Or.inr ⟨?_, (generateContractAddress env ctx.store codeID).1, ?_⟩
              · intro hnone
                have hcode' : ctx.store.codes codeID = some codeInfo := hcode
                rw [hnone] at hcode'
                exact Option.noConfusion hcode'
              · show (fun a => if a = _ then _ else _) = _
                funext a
                rw [hc]
                rfl

/-- One step keeps every stored `ContractInfo` pointing at a stored
`CodeInfo`. -/
theorem step_contractsHaveCode {L : Type} (env : Env L) {b c : Ctx L} (hstep : Step env b c)
    (hinv : ContractsHaveCode b.store) : ContractsHaveCode c.store := by
  cases hstep with
  | create creator wasmCode =>
    rcases Create_store_cases env b creator wasmCode with ⟨hst, _⟩ | ⟨hash, _, hst⟩
    · rw [hst]; exact hinv
    · rw [hst]
      intro addr info hinfo
      have h1 := hinv addr info hinfo
      show (if info.codeID = GetNextCodeID b.store then some _ else b.store.codes info.codeID)
        ≠ none
      split
      · exact fun hn => Option.noConfusion hn
      · exact h1
  | instantiate fuel creator codeID initMsg deposit =>
    have hcodes := (Instantiate_sameCodes env fuel b creator codeID initMsg deposit).2
    intro addr info hinfo
    rw [hcodes]
    rcases Instantiate_contracts env fuel b creator codeID initMsg deposit with hsame | ⟨hc, X, hX⟩
    · rw [hsame] at hinfo
      exact hinv addr info hinfo
    · rw [hX] at hinfo
      dsimp only at hinfo
      split at hinfo
      · have := Option.some.inj hinfo
        rw [← this]
        exact hc
      · exact hinv addr info hinfo
  | execute fuel contractAddress caller coins msg =>
    obtain ⟨_, _, hcodes, hcontracts, _⟩ := Execute_after env fuel b contractAddress caller coins msg
    intro addr info hinfo
    rw [hcodes]
    rw [hcontracts] at hinfo
    exact hinv addr info hinfo
  | host ledger gas => exact hinv

/-- A run keeps every stored `ContractInfo` pointing at a stored
`CodeInfo`. -/
theorem steps_contractsHaveCode {L : Type} (env : Env L) {a b : Ctx L} {n : Nat}
    (hrun : Steps env a n b) (hinv : ContractsHaveCode a.store) : ContractsHaveCode b.store := by
  induction hrun with
  | refl => exact hinv
  | tail _ hstep ih => exact step_contractsHaveCode env hstep ih

/-- C16: in every state reached from the empty store by `Create`,
`Instantiate` and `Execute` (at any nesting depth of dispatch), every stored
`ContractInfo` has a codeID under which a `CodeInfo` is stored, and
`contractInstance` resolves every stored instance: it never reports the
"contract info" `NotFound`. -/
theorem contractInfo_references_codeInfo {L : Type} (env : Env L) (ctx0 ctx : Ctx L) (n : Nat)
    (h0 : ctx0.store = KVStore.empty) (hrun : Steps env ctx0 n ctx) :
    (∀ addr info, GetContractInfo ctx addr = some info →
      ∃ codeInfo, GetCodeInfo ctx info.codeID = some codeInfo ∧
        contractInstance ctx addr = Except.ok (codeInfo, ctx.store.contractStore addr)) ∧
    (∀ addr, contractInstance ctx addr ≠ Except.error ⟨ErrCode.notFound, "contract info"⟩) := by
  have hinv0 : ContractsHaveCode ctx0.store := by
    rw [h0]
    intro addr info hinfo
    exact Option.noConfusion hinfo
  have hinv := steps_contractsHaveCode env hrun hinv0
  have hfirst : ∀ addr info, GetContractInfo ctx addr = some info →
      ∃ codeInfo, GetCodeInfo ctx info.codeID = some codeInfo ∧
        contractInstance ctx addr = Except.ok (codeInfo, ctx.store.contractStore addr) := by
    intro addr info hinfo
    have hne := hinv addr info hinfo
    cases hci : ctx.store.codes info.codeID with
    | none => exact absurd hci hne
    | some codeInfo =>
      refine ⟨codeInfo, hci, ?_⟩
      have hinfo' : ctx.store.contracts addr = some info := hinfo
      simp only [contractInstance, hinfo', hci]
  refine ⟨hfirst, ?_⟩
  intro addr herr
  cases hc : ctx.store.contracts addr with
  | none =>
    simp only [contractInstance, hc] at herr
    have := Except.error.inj herr
    exact absurd (congrArg Err.msg this) (by decide)
  | some info =>
    obtain ⟨codeInfo, _, hok⟩ := hfirst addr info hc
    rw [hok] at herr
    exact Except.noConfusion herr

/-- Witness of C16: after an upload and an instantiation on the sample host
the instance's record points at code 1, which is stored. -/
theorem contractInfo_references_codeInfo_witness :
    (∀ addr info,
      GetContractInfo (Instantiate sampleEnv 0 sampleCtxCode [65] 1 [9] [⟨"token", 5⟩]).2 addr
        = some info →
      ∃ codeInfo,
        GetCodeInfo (Instantiate sampleEnv 0 sampleCtxCode [65] 1 [9] [⟨"token", 5⟩]).2
          info.codeID = some codeInfo ∧
        contractInstance (Instantiate sampleEnv 0 sampleCtxCode [65] 1 [9] [⟨"token", 5⟩]).2 addr
          = Except.ok (codeInfo,
            (Instantiate sampleEnv 0 sampleCtxCode [65] 1 [9]
              [⟨"token", 5⟩]).2.store.contractStore addr)) ∧
    (∀ addr,
      contractInstance (Instantiate sampleEnv 0 sampleCtxCode [65] 1 [9] [⟨"token", 5⟩]).2 addr
        ≠ Except.error ⟨ErrCode.notFound, "contract info"⟩) :=
  contractInfo_references_codeInfo sampleEnv sampleCtx
    (Instantiate sampleEnv 0 sampleCtxCode [65] 1 [9] [⟨"token", 5⟩]).2 2 rfl
    (Steps.tail (Steps.tail (Steps.refl _) (Step.create _ [65] [1, 2]))
      (Step.instantiate _ 0 [65] 1 [9] [⟨"token", 5⟩]))

/-- With its reads charged as well, `contractInstance` never reports the
"contract info" `NotFound` on a store whose instances all have their code. -/
theorem contractInstanceMetered_resolves {L : Type} (env : Env L) (ctx : Ctx L)
    (contractAddress : AccAddress) (hinv : ContractsHaveCode ctx.store) :
    (contractInstanceMetered env ctx contractAddress).1
      ≠ Res.err ⟨ErrCode.notFound, "contract info"⟩ := by
  rcases contractInstanceMetered_value env ctx contractAddress with ⟨p, hp⟩ | hv
  · rw [hp]
    exact fun h => Res.noConfusion h
  · rw [hv]
    cases hc : ctx.store.contracts contractAddress with
    | none =>
      simp only [contractInstance, hc]
      intro h
      exact absurd (congrArg Err.msg (Res.err.inj h)) (by decide)
    | some info =>
      cases hci : ctx.store.codes info.codeID with
      | none => exact absurd hci (hinv contractAddress info hc)
      | some codeInfo =>
        simp only [contractInstance, hc, hci]
        exact fun h => Res.noConfusion h

/-! ## Queries -/

/-- Both records found and both reads covered: `contractInstanceMetered`
returns the `CodeInfo` and the prefixed store, the meter charged for the two
reads. -/
theorem contractInstanceMetered_found {L : Type} (env : Env L) (ctx : Ctx L)
    (contractAddress : AccAddress) (contract : ContractInfo) (codeInfo : CodeInfo)
    (hc : ctx.store.contracts contractAddress = some contract)
    (hi : ctx.store.codes contract.codeID = some codeInfo)
    (hL : ctx.gas.limit < u64)
    (hcov : ctx.gas.consumed + contractInstanceReadGas env contract codeInfo ≤ ctx.gas.limit) :
    contractInstanceMetered env ctx contractAddress
      = (Res.ok (codeInfo, ctx.store.contractStore contractAddress),
          { limit := ctx.gas.limit,
            consumed := ctx.gas.consumed + contractInstanceReadGas env contract codeInfo }) := by
  unfold contractInstanceReadGas at hcov ⊢
  have h1 := chargeGet_covered ctx.gas (env.contractInfoSize contract) hL (by omega)
  have h2 := chargeGet_covered
    { limit := ctx.gas.limit,
      consumed := ctx.gas.consumed
        + (ReadCostFlat + mul64 ReadCostPerByte (env.contractInfoSize contract)) }
    (env.codeInfoSize codeInfo) hL
    (by
      show ctx.gas.consumed
          + (ReadCostFlat + mul64 ReadCostPerByte (env.contractInfoSize contract))
          + (ReadCostFlat + mul64 ReadCostPerByte (env.codeInfoSize codeInfo)) ≤ ctx.gas.limit
      omega)
  unfold contractInstanceMetered
  simp only [hc, hi, h1, h2, Nat.add_assoc]

/-- C18, as the code has it: `QuerySmart` runs under a fresh meter with limit
`queryGasLimit`, so for two calling contexts that differ only in their gas
meter the outcome and the recorded VM call are the same; the caller's meter
and the ledger come back unchanged; and the only external call recorded is
the VM query: no transfer, no dispatched message. The two reads of
`contractInstance` are charged to the fresh meter before the budget is
computed: when they cost `r` gas and the limit covers them, the VM is called
with the budget `min ((queryGasLimit - r) * 100) MaxGas`, and the outcome is
what that VM call returns. For the default limit 3000000 that budget is
`300000000 - r * 100`, at most 299800000. -/
theorem querySmart_fresh_meter {L : Type} (env : Env L) (queryGasLimit : Nat)
    (store : KVStore) (ledger : L) (trace : List Event) (meter1 meter2 : GasMeter)
    (contractAddr : AccAddress) (req : Bytes)
    (hq : queryGasLimit * GasMultiplier < u64) :
    (QuerySmart env queryGasLimit ⟨store, ledger, meter1, trace⟩ contractAddr req).1
      = (QuerySmart env queryGasLimit ⟨store, ledger, meter2, trace⟩ contractAddr req).1 ∧
    (QuerySmart env queryGasLimit ⟨store, ledger, meter1, trace⟩ contractAddr req).2.trace
      = (QuerySmart env queryGasLimit ⟨store, ledger, meter2, trace⟩ contractAddr req).2.trace ∧
    (QuerySmart env queryGasLimit ⟨store, ledger, meter1, trace⟩ contractAddr req).2.gas
      = meter1 ∧
    (QuerySmart env queryGasLimit ⟨store, ledger, meter1, trace⟩ contractAddr req).2.ledger
      = ledger ∧
    ((QuerySmart env queryGasLimit ⟨store, ledger, meter1, trace⟩ contractAddr req).2.trace
        = trace ∨
      ∃ codeHash gas,
        (QuerySmart env queryGasLimit ⟨store, ledger, meter1, trace⟩ contractAddr req).2.trace
          = Event.vmQuery codeHash req gas :: trace) ∧
    (∀ contract codeInfo, store.contracts contractAddr = some contract →
      store.codes contract.codeID = some codeInfo →
      contractInstanceReadGas env contract codeInfo ≤ queryGasLimit →
      (QuerySmart env queryGasLimit ⟨store, ledger, meter1, trace⟩ contractAddr req).1
        = (match (env.wasmerQuery codeInfo.codeHash req (store.contractStore contractAddr)
              (min ((queryGasLimit - contractInstanceReadGas env contract codeInfo)
                * GasMultiplier) MaxGas)).1 with
          | Except.error e => Res.err ⟨ErrCode.queryFailed, e⟩
          | Except.ok (queryResult, gasUsed) =>
            match consumeGas
                { limit := queryGasLimit,
                  consumed := contractInstanceReadGas env contract codeInfo } gasUsed with
            | (some p, _) => Res.panic p
            | (none, _) => Res.ok queryResult) ∧
      (QuerySmart env queryGasLimit ⟨store, ledger, meter1, trace⟩ contractAddr req).2
        = { store := store.setContractStore contractAddr
              (env.wasmerQuery codeInfo.codeHash req (store.contractStore contractAddr)
                (min ((queryGasLimit - contractInstanceReadGas env contract codeInfo)
                  * GasMultiplier) MaxGas)).2
            ledger := ledger
            gas := meter1
            trace := Event.vmQuery codeInfo.codeHash req
              (min ((queryGasLimit - contractInstanceReadGas env contract codeInfo)
                * GasMultiplier) MaxGas) :: trace }) ∧
    (∀ r, 2 * ReadCostFlat ≤ r → r ≤ smartQueryGasLimit →
      min ((smartQueryGasLimit - r) * GasMultiplier) MaxGas = 300000000 - r * 100 ∧
      min ((smartQueryGasLimit - r) * GasMultiplier) MaxGas ≤ 299800000) ∧
    (∀ contract codeInfo, 2 * ReadCostFlat ≤ contractInstanceReadGas env contract codeInfo) := by
  have hlim : queryGasLimit < u64 := by
    unfold GasMultiplier at hq
    omega
  refine ⟨?_, ?_, ?_, ?_, ?_, ?_, ?_, ?_⟩
  · unfold QuerySmart
    dsimp only
    split
    · rfl
    · rfl
    · rfl
    · split
      · rfl
      · split <;> rfl
  · unfold QuerySmart
    dsimp only
    split
    · rfl
    · rfl
    · rfl
    · split
      · rfl
      · split <;> rfl
  · unfold QuerySmart
    dsimp only
    split
    · rfl
    · rfl
    · rfl
    · split
      · rfl
      · split <;> rfl
  · unfold QuerySmart
    dsimp only
    split
    · rfl
    · rfl
    · rfl
    · split
      · rfl
      · split <;> rfl
  · unfold QuerySmart
    dsimp only
    split
    · exact Or.inl rfl
    · exact Or.inl rfl
    · exact Or.inl rfl
    · split
      · exact Or.inr ⟨_, _, rfl⟩
      · split <;> exact Or.inr ⟨_, _, rfl⟩
  · intro contract codeInfo hc hi hcov
    have hfound := contractInstanceMetered_found env
      (⟨store, ledger, { limit := queryGasLimit, consumed := 0 }, trace⟩ : Ctx L)
      contractAddr contract codeInfo hc hi hlim (by
        show 0 + contractInstanceReadGas env contract codeInfo ≤ queryGasLimit
        omega)
    have hzero : (0 : Nat) + contractInstanceReadGas env contract codeInfo
        = contractInstanceReadGas env contract codeInfo := Nat.zero_add _
    have hbudget : gasForContract
        { limit := queryGasLimit, consumed := contractInstanceReadGas env contract codeInfo }
        = min ((queryGasLimit - contractInstanceReadGas env contract codeInfo)
            * GasMultiplier) MaxGas :=
      gasForContract_eq_min_of_no_wrap
        { limit := queryGasLimit, consumed := contractInstanceReadGas env contract codeInfo }
        hlim hcov
        (lt_of_le_of_lt (Nat.mul_le_mul_right _ (Nat.sub_le _ _)) hq)
    have hstep : QuerySmart env queryGasLimit ⟨store, ledger, meter1, trace⟩ contractAddr req
        = (match (env.wasmerQuery codeInfo.codeHash req (store.contractStore contractAddr)
              (min ((queryGasLimit - contractInstanceReadGas env contract codeInfo)
                * GasMultiplier) MaxGas)).1 with
          | Except.error e =>
            (Res.err ⟨ErrCode.queryFailed, e⟩,
              { store := store.setContractStore contractAddr
                  (env.wasmerQuery codeInfo.codeHash req (store.contractStore contractAddr)
                    (min ((queryGasLimit - contractInstanceReadGas env contract codeInfo)
                      * GasMultiplier) MaxGas)).2
                ledger := ledger
                gas := meter1
                trace := Event.vmQuery codeInfo.codeHash req
                  (min ((queryGasLimit - contractInstanceReadGas env contract codeInfo)
                    * GasMultiplier) MaxGas) :: trace })
          | Except.ok (queryResult, gasUsed) =>
            match consumeGas
                { limit := queryGasLimit,
                  consumed := contractInstanceReadGas env contract codeInfo } gasUsed with
            | (some p, _) =>
              (Res.panic p,
                { store := store.setContractStore contractAddr
                    (env.wasmerQuery codeInfo.codeHash req (store.contractStore contractAddr)
                      (min ((queryGasLimit - contractInstanceReadGas env contract codeInfo)
                        * GasMultiplier) MaxGas)).2
                  ledger := ledger
                  gas := meter1
                  trace := Event.vmQuery codeInfo.codeHash req
                    (min ((queryGasLimit - contractInstanceReadGas env contract codeInfo)
                      * GasMultiplier) MaxGas) :: trace })
            | (none, _) =>
              (Res.ok queryResult,
                { store := store.setContractStore contractAddr
                    (env.wasmerQuery codeInfo.codeHash req (store.contractStore contractAddr)
                      (min ((queryGasLimit - contractInstanceReadGas env contract codeInfo)
                        * GasMultiplier) MaxGas)).2
                  ledger := ledger
                  gas := meter1
                  trace := Event.vmQuery codeInfo.codeHash req
                    (min ((queryGasLimit - contractInstanceReadGas env contract codeInfo)
                      * GasMultiplier) MaxGas) :: trace })) := by
      unfold QuerySmart
      simp only [hfound, hzero, hbudget]
    rw [hstep]
    constructor
    · split
      · rfl
      · split <;> rfl
    · split
      · rfl
      · split <;> rfl
  · intro r hr1 hr2
    unfold ReadCostFlat at hr1
    unfold smartQueryGasLimit at hr2 ⊢
    unfold GasMultiplier MaxGas
    omega
  · intro contract codeInfo
    unfold contractInstanceReadGas
    omega

/-- Witness of C18: a query of instance `"B"` on the sample host under the
default limit, from two contexts with different meters; the two reads cost
2036 gas. -/
theorem querySmart_fresh_meter_witness :
    (QuerySmart sampleEnv smartQueryGasLimit
        ⟨sampleCtxB.store, sampleCtxB.ledger, ⟨1000000, 0⟩, []⟩ [66] [4]).1
      = (QuerySmart sampleEnv smartQueryGasLimit
        ⟨sampleCtxB.store, sampleCtxB.ledger, ⟨50, 49⟩, []⟩ [66] [4]).1 ∧
    (QuerySmart sampleEnv smartQueryGasLimit
        ⟨sampleCtxB.store, sampleCtxB.ledger, ⟨1000000, 0⟩, []⟩ [66] [4]).2.gas
      = ⟨1000000, 0⟩ ∧
    (QuerySmart sampleEnv smartQueryGasLimit
        ⟨sampleCtxB.store, sampleCtxB.ledger, ⟨1000000, 0⟩, []⟩ [66] [4]).2.trace
      = [Event.vmQuery [2, 3] [4] 299796400] :=
  have h := querySmart_fresh_meter sampleEnv smartQueryGasLimit sampleCtxB.store
    sampleCtxB.ledger [] ⟨1000000, 0⟩ ⟨50, 49⟩ [66] [4] (by decide)
  ⟨h.1, h.2.2.1, by decide⟩

/-- C18, as stated, fails: under the default limit 3000000 the budget handed
to the VM for a query of instance `"B"` is not `min (3000000 * 100) MaxGas` =
300000000 but 299796400, the two reads of `contractInstance` having been
charged to the fresh meter first. -/
theorem querySmart_budget_below_claimed :
    min (smartQueryGasLimit * GasMultiplier) MaxGas = 300000000 ∧
    (QuerySmart sampleEnv smartQueryGasLimit sampleCtxB [66] [4]).2.trace
      = [Event.vmQuery [2, 3] [4] 299796400] ∧
    (QuerySmart sampleEnv smartQueryGasLimit sampleCtxB [66] [4]).2.trace
      ≠ [Event.vmQuery [2, 3] [4] (min (smartQueryGasLimit * GasMultiplier) MaxGas)] := by
  decide

/-- Writing models none of which has key `k` leaves the entry at `k`. -/
theorem setModels_of_not_mem (models : List Model) (k : Bytes) :
    ∀ ps : Storage, (∀ m ∈ models, m.Key ≠ k) → setModels ps models k = ps k := by
  induction models with
  | nil => intro ps _; rfl
  | cons m rest ih =>
    intro ps h
    have hm : m.Key ≠ k := h m (List.mem_cons_self _ _)
    have hrest : ∀ x ∈ rest, x.Key ≠ k := fun x hx => h x (List.mem_cons_of_mem _ hx)
    show setModels (ps.set m.Key m.Value) rest k = ps k
    rw [ih _ hrest]
    show (if k = m.Key then some m.Value else ps k) = ps k
    rw [if_neg (fun heq => hm heq.symm)]

/-- Writing a list of models, then another. -/
theorem setModels_append (xs ys : List Model) :
    ∀ ps : Storage, setModels ps (xs ++ ys) = setModels (setModels ps xs) ys := by
  induction xs with
  | nil => intro ps; rfl
  | cons m rest ih =>
    intro ps
    show setModels (ps.set m.Key m.Value) (rest ++ ys) = _
    rw [ih]
    rfl

/-- C19: `QueryRaw` is total and returns at most one entry: nothing for a
nil key, nothing for a key with no entry under the instance's prefix, and
for a key with an entry exactly that key with its value, which after
`setContractState` is the value of the last model written under that key. -/
theorem queryRaw_zero_or_one {L : Type} (ctx : Ctx L) (contractAddress : AccAddress) :
    QueryRaw ctx contractAddress none = [] ∧
    (∀ k, ctx.store.contractStore contractAddress k = none →
      QueryRaw ctx contractAddress (some k) = []) ∧
    (∀ k v, ctx.store.contractStore contractAddress k = some v →
      QueryRaw ctx contractAddress (some k) = [{ Key := k, Value := v }]) ∧
    (∀ key, (QueryRaw ctx contractAddress key).length ≤ 1) ∧
    (∀ (before after : List Model) (k v : Bytes), (∀ m ∈ after, m.Key ≠ k) →
      QueryRaw (setContractState ctx contractAddress (before ++ { Key := k, Value := v } :: after))
        contractAddress (some k) = [{ Key := k, Value := v }]) := by
  have hnone : ∀ k, ctx.store.contractStore contractAddress k = none →
      QueryRaw ctx contractAddress (some k) = [] := by
    intro k h
    simp only [QueryRaw, QueryRawOn, h]
  have hsome : ∀ k v, ctx.store.contractStore contractAddress k = some v →
      QueryRaw ctx contractAddress (some k) = [{ Key := k, Value := v }] := by
    intro k v h
    simp only [QueryRaw, QueryRawOn, h]
  refine ⟨rfl, hnone, hsome, ?_, ?_⟩
  · intro key
    cases key with
    | none => exact Nat.zero_le _
    | some k =>
      cases h : ctx.store.contractStore contractAddress k with
      | none => rw [hnone k h]; exact Nat.zero_le _
      | some v => rw [hsome k v h]; exact le_refl _
  · intro before after k v hafter
    have hval : setModels (ctx.store.contractStore contractAddress)
        (before ++ { Key := k, Value := v } :: after) k = some v := by
      rw [setModels_append]
      show setModels (Storage.set _ k v) after k = some v
      rw [setModels_of_not_mem after k _ hafter]
      show (if k = k then some v else _) = some v
      rw [if_pos rfl]
    simp only [QueryRaw, QueryRawOn, setContractState, KVStore.setContractStore, if_true, hval]

/-- Witness of C19: two writes under key `[1]` and one under `[2]`; the
query of `[1]` returns the later value. -/
theorem queryRaw_zero_or_one_witness :
    QueryRaw sampleCtxB [66] none = [] ∧
    QueryRaw sampleCtxB [66] (some [1]) = [] ∧
    QueryRaw (setContractState sampleCtxB [66] ([⟨[1], [7]⟩] ++ ⟨[1], [8]⟩ :: [⟨[2], [9]⟩]))
      [66] (some [1]) = [{ Key := [1], Value := [8] }] :=
  ⟨(queryRaw_zero_or_one sampleCtxB [66]).1,
    (queryRaw_zero_or_one sampleCtxB [66]).2.1 [1] rfl,
    (queryRaw_zero_or_one sampleCtxB [66]).2.2.2.2 [⟨[1], [7]⟩] [⟨[2], [9]⟩] [1] [8]
      (by decide)⟩

/-! ## Storage isolation -/

/-- Writes under the prefix of `A` leave every raw key outside that prefix
as it was. -/
theorem setContractStateBytes_outside (A : AccAddress) (models : List Model) (key : Bytes)
    (hout : ∀ k, key ≠ GetContractStorePrefixKey A ++ k) :
    ∀ raw : RawStore, setContractStateBytes raw A models key = raw key := by
  induction models with
  | nil => intro raw; rfl
  | cons m rest ih =>
    intro raw
    show setContractStateBytes (raw.set (GetContractStorePrefixKey A ++ m.Key) m.Value) A rest key
      = raw key
    rw [ih]
    show (if key = GetContractStorePrefixKey A ++ m.Key then some m.Value else raw key) = raw key
    rw [if_neg (hout m.Key)]

/-- Two addresses of the same length whose prefixed keys coincide are the
same address. -/
theorem prefixKey_inj (A B : AccAddress) (k k1 : Bytes) (hlen : A.length = B.length)
    (h : GetContractStorePrefixKey B ++ k1 = GetContractStorePrefixKey A ++ k) : B = A := by
  unfold GetContractStorePrefixKey at h
  rw [List.cons_append, List.cons_append] at h
  exact List.append_inj_left (List.cons.inj h).2 hlen.symm

/-- C20: for two distinct instance addresses `A` and `B` (of the same
length, as the 20-byte hashes are), writing through the prefixed view of `A`
leaves every `QueryRaw` of `B` unchanged, and leaves every `CodeInfo`, every
`ContractInfo` and both counters unchanged; on the raw byte store, no key
under the prefix `0x03 | A` is a key under `0x03 | B`, a code key
`0x01 | codeID`, a contract key `0x02 | address`, or any key that does not
start with `0x03`. -/
theorem storage_isolation {L : Type} (ctx : Ctx L) (raw : RawStore) (A B : AccAddress)
    (hne : A ≠ B) (hlen : A.length = B.length) :
    (∀ models key, QueryRaw (setContractState ctx A models) B key = QueryRaw ctx B key) ∧
    (∀ ps key,
      QueryRaw { ctx with store := ctx.store.setContractStore A ps } B key
        = QueryRaw ctx B key) ∧
    (∀ models,
      (setContractState ctx A models).store.codes = ctx.store.codes ∧
      (setContractState ctx A models).store.contracts = ctx.store.contracts ∧
      (setContractState ctx A models).store.lastCodeID = ctx.store.lastCodeID ∧
      (setContractState ctx A models).store.lastInstanceID = ctx.store.lastInstanceID) ∧
    (∀ models key,
      QueryRawBytes (setContractStateBytes raw A models) B key = QueryRawBytes raw B key) ∧
    (∀ models codeID,
      setContractStateBytes raw A models (GetCodeKey codeID) = raw (GetCodeKey codeID)) ∧
    (∀ models addr,
      setContractStateBytes raw A models (GetContractAddressKey addr)
        = raw (GetContractAddressKey addr)) ∧
    (∀ models counterKey, counterKey.head? ≠ some 3 →
      setContractStateBytes raw A models counterKey = raw counterKey) := by
  have hview : ∀ ps, (ctx.store.setContractStore A ps).contractStore B
      = ctx.store.contractStore B := by
    intro ps
    show (if B = A then ps else ctx.store.contractStore B) = _
    rw [if_neg (fun h => hne h.symm)]
  refine ⟨?_, ?_, fun _ => ⟨rfl, rfl, rfl, rfl⟩, ?_, ?_, ?_, ?_⟩
  · intro models key
    unfold QueryRaw setContractState
    rw [hview]
  · intro ps key
    unfold QueryRaw
    rw [hview]
  · intro models key
    cases key with
    | none => rfl
    | some k1 =>
      have hraw : setContractStateBytes raw A models (GetContractStorePrefixKey B ++ k1)
          = raw (GetContractStorePrefixKey B ++ k1) :=
        setContractStateBytes_outside A models _
          (fun k h => hne (prefixKey_inj A B k k1 hlen h).symm) raw
      simp only [QueryRawBytes, QueryRawOn, RawStore.prefixed, hraw]
  · intro models codeID
    exact setContractStateBytes_outside A models _
      (fun k h => by simp [GetCodeKey, GetContractStorePrefixKey] at h) raw
  · intro models addr
    exact setContractStateBytes_outside A models _
      (fun k h => by simp [GetContractAddressKey, GetContractStorePrefixKey] at h) raw
  · intro models counterKey hhead
    refine setContractStateBytes_outside A models _ (fun k h => hhead ?_) raw
    rw [h]
    rfl

/-- Witness of C20: writes through the view of `"A"` and reads through the
view of `"B"`. -/
theorem storage_isolation_witness :
    (∀ models key,
      QueryRaw (setContractState sampleCtxB [65] models) [66] key = QueryRaw sampleCtxB [66] key) ∧
    (∀ models key,
      QueryRawBytes (setContractStateBytes (fun _ => none) [65] models) [66] key
        = QueryRawBytes (fun _ => none) [66] key) :=
  have h := storage_isolation sampleCtxB (fun _ => none) [65] [66] (by decide) (by decide)
  ⟨h.1, h.2.2.2.1⟩

/-! ## Dispatch: order, conversion, routing -/

/-- Dispatching `pre ++ msgs` after `pre` went through in order is
dispatching `msgs` from the context `pre` led to. -/
theorem dispatchMessages_append {L : Type} (env : Env L) (exec : Exec L)
    (contract : Option Account) (pre : List CosmosMsg) :
    ∀ (ctx ctx1 : Ctx L) (msgs : List CosmosMsg),
      dispatchInOrder env exec contract ctx pre = some ctx1 →
      dispatchMessages env exec ctx contract (pre ++ msgs)
        = dispatchMessages env exec ctx1 contract msgs := by
  induction pre with
  | nil =>
    intro ctx ctx1 msgs h
    have : ctx = ctx1 := Option.some.inj h
    rw [this]
    rfl
  | cons m rest ih =>
    intro ctx ctx1 msgs h
    unfold dispatchInOrder at h
    rw [List.cons_append]
    split at h
    · rename_i u cmid heq
      have hstep : dispatchMessages env exec ctx contract (m :: (rest ++ msgs))
          = dispatchMessages env exec cmid contract (rest ++ msgs) := by
        show (match dispatchMessage env exec ctx contract m with
          | (Res.ok _, c) => dispatchMessages env exec c contract (rest ++ msgs)
          | (r, c) => (r, c)) = _
        rw [heq]
      rw [hstep]
      exact ih _ _ _ h
    · exact Option.noConfusion h

/-- The first message that does not succeed decides the result. -/
theorem dispatchMessages_first_failure {L : Type} (env : Env L) (exec : Exec L)
    (contract : Option Account) (ctx ctx2 : Ctx L) (m : CosmosMsg) (post : List CosmosMsg)
    (r : Res Unit) (h : dispatchMessage env exec ctx contract m = (r, ctx2))
    (hr : r ≠ Res.ok ()) :
    dispatchMessages env exec ctx contract (m :: post) = (r, ctx2) := by
  unfold dispatchMessages
  rw [h]
  cases r with
  | ok u => exact absurd rfl hr
  | err e => rfl
  | panic p => rfl
  | outOfFuel => rfl

/-- Every list either goes through in order or has a first failing message. -/
theorem dispatchInOrder_cases {L : Type} (env : Env L) (exec : Exec L)
    (contract : Option Account) (msgs : List CosmosMsg) :
    ∀ ctx : Ctx L,
      (∃ ctx1, dispatchInOrder env exec contract ctx msgs = some ctx1) ∨
      (∃ pre m post ctx1 r ctx2, msgs = pre ++ m :: post ∧
        dispatchInOrder env exec contract ctx pre = some ctx1 ∧
        dispatchMessage env exec ctx1 contract m = (r, ctx2) ∧ r ≠ Res.ok ()) := by
  induction msgs with
  | nil => intro ctx; exact Or.inl ⟨ctx, rfl⟩
  | cons m rest ih =>
    intro ctx
    cases hd : dispatchMessage env exec ctx contract m with
    | mk r ctx2 =>
      cases r with
      | ok u =>
        have hstep : ∀ l, dispatchInOrder env exec contract ctx (m :: l)
            = dispatchInOrder env exec contract ctx2 l := by
          intro l
          show (match dispatchMessage env exec ctx contract m with
            | (Res.ok _, ctx1) => dispatchInOrder env exec contract ctx1 l
            | _ => none) = _
          rw [hd]
        rcases ih ctx2 with ⟨ctx1, h1⟩ | ⟨pre, m1, post, ctx1, r1, ctx3, hm, hpre, hfail, hne⟩
        · exact Or.inl ⟨ctx1, by rw [hstep, h1]⟩
        · refine Or.inr ⟨m :: pre, m1, post, ctx1, r1, ctx3, ?_, ?_, hfail, hne⟩
          · rw [hm]; rfl
          · rw [hstep, hpre]
      | err e =>
        exact Or.inr ⟨[], m, rest, ctx, Res.err e, ctx2, rfl, rfl, hd, fun h => Res.noConfusion h⟩
      | panic p =>
        exact Or.inr ⟨[], m, rest, ctx, Res.panic p, ctx2, rfl, rfl, hd,
          fun h => Res.noConfusion h⟩
      | outOfFuel =>
        exact Or.inr ⟨[], m, rest, ctx, Res.outOfFuel, ctx2, rfl, rfl, hd,
          fun h => Res.noConfusion h⟩

/-- C21: `dispatchMessages` works through the messages in emission order and
stops at the first failure. If message `m` is the first that fails, after the
messages `pre` before it went through one by one in order, the result is
the result of `m` and the context the one `m` left, whatever comes after
`m`; if all go through, the result is success in the context after the
last; and every list is in one of the two cases. -/
theorem dispatchMessages_in_order_short_circuit {L : Type} (env : Env L) (exec : Exec L)
    (contract : Option Account) (ctx : Ctx L) (msgs : List CosmosMsg) :
    (∀ ctx1, dispatchInOrder env exec contract ctx msgs = some ctx1 →
      dispatchMessages env exec ctx contract msgs = (Res.ok (), ctx1)) ∧
    (∀ pre m post ctx1 r ctx2, msgs = pre ++ m :: post →
      dispatchInOrder env exec contract ctx pre = some ctx1 →
      dispatchMessage env exec ctx1 contract m = (r, ctx2) → r ≠ Res.ok () →
      dispatchMessages env exec ctx contract msgs = (r, ctx2)) ∧
    ((∃ ctx1, dispatchInOrder env exec contract ctx msgs = some ctx1) ∨
      (∃ pre m post ctx1 r ctx2, msgs = pre ++ m :: post ∧
        dispatchInOrder env exec contract ctx pre = some ctx1 ∧
        dispatchMessage env exec ctx1 contract m = (r, ctx2) ∧ r ≠ Res.ok ())) := by
  refine ⟨?_, ?_, dispatchInOrder_cases env exec contract msgs ctx⟩
  · intro ctx1 h
    have := dispatchMessages_append env exec contract msgs ctx ctx1 [] h
    rw [List.append_nil] at this
    rw [this]
    rfl
  · intro pre m post ctx1 r ctx2 hm hpre hfail hne
    rw [hm, dispatchMessages_append env exec contract pre ctx ctx1 (m :: post) hpre]
    exact dispatchMessages_first_failure env exec contract ctx1 ctx2 m post r hfail hne

/-- Witness of C21: a transfer that goes through, then a message of no
recognized kind, then another transfer: the result is the panic of the
second message in the context the first one left. -/
theorem dispatchMessages_in_order_short_circuit_witness :
    dispatchMessages sampleEnv (Execute sampleEnv 0) sampleCtxB (some ⟨[66], []⟩)
        [transferMsg "B" "A" [⟨"token", "1"⟩], emptyMsg, transferMsg "B" "A" [⟨"token", "2"⟩]]
      = (Res.panic Panic.unknownCosmosMsg,
          (dispatchMessage sampleEnv (Execute sampleEnv 0) sampleCtxB (some ⟨[66], []⟩)
            (transferMsg "B" "A" [⟨"token", "1"⟩])).2) :=
  (dispatchMessages_in_order_short_circuit sampleEnv (Execute sampleEnv 0) (some ⟨[66], []⟩)
      sampleCtxB
      [transferMsg "B" "A" [⟨"token", "1"⟩], emptyMsg,
        transferMsg "B" "A" [⟨"token", "2"⟩]]).2.1
    [transferMsg "B" "A" [⟨"token", "1"⟩]] emptyMsg [transferMsg "B" "A" [⟨"token", "2"⟩]]
    (dispatchMessage sampleEnv (Execute sampleEnv 0) sampleCtxB (some ⟨[66], []⟩)
      (transferMsg "B" "A" [⟨"token", "1"⟩])).2
    (Res.panic Panic.unknownCosmosMsg)
    (dispatchMessage sampleEnv (Execute sampleEnv 0) sampleCtxB (some ⟨[66], []⟩)
      (transferMsg "B" "A" [⟨"token", "1"⟩])).2
    rfl rfl rfl (by decide)

/-- The coin loop of `convertCosmosSendMsg` fails with `InvalidCoins` as soon
as an amount does not parse. -/
theorem convertCoins_invalid {L : Type} (env : Env L) (amount : List WasmCoin)
    (h : ∃ coin ∈ amount, env.newIntFromString coin.Amount = none) :
    ∃ e, convertCoins env amount = Except.error e ∧ e.code = ErrCode.invalidCoins := by
  induction amount with
  | nil =>
    obtain ⟨coin, hmem, _⟩ := h
    exact absurd hmem (List.not_mem_nil _)
  | cons c rest ih =>
    cases hc : env.newIntFromString c.Amount with
    | none =>
      exact ⟨⟨ErrCode.invalidCoins, c.Amount ++ c.Denom⟩, by simp only [convertCoins, hc], rfl⟩
    | some a =>
      have hrest : ∃ coin ∈ rest, env.newIntFromString coin.Amount = none := by
        obtain ⟨coin, hmem, hnone⟩ := h
        rcases List.mem_cons.mp hmem with heq | hin
        · rw [heq, hc] at hnone
          exact Option.noConfusion hnone
        · exact ⟨coin, hin, hnone⟩
      obtain ⟨e, he, hcode⟩ := ih hrest
      exact ⟨e, by simp only [convertCoins, hc, he], hcode⟩

/-- The coin loop of `convertCosmosSendMsg` keeps order, denominations and
amounts when every amount parses. -/
theorem convertCoins_valid {L : Type} (env : Env L) (amount : List WasmCoin)
    (h : ∀ coin ∈ amount, env.newIntFromString coin.Amount ≠ none) :
    ∃ coins, convertCoins env amount = Except.ok coins ∧
      List.Forall₂ (fun (wc : WasmCoin) (c : Coin) =>
        c.denom = wc.Denom ∧ env.newIntFromString wc.Amount = some c.amount) amount coins := by
  induction amount with
  | nil => exact ⟨[], rfl, List.Forall₂.nil⟩
  | cons c rest ih =>
    have hrest : ∀ coin ∈ rest, env.newIntFromString coin.Amount ≠ none :=
      fun coin hin => h coin (List.mem_cons_of_mem _ hin)
    obtain ⟨coins, hok, hall⟩ := ih hrest
    cases hc : env.newIntFromString c.Amount with
    | none => exact absurd hc (h c (List.mem_cons_self _ _))
    | some a =>
      exact ⟨⟨c.Denom, a⟩ :: coins, by simp only [convertCoins, hc, hok],
        List.Forall₂.cons ⟨rfl, hc⟩ hall⟩

/-- C22: `convertCosmosSendMsg` fails with `InvalidAddress` (naming the from
address) when the from address is malformed, else with `InvalidAddress`
(naming the to address) when the to address is malformed, else with
`InvalidCoins` when some amount does not parse; otherwise it returns the
`MsgSend` with the decoded addresses and the coins in the same order with
the same denominations and the parsed amounts. `dispatchMessage` hands a
transfer message's `MsgSend` to `handleSdkMessage`, and returns the
conversion error without calling it. -/
theorem convertCosmosSendMsg_cases {L : Type} (env : Env L) (msg : SendMsg) :
    (env.accAddressFromBech32 msg.FromAddress = none →
      convertCosmosSendMsg env msg = Except.error ⟨ErrCode.invalidAddress, msg.FromAddress⟩) ∧
    (∀ fromAddr, env.accAddressFromBech32 msg.FromAddress = some fromAddr →
      env.accAddressFromBech32 msg.ToAddress = none →
      convertCosmosSendMsg env msg = Except.error ⟨ErrCode.invalidAddress, msg.ToAddress⟩) ∧
    (∀ fromAddr toAddr, env.accAddressFromBech32 msg.FromAddress = some fromAddr →
      env.accAddressFromBech32 msg.ToAddress = some toAddr →
      (∃ coin ∈ msg.Amount, env.newIntFromString coin.Amount = none) →
      ∃ e, convertCosmosSendMsg env msg = Except.error e ∧ e.code = ErrCode.invalidCoins) ∧
    (∀ fromAddr toAddr, env.accAddressFromBech32 msg.FromAddress = some fromAddr →
      env.accAddressFromBech32 msg.ToAddress = some toAddr →
      (∀ coin ∈ msg.Amount, env.newIntFromString coin.Amount ≠ none) →
      ∃ coins, convertCosmosSendMsg env msg
          = Except.ok { FromAddress := fromAddr, ToAddress := toAddr, Amount := coins } ∧
        List.Forall₂ (fun (wc : WasmCoin) (c : Coin) =>
          c.denom = wc.Denom ∧ env.newIntFromString wc.Amount = some c.amount)
          msg.Amount coins) ∧
    (∀ (exec : Exec L) (ctx : Ctx L) (contract : Option Account) (cmsg : CosmosMsg),
      cmsg.Send = msg → msg.FromAddress ≠ "" →
      (∀ sendMsg, convertCosmosSendMsg env msg = Except.ok sendMsg →
        dispatchMessage env exec ctx contract cmsg
          = handleSdkMessage env ctx contract sendMsg.toMsg) ∧
      (∀ e, convertCosmosSendMsg env msg = Except.error e →
        dispatchMessage env exec ctx contract cmsg = (Res.err e, ctx))) := by
  refine ⟨?_, ?_, ?_, ?_, ?_⟩
  · intro h
    simp only [convertCosmosSendMsg, h]
  · intro fromAddr hf ht
    simp only [convertCosmosSendMsg, hf, ht]
  · intro fromAddr toAddr hf ht hbad
    obtain ⟨e, he, hcode⟩ := convertCoins_invalid env msg.Amount hbad
    exact ⟨e, by simp only [convertCosmosSendMsg, hf, ht, he], hcode⟩
  · intro fromAddr toAddr hf ht hgood
    obtain ⟨coins, hok, hall⟩ := convertCoins_valid env msg.Amount hgood
    exact ⟨coins, by simp only [convertCosmosSendMsg, hf, ht, hok], hall⟩
  · intro exec ctx contract cmsg hsend hne
    have hne' : cmsg.Send.FromAddress ≠ "" := by rw [hsend]; exact hne
    constructor
    · intro sendMsg hok
      have hok' : convertCosmosSendMsg env cmsg.Send = Except.ok sendMsg := by rw [hsend]; exact hok
      simp only [dispatchMessage, dispatchChain, hne', hok', if_true, ne_eq, not_false_eq_true]
    · intro e herr
      have herr' : convertCosmosSendMsg env cmsg.Send = Except.error e := by
        rw [hsend]; exact herr
      simp only [dispatchMessage, dispatchChain, hne', herr', if_true, ne_eq, not_false_eq_true]

/-- Witness of C22: a transfer of one token from `"B"` to `"A"` on the
sample host converts to the `MsgSend` with the decoded addresses, and a
transfer with a malformed amount fails with `InvalidCoins`. -/
theorem convertCosmosSendMsg_cases_witness :
    (∃ coins, convertCosmosSendMsg sampleEnv ⟨"B", "A", [⟨"token", "1"⟩]⟩
        = Except.ok { FromAddress := [66], ToAddress := [65], Amount := coins } ∧
      List.Forall₂ (fun (wc : WasmCoin) (c : Coin) =>
        c.denom = wc.Denom ∧ sampleEnv.newIntFromString wc.Amount = some c.amount)
        [⟨"token", "1"⟩] coins) ∧
    (∃ e, convertCosmosSendMsg sampleEnv ⟨"B", "A", [⟨"token", "1x"⟩]⟩ = Except.error e ∧
      e.code = ErrCode.invalidCoins) :=
  ⟨(convertCosmosSendMsg_cases sampleEnv ⟨"B", "A", [⟨"token", "1"⟩]⟩).2.2.2.1 [66] [65]
      rfl rfl (by decide),
    (convertCosmosSendMsg_cases sampleEnv ⟨"B", "A", [⟨"token", "1x"⟩]⟩).2.2.1 [66] [65]
      rfl rfl ⟨⟨"token", "1x"⟩, by decide, by decide⟩⟩

/-- C23: when every required signer is the emitting instance's address,
`handleSdkMessage` fails with `UnknownRequest` (naming the route) if the
router has no handler for the route; otherwise the handler is applied once
to the ledger and the message, the call is recorded once, and the result is
success exactly when the handler's result is OK, a non-OK result coming back
as an error with the result's codespace, code and log. -/
theorem handleSdkMessage_routes {L : Type} (env : Env L) (ctx : Ctx L) (acct : Account)
    (msg : SdkMsg) (hs : ∀ signer ∈ msg.signers, signer = acct.address) :
    (env.route msg.route = none →
      handleSdkMessage env ctx (some acct) msg
        = (Res.err ⟨ErrCode.unknownRequest, msg.route⟩, ctx)) ∧
    (∀ h, env.route msg.route = some h →
      (handleSdkMessage env ctx (some acct) msg).2 =
        { ctx with
          ledger := (h ctx.ledger msg).2
          trace := Event.handler msg.route msg :: ctx.trace } ∧
      ((handleSdkMessage env ctx (some acct) msg).1 = Res.ok () ↔
        (h ctx.ledger msg).1.IsOK = true) ∧
      ((h ctx.ledger msg).1.IsOK = false →
        (handleSdkMessage env ctx (some acct) msg).1 =
          Res.err ⟨ErrCode.abci (h ctx.ledger msg).1.codespace (h ctx.ledger msg).1.code,
            (h ctx.ledger msg).1.log⟩)) := by
  have hany : msg.signers.any (fun signer => signer != acct.address) = false := by
    rw [List.any_eq_false]
    intro signer hmem
    simpa using hs signer hmem
  constructor
  · intro hr
    simp [handleSdkMessage, hany, hr]
  · intro h hr
    cases hok : (h ctx.ledger msg).1.IsOK with
    | true => simp [handleSdkMessage, hany, hr, hok]
    | false => simp [handleSdkMessage, hany, hr, hok]

/-- Witness of C23: instance `"B"` sends one token to `"A"` through the bank
handler of the sample host. -/
theorem handleSdkMessage_routes_witness :
    (handleSdkMessage sampleEnv sampleCtxB (some ⟨[66], []⟩)
        (MsgSend.toMsg ⟨[66], [65], [⟨"token", 1⟩]⟩)).2 =
      { sampleCtxB with
        ledger := (sampleBankHandler sampleCtxB.ledger
          (MsgSend.toMsg ⟨[66], [65], [⟨"token", 1⟩]⟩)).2
        trace := Event.handler "bank" (MsgSend.toMsg ⟨[66], [65], [⟨"token", 1⟩]⟩)
          :: sampleCtxB.trace } ∧
    ((handleSdkMessage sampleEnv sampleCtxB (some ⟨[66], []⟩)
        (MsgSend.toMsg ⟨[66], [65], [⟨"token", 1⟩]⟩)).1 = Res.ok () ↔
      (sampleBankHandler sampleCtxB.ledger
        (MsgSend.toMsg ⟨[66], [65], [⟨"token", 1⟩]⟩)).1.IsOK = true) :=
  have h := (handleSdkMessage_routes sampleEnv sampleCtxB ⟨[66], []⟩
    (MsgSend.toMsg ⟨[66], [65], [⟨"token", 1⟩]⟩) (by decide)).2 sampleBankHandler rfl
  ⟨h.1, h.2.1⟩

/-! ## Gas reported within the budget -/

/-- C28: on a meter with `consumed ≤ limit`, VM gas used up to the budget
`gasForContract` gave (clamped, wrapped or neither) never takes the meter
past its limit: `consumed + gasUsed / 100 ≤ limit`, and `consumeGas` charges
exactly that without a panic. -/
theorem consumeGas_within_budget (meter : GasMeter) (gasUsed : Nat) (hL : meter.limit < u64)
    (hc : meter.consumed ≤ meter.limit) (hg : gasUsed ≤ gasForContract meter) :
    meter.consumed + gasUsed / 100 ≤ meter.limit ∧
    consumeGas meter gasUsed
      = (none, { meter with consumed := meter.consumed + gasUsed / GasMultiplier }) := by
  have hsub : sub64 meter.limit meter.consumed = meter.limit - meter.consumed := by
    unfold sub64 u64 at *
    omega
  have hmod : mul64 (meter.limit - meter.consumed) GasMultiplier
      ≤ (meter.limit - meter.consumed) * 100 := Nat.mod_le _ _
  have hbudget : gasForContract meter ≤ (meter.limit - meter.consumed) * 100 := by
    unfold gasForContract
    simp only [hsub]
    split
    · rename_i hgt
      exact le_trans (le_of_lt hgt) hmod
    · exact hmod
  have hle : meter.consumed + gasUsed / 100 ≤ meter.limit := by
    have := le_trans hg hbudget
    omega
  refine ⟨hle, ?_⟩
  have hadd : add64 meter.consumed (gasUsed / 100) = meter.consumed + gasUsed / 100 := by
    unfold add64 u64
    unfold u64 at hL
    exact Nat.mod_eq_of_lt (by omega)
  have h1 : ¬ (u64 ≤ meter.consumed + gasUsed / 100) := by
    unfold u64
    unfold u64 at hL
    omega
  have h2 : ¬ (meter.consumed + gasUsed / 100 > meter.limit) := by omega
  simp only [consumeGas, GasMeter.ConsumeGas, GasMultiplier, hadd, h1, h2, if_false]

/-- Witness of C28: a limit that makes the multiplication wrap, and the
whole wrapped budget of 84 reported back. -/
theorem consumeGas_within_budget_witness :
    (0 : Nat) + 84 / 100 ≤ 184467440737095517 ∧
    consumeGas ⟨184467440737095517, 0⟩ 84
      = (none, { (⟨184467440737095517, 0⟩ : GasMeter) with
          consumed := 0 + 84 / GasMultiplier }) :=
  consumeGas_within_budget ⟨184467440737095517, 0⟩ 84 (by decide) (by decide) (by decide)

/-! ## The instance counter -/

/-- `Instantiate` leaves the instance counter at the successor of the value
it read, on every path. -/
theorem Instantiate_lastInstanceID {L : Type} (env : Env L) (fuel : Nat) (ctx : Ctx L)
    (creator : AccAddress) (codeID : Nat) (initMsg : Bytes) (deposit : Coins) :
    (Instantiate env fuel ctx creator codeID initMsg deposit).2.store.lastInstanceID
      = some (add64 (nextInstanceID ctx.store) 1) := by
  have hexec := Execute_after env fuel
  unfold Instantiate InstantiateWith
  dsimp only
  split
  · rfl
  · split
    · rfl
    · split
      · rfl
      · split
        · rfl
        · split
          · rfl
          · split
            · rename_i heq
              exact (dispatchMessages_after_of_eq env _ hexec heq).2.1
            · rename_i heq
              exact (dispatchMessages_after_of_eq env _ hexec heq).2.1
            · rename_i heq
              exact (dispatchMessages_after_of_eq env _ hexec heq).2.1
            · rename_i heq
              exact (dispatchMessages_after_of_eq env _ hexec heq).2.1

/-- The counter read next depends on the stored counter only. -/
theorem nextInstanceID_congr {a b : KVStore} (h : a.lastInstanceID = b.lastInstanceID) :
    nextInstanceID a = nextInstanceID b := by
  unfold nextInstanceID autoIncrementID KVStore.getID
  simp only [h]

/-- One step of a run leaves the instance counter or advances it by one. -/
theorem step_nextInstanceID {L : Type} (env : Env L) {b c : Ctx L} (hstep : Step env b c)
    (hb : nextInstanceID b.store + 1 < u64) :
    nextInstanceID b.store ≤ nextInstanceID c.store ∧
    nextInstanceID c.store ≤ nextInstanceID b.store + 1 := by
  have hsame : ∀ st : KVStore, st.lastInstanceID = b.store.lastInstanceID →
      nextInstanceID b.store ≤ nextInstanceID st ∧
      nextInstanceID st ≤ nextInstanceID b.store + 1 := by
    intro st h
    rw [nextInstanceID_congr h]
    exact ⟨le_refl _, Nat.le_succ _⟩
  cases hstep with
  | create creator wasmCode =>
    rcases Create_store_cases env b creator wasmCode with ⟨hst, _⟩ | ⟨hash, _, hst⟩
    · exact hsame _ (by rw [hst])
    · exact hsame _ (by rw [hst]; rfl)
  | instantiate fuel creator codeID initMsg deposit =>
    have h := Instantiate_lastInstanceID env fuel b creator codeID initMsg deposit
    have hnext : nextInstanceID (Instantiate env fuel b creator codeID initMsg deposit).2.store
        = nextInstanceID b.store + 1 := by
      unfold nextInstanceID autoIncrementID KVStore.getID
      simp only [h]
      exact Nat.mod_eq_of_lt hb
    rw [hnext]
    exact ⟨Nat.le_succ _, le_refl _⟩
  | execute fuel contractAddress caller coins msg =>
    exact hsame _ (Execute_after env fuel b contractAddress caller coins msg).2.1
  | host ledger gas => exact hsame _ rfl

/-- Along a run of `m` steps the instance counter never goes down and
advances by at most `m`. -/
theorem steps_nextInstanceID {L : Type} (env : Env L) {b c : Ctx L} {m : Nat}
    (hrun : Steps env b m c) :
    nextInstanceID b.store + m < u64 →
      nextInstanceID b.store ≤ nextInstanceID c.store ∧
      nextInstanceID c.store ≤ nextInstanceID b.store + m := by
  induction hrun with
  | refl => intro _; exact ⟨le_refl _, le_refl _⟩
  | tail hrun hstep ih =>
    intro hb
    obtain ⟨h1, h2⟩ := ih (by omega)
    obtain ⟨k1, k2⟩ := step_nextInstanceID env hstep (by omega)
    exact ⟨le_trans h1 k1, by omega⟩

/-- C29: every call to `Instantiate`, on whatever path it ends, leaves
`lastInstanceID` at the counter it read plus one and leaves `lastCodeID`
unchanged; the address it derives comes from the counter it read; and,
short of 64-bit wrap-around, every later state of a run reads a strictly
larger counter, so no later `Instantiate` derives its address from the same
counter value. -/
theorem instantiate_advances_instance_counter {L : Type} (env : Env L) (fuel : Nat)
    (ctx ctx2 : Ctx L) (creator : AccAddress) (codeID : Nat) (initMsg : Bytes) (deposit : Coins)
    (m : Nat) (hrun : Steps env (Instantiate env fuel ctx creator codeID initMsg deposit).2 m ctx2)
    (hb : nextInstanceID ctx.store + 1 + m < u64) :
    (Instantiate env fuel ctx creator codeID initMsg deposit).2.store.lastInstanceID
      = some (nextInstanceID ctx.store + 1) ∧
    (Instantiate env fuel ctx creator codeID initMsg deposit).2.store.lastCodeID
      = ctx.store.lastCodeID ∧
    (generateContractAddress env ctx.store codeID).1
      = addrFromUint64 env (contractID codeID (nextInstanceID ctx.store)) ∧
    nextInstanceID (Instantiate env fuel ctx creator codeID initMsg deposit).2.store
      = nextInstanceID ctx.store + 1 ∧
    nextInstanceID ctx.store < nextInstanceID ctx2.store := by
  have h := Instantiate_lastInstanceID env fuel ctx creator codeID initMsg deposit
  have hadd : add64 (nextInstanceID ctx.store) 1 = nextInstanceID ctx.store + 1 :=
    Nat.mod_eq_of_lt (by omega)
  have hnext : nextInstanceID (Instantiate env fuel ctx creator codeID initMsg deposit).2.store
      = nextInstanceID ctx.store + 1 := by
    unfold nextInstanceID autoIncrementID KVStore.getID
    simp only [h]
    exact hadd
  refine ⟨by rw [h, hadd], (Instantiate_sameCodes env fuel ctx creator codeID initMsg deposit).1,
    rfl, hnext, ?_⟩
  have hle := (steps_nextInstanceID env hrun (by rw [hnext]; omega)).1
  rw [hnext] at hle
  omega

/-- Witness of C29: a failing instantiation (the VM rejects `[0]`) on the
sample host, followed by a successful one. -/
theorem instantiate_advances_instance_counter_witness :
    (Instantiate sampleEnv 0 sampleCtxCode [65] 1 [0] [⟨"token", 5⟩]).2.store.lastInstanceID
      = some (nextInstanceID sampleCtxCode.store + 1) ∧
    (Instantiate sampleEnv 0 sampleCtxCode [65] 1 [0] [⟨"token", 5⟩]).2.store.lastCodeID
      = sampleCtxCode.store.lastCodeID ∧
    nextInstanceID sampleCtxCode.store
      < nextInstanceID (Instantiate sampleEnv 0
          (Instantiate sampleEnv 0 sampleCtxCode [65] 1 [0] [⟨"token", 5⟩]).2
          [65] 1 [9] [⟨"token", 5⟩]).2.store :=
  have h := instantiate_advances_instance_counter sampleEnv 0 sampleCtxCode
    (Instantiate sampleEnv 0 (Instantiate sampleEnv 0 sampleCtxCode [65] 1 [0] [⟨"token", 5⟩]).2
      [65] 1 [9] [⟨"token", 5⟩]).2
    [65] 1 [0] [⟨"token", 5⟩] 1
    (Steps.tail (Steps.refl _) (Step.instantiate _ 0 [65] 1 [9] [⟨"token", 5⟩])) (by decide)
  ⟨h.1, h.2.1, h.2.2.2.2⟩

/-! ## Service module: the minimum deposit -/

/-- The order of denominations is the order of strings. -/
theorem denomLt_iff (a b : String) : denomLt a b ↔ a < b :=
  String.lt_iff_toList_lt.symm

theorem denomLt_trans {a b c : String} (h1 : denomLt a b) (h2 : denomLt b c) : denomLt a c :=
  (denomLt_iff a c).mpr (lt_trans ((denomLt_iff a b).mp h1) ((denomLt_iff b c).mp h2))

theorem denomLt_ne {a b : String} (h : denomLt a b) : a ≠ b :=
  ne_of_lt ((denomLt_iff a b).mp h)

theorem denomLt_of_not {a b : String} (h1 : ¬ denomLt a b) (h2 : a ≠ b) : denomLt b a := by
  rw [denomLt_iff] at h1 ⊢
  exact lt_of_le_of_ne (not_lt.mp h1) (Ne.symm h2)

/-- No coin of the denomination, no amount. -/
theorem amountOf_eq_zero (coins : Coins) (d : String) (h : ∀ x ∈ coins, x.denom ≠ d) :
    Coins.lookup coins d = 0 := by
  induction coins with
  | nil => rfl
  | cons c rest ih =>
    show (if c.denom = d then c.amount else Coins.lookup rest d) = 0
    rw [if_neg (h c (List.mem_cons_self _ _))]
    exact ih (fun x hx => h x (List.mem_cons_of_mem _ hx))

/-- Coins whose denominations all lie above `d` hold nothing of `d`. -/
theorem amountOf_eq_zero_of_lt (coins : Coins) (d : String)
    (h : ∀ x ∈ coins, denomLt d x.denom) : Coins.lookup coins d = 0 :=
  amountOf_eq_zero coins d (fun x hx => Ne.symm (denomLt_ne (h x hx)))

/-- Dropping zero coins keeps sorted coins sorted. -/
theorem removeZeroCoins_sorted (coins : Coins) (h : CoinsSorted coins) :
    CoinsSorted (removeZeroCoins coins) :=
  List.Pairwise.filter _ h

/-- Dropping zero coins changes no amount of sorted coins. -/
theorem amountOf_removeZeroCoins (coins : Coins) (d : String) (h : CoinsSorted coins) :
    Coins.lookup (removeZeroCoins coins) d = Coins.lookup coins d := by
  induction coins with
  | nil => rfl
  | cons c rest ih =>
    have hs := List.pairwise_cons.mp h
    have ih' := ih hs.2
    show Coins.lookup (List.filter _ (c :: rest)) d
      = (if c.denom = d then c.amount else Coins.lookup rest d)
    by_cases hz : c.amount = 0
    · have hf : List.filter (fun c : Coin => decide (c.amount ≠ 0)) (c :: rest)
          = removeZeroCoins rest := by
        show List.filter _ (c :: rest) = List.filter _ rest
        rw [List.filter_cons_of_neg]
        simpa using hz
      rw [hf, ih']
      by_cases hd : c.denom = d
      · rw [if_pos hd, hz]
        exact amountOf_eq_zero_of_lt rest d (fun x hx => by rw [← hd]; exact hs.1 x hx)
      · rw [if_neg hd]
    · have hf : List.filter (fun c : Coin => decide (c.amount ≠ 0)) (c :: rest)
          = c :: removeZeroCoins rest := by
        show List.filter _ (c :: rest) = c :: List.filter _ rest
        rw [List.filter_cons_of_pos]
        simpa using hz
      rw [hf]
      show (if c.denom = d then c.amount else Coins.lookup (removeZeroCoins rest) d) = _
      rw [ih']

/-- What `IntAdd` returns when it does not panic. -/
theorem IntAdd_some {a b s : Int} (h : IntAdd a b = some s) : s = a + b := by
  unfold IntAdd at h
  split at h
  · exact Option.noConfusion h
  · exact (Option.some.inj h).symm

/-- What `IntMul` returns when it does not panic. -/
theorem IntMul_some {a b p : Int} (h : IntMul a b = some p) : p = a * b := by
  unfold IntMul at h
  split at h
  · exact Option.noConfusion h
  · split at h
    · exact Option.noConfusion h
    · exact (Option.some.inj h).symm

/-- The merge of `sdk.Coins.Add` on sorted coins: the sum is sorted, every
denomination in it comes from one of the two lists, and it holds in every
denomination the sum of what the two lists hold. -/
theorem safeAddLoop_spec (n : Nat) :
    ∀ (a b r : Coins), a.length + b.length + 1 ≤ n → CoinsSorted a → CoinsSorted b →
      safeAddLoop n a b = some r →
      CoinsSorted r ∧
      (∀ x ∈ r, (∃ y ∈ a, y.denom = x.denom) ∨ (∃ y ∈ b, y.denom = x.denom)) ∧
      ∀ d, Coins.lookup r d = Coins.lookup a d + Coins.lookup b d := by
  induction n with
  | zero => intro a b r hn; omega
  | succ n ih =>
    intro a b r hn ha hb h
    cases a with
    | nil =>
      have hr : r = removeZeroCoins b := (Option.some.inj h).symm
      rw [hr]
      refine ⟨removeZeroCoins_sorted b hb, ?_, ?_⟩
      · intro x hx
        exact Or.inr ⟨x, (List.mem_filter.mp hx).1, rfl⟩
      · intro d
        rw [amountOf_removeZeroCoins b d hb]
        show _ = 0 + _
        rw [Int.zero_add]
    | cons ca as =>
      cases b with
      | nil =>
        have hr : r = removeZeroCoins (ca :: as) := (Option.some.inj h).symm
        rw [hr]
        refine ⟨removeZeroCoins_sorted _ ha, ?_, ?_⟩
        · intro x hx
          exact Or.inl ⟨x, (List.mem_filter.mp hx).1, rfl⟩
        · intro d
          rw [amountOf_removeZeroCoins _ d ha]
          show _ = _ + 0
          rw [Int.add_zero]
      | cons cb bs =>
        have has := List.pairwise_cons.mp ha
        have hbs := List.pairwise_cons.mp hb
        simp only [List.length_cons] at hn
        by_cases hlt : denomLt ca.denom cb.denom
        · -- coin A comes first
          have h1 : (safeAddLoop n as (cb :: bs)).map
              (fun sum => if ca.amount = 0 then sum else ca :: sum) = some r := by
            have := h
            simp only [safeAddLoop, if_pos hlt] at this
            exact this
          obtain ⟨r1, hr1, hr⟩ := Option.map_eq_some'.mp h1
          obtain ⟨s1, m1, a1⟩ := ih as (cb :: bs) r1
            (by simp only [List.length_cons]; omega) has.2 hb hr1
          have habove : ∀ x ∈ r1, denomLt ca.denom x.denom := by
            intro x hx
            rcases m1 x hx with ⟨y, hy, hyd⟩ | ⟨y, hy, hyd⟩
            · rw [← hyd]; exact has.1 y hy
            · rw [← hyd]
              rcases List.mem_cons.mp hy with heq | hin
              · rw [heq]; exact hlt
              · exact denomLt_trans hlt (hbs.1 y hin)
          have hmem : ∀ x ∈ r1, (∃ y ∈ ca :: as, y.denom = x.denom) ∨
              (∃ y ∈ cb :: bs, y.denom = x.denom) := by
            intro x hx
            rcases m1 x hx with ⟨y, hy, hyd⟩ | hright
            · exact Or.inl ⟨y, List.mem_cons_of_mem _ hy, hyd⟩
            · exact Or.inr hright
          have hbzero : ∀ d, ca.denom = d → Coins.lookup (cb :: bs) d = 0 := by
            intro d hd
            refine amountOf_eq_zero_of_lt _ d (fun x hx => ?_)
            rw [← hd]
            rcases List.mem_cons.mp hx with heq | hin
            · rw [heq]; exact hlt
            · exact denomLt_trans hlt (hbs.1 x hin)
          have hazero : ∀ d, ca.denom = d → Coins.lookup as d = 0 := by
            intro d hd
            exact amountOf_eq_zero_of_lt _ d (fun x hx => by rw [← hd]; exact has.1 x hx)
          by_cases hz : ca.amount = 0
          · rw [if_pos hz] at hr
            rw [← hr]
            refine ⟨s1, hmem, ?_⟩
            intro d
            rw [a1 d]
            show _ = (if ca.denom = d then ca.amount else Coins.lookup as d) + _
            by_cases hd : ca.denom = d
            · rw [if_pos hd, hazero d hd, hz]
            · rw [if_neg hd]
          · rw [if_neg hz] at hr
            rw [← hr]
            refine ⟨List.pairwise_cons.mpr ⟨habove, s1⟩, ?_, ?_⟩
            · intro x hx
              rcases List.mem_cons.mp hx with heq | hin
              · exact Or.inl ⟨ca, List.mem_cons_self _ _, by rw [heq]⟩
              · exact hmem x hin
            · intro d
              show (if ca.denom = d then ca.amount else Coins.lookup r1 d)
                = (if ca.denom = d then ca.amount else Coins.lookup as d) + _
              by_cases hd : ca.denom = d
              · rw [if_pos hd, if_pos hd, hbzero d hd, Int.add_zero]
              · rw [if_neg hd, if_neg hd, a1 d]
        · by_cases heq : ca.denom = cb.denom
          · -- equal denominations: the amounts are summed
            cases hadd : IntAdd ca.amount cb.amount with
            | none =>
              have := h
              simp only [safeAddLoop, if_neg hlt, if_pos heq, hadd] at this
              exact Option.noConfusion this
            | some res =>
              have hres := IntAdd_some hadd
              have h1 : (safeAddLoop n as bs).map
                  (fun sum => if res = 0 then sum
                    else ({ denom := ca.denom, amount := res } : Coin) :: sum) = some r := by
                have := h
                simp only [safeAddLoop, if_neg hlt, if_pos heq, hadd] at this
                exact this
              obtain ⟨r1, hr1, hr⟩ := Option.map_eq_some'.mp h1
              obtain ⟨s1, m1, a1⟩ := ih as bs r1 (by omega) has.2 hbs.2 hr1
              have habove : ∀ x ∈ r1, denomLt ca.denom x.denom := by
                intro x hx
                rcases m1 x hx with ⟨y, hy, hyd⟩ | ⟨y, hy, hyd⟩
                · rw [← hyd]; exact has.1 y hy
                · rw [← hyd, heq]; exact hbs.1 y hy
              have hmem : ∀ x ∈ r1, (∃ y ∈ ca :: as, y.denom = x.denom) ∨
                  (∃ y ∈ cb :: bs, y.denom = x.denom) := by
                intro x hx
                rcases m1 x hx with ⟨y, hy, hyd⟩ | ⟨y, hy, hyd⟩
                · exact Or.inl ⟨y, List.mem_cons_of_mem _ hy, hyd⟩
                · exact Or.inr ⟨y, List.mem_cons_of_mem _ hy, hyd⟩
              have hazero : ∀ d, ca.denom = d → Coins.lookup as d = 0 := by
                intro d hd
                exact amountOf_eq_zero_of_lt _ d (fun x hx => by rw [← hd]; exact has.1 x hx)
              have hbzero : ∀ d, ca.denom = d → Coins.lookup bs d = 0 := by
                intro d hd
                exact amountOf_eq_zero_of_lt _ d
                  (fun x hx => by rw [← hd, heq]; exact hbs.1 x hx)
              have hsum : ∀ d, (if ca.denom = d then res else Coins.lookup r1 d)
                  = (if ca.denom = d then ca.amount else Coins.lookup as d)
                    + (if cb.denom = d then cb.amount else Coins.lookup bs d) := by
                intro d
                by_cases hd : ca.denom = d
                · have hd' : cb.denom = d := by rw [← heq]; exact hd
                  rw [if_pos hd, if_pos hd, if_pos hd', hres]
                · have hd' : ¬ cb.denom = d := by rw [← heq]; exact hd
                  rw [if_neg hd, if_neg hd, if_neg hd', a1 d]
              by_cases hz : res = 0
              · rw [if_pos hz] at hr
                rw [← hr]
                refine ⟨s1, hmem, ?_⟩
                intro d
                show _ = (if ca.denom = d then ca.amount else Coins.lookup as d)
                  + (if cb.denom = d then cb.amount else Coins.lookup bs d)
                rw [← hsum d]
                by_cases hd : ca.denom = d
                · rw [if_pos hd, a1 d, hazero d hd, hbzero d hd, hz]
                  rfl
                · rw [if_neg hd]
              · rw [if_neg hz] at hr
                rw [← hr]
                refine ⟨List.pairwise_cons.mpr ⟨habove, s1⟩, ?_, ?_⟩
                · intro x hx
                  rcases List.mem_cons.mp hx with hx1 | hin
                  · exact Or.inl ⟨ca, List.mem_cons_self _ _, by rw [hx1]⟩
                  · exact hmem x hin
                · intro d
                  exact hsum d
          · -- coin B comes first
            have hgt : denomLt cb.denom ca.denom := denomLt_of_not hlt heq
            have h1 : (safeAddLoop n (ca :: as) bs).map
                (fun sum => if cb.amount = 0 then sum else cb :: sum) = some r := by
              have := h
              simp only [safeAddLoop, if_neg hlt, if_neg heq] at this
              exact this
            obtain ⟨r1, hr1, hr⟩ := Option.map_eq_some'.mp h1
            obtain ⟨s1, m1, a1⟩ := ih (ca :: as) bs r1
              (by simp only [List.length_cons]; omega) ha hbs.2 hr1
            have habove : ∀ x ∈ r1, denomLt cb.denom x.denom := by
              intro x hx
              rcases m1 x hx with ⟨y, hy, hyd⟩ | ⟨y, hy, hyd⟩
              · rw [← hyd]
                rcases List.mem_cons.mp hy with hy1 | hin
                · rw [hy1]; exact hgt
                · exact denomLt_trans hgt (has.1 y hin)
              · rw [← hyd]; exact hbs.1 y hy
            have hmem : ∀ x ∈ r1, (∃ y ∈ ca :: as, y.denom = x.denom) ∨
                (∃ y ∈ cb :: bs, y.denom = x.denom) := by
              intro x hx
              rcases m1 x hx with hleft | ⟨y, hy, hyd⟩
              · exact Or.inl hleft
              · exact Or.inr ⟨y, List.mem_cons_of_mem _ hy, hyd⟩
            have hazero : ∀ d, cb.denom = d → Coins.lookup (ca :: as) d = 0 := by
              intro d hd
              refine amountOf_eq_zero_of_lt _ d (fun x hx => ?_)
              rw [← hd]
              rcases List.mem_cons.mp hx with hx1 | hin
              · rw [hx1]; exact hgt
              · exact denomLt_trans hgt (has.1 x hin)
            have hbzero : ∀ d, cb.denom = d → Coins.lookup bs d = 0 := by
              intro d hd
              exact amountOf_eq_zero_of_lt _ d (fun x hx => by rw [← hd]; exact hbs.1 x hx)
            by_cases hz : cb.amount = 0
            · rw [if_pos hz] at hr
              rw [← hr]
              refine ⟨s1, hmem, ?_⟩
              intro d
              rw [a1 d]
              show _ = _ + (if cb.denom = d then cb.amount else Coins.lookup bs d)
              by_cases hd : cb.denom = d
              · rw [if_pos hd, hbzero d hd, hz]
              · rw [if_neg hd]
            · rw [if_neg hz] at hr
              rw [← hr]
              refine ⟨List.pairwise_cons.mpr ⟨habove, s1⟩, ?_, ?_⟩
              · intro x hx
                rcases List.mem_cons.mp hx with hx1 | hin
                · exact Or.inr ⟨cb, List.mem_cons_self _ _, by rw [hx1]⟩
                · exact hmem x hin
              · intro d
                show (if cb.denom = d then cb.amount else Coins.lookup r1 d)
                  = _ + (if cb.denom = d then cb.amount else Coins.lookup bs d)
                by_cases hd : cb.denom = d
                · rw [if_pos hd, if_pos hd, hazero d hd, Int.zero_add]
                · rw [if_neg hd, if_neg hd, a1 d]

/-- The coins built from one coin hold its amount in its denomination. -/
theorem amountOf_NewCoins1 (coin : Coin) (d : String) :
    Coins.lookup (NewCoins1 coin) d = if coin.denom = d then coin.amount else 0 := by
  unfold NewCoins1
  rw [amountOf_removeZeroCoins [coin] d (List.pairwise_singleton _ _)]
  rfl

/-- What `NewCoin` returns when it does not panic. -/
theorem NewCoin_some {validDenom : String → Bool} {denom : String} {amount : Int} {coin : Coin}
    (h : NewCoin validDenom denom amount = some coin) :
    coin = { denom := denom, amount := amount } := by
  unfold NewCoin at h
  split at h
  · exact Option.noConfusion h
  · split at h
    · exact Option.noConfusion h
    · exact (Option.some.inj h).symm

/-- Invariant of the price loop of `getMinDeposit`: the accumulated deposit
stays sorted and grows, in every denomination, by the prices seen times the
multiple. -/
theorem getMinDepositLoop_spec (validDenom : String → Bool) (m : Int) :
    ∀ (prices : List Coin) (acc min : Coins), CoinsSorted acc →
      getMinDepositLoop validDenom m acc prices = SvcRes.ok min →
      CoinsSorted min ∧
      ∀ d, Coins.lookup min d = Coins.lookup acc d + priceSum prices d * m := by
  intro prices
  induction prices with
  | nil =>
    intro acc min hacc h
    have hmin : acc = min := by
      have := h
      simp only [getMinDepositLoop] at this
      exact SvcRes.ok.inj this
    subst hmin
    refine ⟨hacc, fun d => ?_⟩
    show _ = _ + 0 * m
    rw [Int.zero_mul, Int.add_zero]
  | cons price rest ih =>
    intro acc min hacc h
    simp only [getMinDepositLoop] at h
    split at h
    · exact SvcRes.noConfusion h
    · cases hmul : IntMul price.amount m with
      | none => rw [hmul] at h; exact SvcRes.noConfusion h
      | some minInt =>
        rw [hmul] at h
        simp only at h
        cases hcoin : NewCoin validDenom price.denom minInt with
        | none => rw [hcoin] at h; exact SvcRes.noConfusion h
        | some coin =>
          rw [hcoin] at h
          simp only at h
          cases hadd : Coins.Add acc (NewCoins1 coin) with
          | none => rw [hadd] at h; exact SvcRes.noConfusion h
          | some sum =>
            rw [hadd] at h
            simp only at h
            have hc := NewCoin_some hcoin
            have hm := IntMul_some hmul
            obtain ⟨ssum, _, asum⟩ := safeAddLoop_spec _ acc (NewCoins1 coin) sum
              (Nat.le_refl _) hacc
              (removeZeroCoins_sorted [coin] (List.pairwise_singleton _ _)) hadd
            obtain ⟨smin, amin⟩ := ih sum min ssum h
            refine ⟨smin, fun d => ?_⟩
            rw [amin d, asum d, amountOf_NewCoins1 coin d, hc, hm]
            show _ = _ + ((if price.denom = d then price.amount else 0) + priceSum rest d) * m
            by_cases hd : price.denom = d
            · simp only [if_pos hd]; ring
            · simp only [if_neg hd]; ring

/-- Looking up a denomination the second list does not hold. -/
theorem lookup_append_left (l1 l2 : Coins) (d : String) (h : ∀ y ∈ l2, y.denom ≠ d) :
    Coins.lookup (l1 ++ l2) d = Coins.lookup l1 d := by
  induction l1 with
  | nil => exact amountOf_eq_zero l2 d h
  | cons c rest ih =>
    show (if c.denom = d then c.amount else Coins.lookup (rest ++ l2) d)
      = (if c.denom = d then c.amount else Coins.lookup rest d)
    rw [ih]

/-- Looking up a denomination the first list does not hold. -/
theorem lookup_append_right (l1 l2 : Coins) (d : String) (h : ∀ x ∈ l1, x.denom ≠ d) :
    Coins.lookup (l1 ++ l2) d = Coins.lookup l2 d := by
  induction l1 with
  | nil => rfl
  | cons c rest ih =>
    show (if c.denom = d then c.amount else Coins.lookup (rest ++ l2) d) = _
    rw [if_neg (h c (List.mem_cons_self _ _)),
      ih (fun x hx => h x (List.mem_cons_of_mem _ hx))]

/-- On sorted coins the binary search finds the first coin of the
denomination. -/
theorem amountOfLoop_eq_lookup (n : Nat) :
    ∀ (coins : Coins) (d : String), coins.length ≤ n → CoinsSorted coins →
      amountOfLoop n coins d = Coins.lookup coins d := by
  induction n with
  | zero =>
    intro coins d hn _
    have : coins = [] := List.length_eq_zero.mp (Nat.le_zero.mp hn)
    rw [this]
    rfl
  | succ n ih =>
    intro coins d hn hs
    match coins, hn, hs with
    | [], _, _ => rfl
    | [c], _, _ => rfl
    | c1 :: c2 :: rest, hn, hs =>
      have hsplit : (c1 :: c2 :: rest).take ((c1 :: c2 :: rest).length / 2)
          ++ (c1 :: c2 :: rest).drop ((c1 :: c2 :: rest).length / 2) = c1 :: c2 :: rest :=
        List.take_append_drop _ _
      have hlen : ((c1 :: c2 :: rest).take ((c1 :: c2 :: rest).length / 2)).length ≤ n := by
        rw [List.length_take]
        simp only [List.length_cons] at hn ⊢
        omega
      cases hdrop : (c1 :: c2 :: rest).drop ((c1 :: c2 :: rest).length / 2) with
      | nil =>
        have h0 := congrArg List.length hdrop
        rw [List.length_drop] at h0
        simp only [List.length_cons, List.length_nil] at h0
        omega
      | cons coin after =>
        have hlen2 : after.length ≤ n := by
          have h0 := congrArg List.length hdrop
          rw [List.length_drop] at h0
          simp only [List.length_cons] at h0 hn
          omega
        rw [hdrop] at hsplit
        have hs2 : CoinsSorted ((c1 :: c2 :: rest).take ((c1 :: c2 :: rest).length / 2)
            ++ coin :: after) := by rw [hsplit]; exact hs
        obtain ⟨hs_l, hs_r, hs_lr⟩ := List.pairwise_append.mp hs2
        have hs_r2 := List.pairwise_cons.mp hs_r
        have hstep : amountOfLoop (n + 1) (c1 :: c2 :: rest) d
            = (if denomLt d coin.denom then
                amountOfLoop n ((c1 :: c2 :: rest).take ((c1 :: c2 :: rest).length / 2)) d
              else if d = coin.denom then coin.amount
              else amountOfLoop n after d) := by
          simp only [amountOfLoop, hdrop]
        rw [hstep]
        conv_rhs => rw [← hsplit]
        by_cases hlt : denomLt d coin.denom
        · rw [if_pos hlt, ih _ d hlen hs_l]
          rw [lookup_append_left]
          intro y hy
          rcases List.mem_cons.mp hy with hy1 | hin
          · rw [hy1]; exact Ne.symm (denomLt_ne hlt)
          · exact Ne.symm (denomLt_ne (denomLt_trans hlt (hs_r2.1 y hin)))
        · rw [if_neg hlt]
          by_cases heq : d = coin.denom
          · rw [if_pos heq, lookup_append_right]
            · show coin.amount = (if coin.denom = d then coin.amount else _)
              rw [if_pos heq.symm]
            · intro x hx
              rw [heq]
              exact denomLt_ne (hs_lr x hx coin (List.mem_cons_self _ _))
          · rw [if_neg heq, ih after d hlen2 hs_r2.2]
            have hgt : denomLt coin.denom d := denomLt_of_not hlt heq
            rw [lookup_append_right]
            · show _ = (if coin.denom = d then coin.amount else Coins.lookup after d)
              rw [if_neg (fun h => heq h.symm)]
            · intro x hx
              exact denomLt_ne
                (denomLt_trans (hs_lr x hx coin (List.mem_cons_self _ _)) hgt)

/-- On sorted coins `AmountOf` is the amount of the coin of the
denomination, zero when there is none. -/
theorem AmountOf_eq_lookup (coins : Coins) (d : String) (h : CoinsSorted coins) :
    Coins.AmountOf coins d = Coins.lookup coins d :=
  amountOfLoop_eq_lookup coins.length coins d (Nat.le_refl _) h

/-- Coins without a negative amount hold a non-negative amount of every
denomination. -/
theorem lookup_nonneg (coins : Coins) (d : String) (h : Coins.IsAnyNegative coins = false) :
    0 ≤ Coins.lookup coins d := by
  induction coins with
  | nil => exact Int.le_refl 0
  | cons c rest ih =>
    unfold Coins.IsAnyNegative at h
    rw [List.any_cons, Bool.or_eq_false_iff] at h
    show 0 ≤ (if c.denom = d then c.amount else Coins.lookup rest d)
    by_cases hd : c.denom = d
    · rw [if_pos hd]
      have := h.1
      simp only [decide_eq_false_iff_not, not_lt] at this
      exact this
    · rw [if_neg hd]
      exact ih h.2

/-- In sorted coins a coin is the one looked up under its denomination. -/
theorem lookup_of_mem (coins : Coins) (x : Coin) (hs : CoinsSorted coins) (hx : x ∈ coins) :
    Coins.lookup coins x.denom = x.amount := by
  induction coins with
  | nil => exact absurd hx (List.not_mem_nil _)
  | cons c rest ih =>
    have hc := List.pairwise_cons.mp hs
    show (if c.denom = x.denom then c.amount else Coins.lookup rest x.denom) = _
    rcases List.mem_cons.mp hx with heq | hin
    · rw [heq, if_pos rfl]
    · rw [if_neg (denomLt_ne (hc.1 x hin)), ih hc.2 hin]

/-- A non-zero amount is the amount of a coin of the list. -/
theorem lookup_mem_of_ne_zero (coins : Coins) (d : String) (h : Coins.lookup coins d ≠ 0) :
    ∃ x ∈ coins, x.denom = d ∧ x.amount = Coins.lookup coins d := by
  induction coins with
  | nil => exact absurd rfl h
  | cons c rest ih =>
    have hstep : Coins.lookup (c :: rest) d
        = (if c.denom = d then c.amount else Coins.lookup rest d) := rfl
    by_cases hd : c.denom = d
    · rw [hstep, if_pos hd]
      exact ⟨c, List.mem_cons_self _ _, hd, rfl⟩
    · rw [hstep, if_neg hd] at h ⊢
      obtain ⟨x, hx, hxd, hxa⟩ := ih h
      exact ⟨x, List.mem_cons_of_mem _ hx, hxd, hxa⟩

/-- A deposit that passes `IsAllGTE` holds at least the minimum in every
denomination. -/
theorem isAllGTE_le (deposit min : Coins) (hd : CoinsSorted deposit)
    (hneg : Coins.IsAnyNegative deposit = false)
    (h : Coins.IsAllGTE deposit min = true) :
    ∀ d, Coins.lookup min d ≤ Coins.lookup deposit d := by
  intro d
  by_cases hz : Coins.lookup min d = 0
  · rw [hz]; exact lookup_nonneg deposit d hneg
  · obtain ⟨x, hx, hxd, hxa⟩ := lookup_mem_of_ne_zero min d hz
    unfold Coins.IsAllGTE at h
    have hmin : ¬ min.length = 0 := by
      intro h0
      rw [List.length_eq_zero.mp h0] at hx
      exact List.not_mem_nil _ hx
    rw [if_neg hmin] at h
    split at h
    · exact Bool.noConfusion h
    · have hall := List.all_eq_true.mp h x hx
      simp only [Bool.not_eq_true', decide_eq_false_iff_not, not_lt, gt_iff_lt] at hall
      rw [AmountOf_eq_lookup deposit x.denom hd, hxd, hxa] at hall
      exact hall

/-- A deposit below the minimum in some denomination fails `IsAllGTE`. -/
theorem isAllGTE_false (deposit min : Coins) (hd : CoinsSorted deposit)
    (hneg : Coins.IsAnyNegative deposit = false) (d : String)
    (h : Coins.lookup deposit d < Coins.lookup min d) :
    Coins.IsAllGTE deposit min = false := by
  have hz : Coins.lookup min d ≠ 0 := by
    have := lookup_nonneg deposit d hneg
    omega
  obtain ⟨x, hx, hxd, hxa⟩ := lookup_mem_of_ne_zero min d hz
  unfold Coins.IsAllGTE
  have hmin : ¬ min.length = 0 := by
    intro h0
    rw [List.length_eq_zero.mp h0] at hx
    exact List.not_mem_nil _ hx
  rw [if_neg hmin]
  split
  · rfl
  · rw [Bool.eq_false_iff]
    intro hall
    have hall := List.all_eq_true.mp hall x hx
    simp only [Bool.not_eq_true', decide_eq_false_iff_not, not_lt, gt_iff_lt] at hall
    rw [AmountOf_eq_lookup deposit x.denom hd, hxd, hxa] at hall
    omega

/-! ## The minimum deposit of a service binding -/

set_option maxRecDepth 100000 in
/-- C30 (refuted): the guard of `getMinDeposit` does not rule the overflow
out. For the price 2^254 - 1 and the multiple 3 the bit lengths are 254 and
2, so the guard `254 + 2 - 1 > 255` does not fire and no `ErrIntOverflow` is
returned, yet the product has 256 bits and the multiplication panics with
"Int overflow". -/
theorem getMinDeposit_guard_passes_then_overflow :
    BitLen (2 ^ 254 - 1) = 254 ∧ BitLen 3 = 2 ∧
    ¬ ((BitLen (2 ^ 254 - 1) : Int) + (BitLen 3 : Int) - 1 > 255) ∧
    BitLen ((2 ^ 254 - 1) * 3) = 256 ∧
    IntMul (2 ^ 254 - 1) 3 = none ∧
    getMinDeposit (fun _ => true) 3 [⟨"iris", 2 ^ 254 - 1⟩] = SvcRes.panic "Int overflow" := by
  refine ⟨by decide, by decide, by decide, by decide, by decide, by decide⟩

/-- C27: when `getMinDeposit` succeeds on the prices, the minimum deposit is
sorted coins that hold, in every denomination, exactly the sum of the prices
in that denomination times `MinDepositMultiple`; and for a valid deposit
(sorted, no negative amount) `AddServiceBinding` succeeds only if the deposit
holds at least that amount in every denomination, while a deposit below it in
some denomination is refused with the context unchanged (nothing stored,
nothing transferred), the error being `ErrLtMinProviderDeposit` once the
definition is known and the binding is new. -/
theorem addServiceBinding_min_deposit {S : Type} (env : SvcEnv S) (ctx : SvcCtx S)
    (defChainID defName bindChainID : String) (provider : AccAddress) (bindingType : Nat)
    (deposit : Coins) (prices : List Coin) (level : Level) (min : Coins)
    (hmin : getMinDeposit env.validDenom ctx.params.MinDepositMultiple prices = SvcRes.ok min)
    (hsorted : CoinsSorted deposit) (hneg : Coins.IsAnyNegative deposit = false) :
    CoinsSorted min ∧
    (∀ d, Coins.AmountOf min d = priceSum prices d * ctx.params.MinDepositMultiple) ∧
    (∀ ctx1, AddServiceBinding env ctx defChainID defName bindChainID provider bindingType
        deposit prices level = (SvcRes.ok (), ctx1) →
      ∀ d, priceSum prices d * ctx.params.MinDepositMultiple ≤ Coins.AmountOf deposit d) ∧
    ((∃ d, Coins.AmountOf deposit d < priceSum prices d * ctx.params.MinDepositMultiple) →
      (∃ e, AddServiceBinding env ctx defChainID defName bindChainID provider bindingType
        deposit prices level = (SvcRes.err e, ctx)) ∧
      (ctx.definitions defChainID defName = true →
        GetServiceBinding ctx defChainID defName bindChainID provider = none →
        AddServiceBinding env ctx defChainID defName bindChainID provider bindingType
          deposit prices level = (SvcRes.err SvcErr.ErrLtMinProviderDeposit, ctx))) := by
  obtain ⟨smin, amin⟩ := getMinDepositLoop_spec env.validDenom ctx.params.MinDepositMultiple
    prices [] min List.Pairwise.nil hmin
  have hamount : ∀ d, Coins.lookup min d = priceSum prices d * ctx.params.MinDepositMultiple := by
    intro d
    rw [amin d]
    show 0 + _ = _
    rw [Int.zero_add]
  refine ⟨smin, ?_, ?_, ?_⟩
  · intro d
    rw [AmountOf_eq_lookup min d smin]
    exact hamount d
  · intro ctx1 h d
    rw [AmountOf_eq_lookup deposit d hsorted, ← hamount d]
    by_cases hgte : Coins.IsAllGTE deposit min = true
    · exact isAllGTE_le deposit min hsorted hneg hgte d
    · exfalso
      have hf : Coins.IsAllGTE deposit min = false := by
        cases hb : Coins.IsAllGTE deposit min with
        | true => exact absurd hb hgte
        | false => rfl
      unfold AddServiceBinding at h
      split at h
      · exact SvcRes.noConfusion (congrArg Prod.fst h)
      · split at h
        · exact SvcRes.noConfusion (congrArg Prod.fst h)
        · rw [hmin] at h
          simp only [hf, if_true] at h
          exact SvcRes.noConfusion (congrArg Prod.fst h)
  · rintro ⟨d, hd⟩
    rw [AmountOf_eq_lookup deposit d hsorted, ← hamount d] at hd
    have hf := isAllGTE_false deposit min hsorted hneg d hd
    have hmain : ctx.definitions defChainID defName = true →
        GetServiceBinding ctx defChainID defName bindChainID provider = none →
        AddServiceBinding env ctx defChainID defName bindChainID provider bindingType
          deposit prices level = (SvcRes.err SvcErr.ErrLtMinProviderDeposit, ctx) := by
      intro hdef hnone
      unfold AddServiceBinding
      rw [if_neg (by rw [hdef]; exact Bool.noConfusion), hnone]
      simp only [hmin, hf, if_true]
    refine ⟨?_, hmain⟩
    by_cases hdef : ctx.definitions defChainID defName = true
    · cases hget : GetServiceBinding ctx defChainID defName bindChainID provider with
      | none => exact ⟨_, hmain hdef hget⟩
      | some b =>
        refine ⟨SvcErr.ErrSvcBindingExists, ?_⟩
        unfold AddServiceBinding
        rw [if_neg (by rw [hdef]; exact Bool.noConfusion), hget]
    · refine ⟨SvcErr.ErrUnknownSvcDef, ?_⟩
      unfold AddServiceBinding
      rw [if_pos (by
        cases hb : ctx.definitions defChainID defName with
        | true => exact absurd hb hdef
        | false => rfl)]

/-- Witness of C27: prices of 5 and 1 iris and 2 atom with the multiple 3
give a minimum deposit of 18 iris and 6 atom. -/
theorem addServiceBinding_min_deposit_witness :
    getMinDeposit sampleSvcEnv.validDenom sampleSvcCtx.params.MinDepositMultiple
      [⟨"iris", 5⟩, ⟨"atom", 2⟩, ⟨"iris", 1⟩] = SvcRes.ok [⟨"atom", 6⟩, ⟨"iris", 18⟩] ∧
    Coins.AmountOf [⟨"atom", 6⟩, ⟨"iris", 18⟩] "iris"
      = priceSum [⟨"iris", 5⟩, ⟨"atom", 2⟩, ⟨"iris", 1⟩] "iris"
        * sampleSvcCtx.params.MinDepositMultiple :=
  ⟨by decide,
    (addServiceBinding_min_deposit sampleSvcEnv sampleSvcCtx "chain-a" "svc" "chain-b" [7] 1
      [⟨"atom", 6⟩, ⟨"iris", 20⟩] [⟨"iris", 5⟩, ⟨"atom", 2⟩, ⟨"iris", 1⟩] ⟨10, 9999⟩
      [⟨"atom", 6⟩, ⟨"iris", 18⟩] (by decide) (by decide) (by decide)).2.1 "iris"⟩

/-! ## Disabling, enabling and refunding a binding -/

/-- The outcomes of `Disable`: an error with the context unchanged, or the
binding stored as unavailable since the block time. -/
theorem Disable_cases {S : Type} (ctx : SvcCtx S) (defChainID defName bindChainID : String)
    (provider : AccAddress) :
    (GetServiceBinding ctx defChainID defName bindChainID provider = none ∧
      Disable ctx defChainID defName bindChainID provider
        = (SvcRes.err SvcErr.ErrUnknownSvcBinding, ctx)) ∨
    (∃ b, GetServiceBinding ctx defChainID defName bindChainID provider = some b ∧
      b.Available = false ∧
      Disable ctx defChainID defName bindChainID provider
        = (SvcRes.err SvcErr.ErrUnavailable, ctx)) ∨
    (∃ b, GetServiceBinding ctx defChainID defName bindChainID provider = some b ∧
      b.Available = true ∧
      Disable ctx defChainID defName bindChainID provider
        = (SvcRes.ok (),
            SetServiceBinding ctx
              { b with Available := false, DisableTime := ctx.blockTime })) := by
  cases hget : GetServiceBinding ctx defChainID defName bindChainID provider with
  | none =>
    refine Or.inl ⟨rfl, ?_⟩
    unfold Disable
    rw [hget]
  | some b =>
    cases hav : b.Available with
    | false =>
      refine Or.inr (Or.inl ⟨b, rfl, hav, ?_⟩)
      unfold Disable
      rw [hget]
      simp only [hav, if_true]
    | true =>
      refine Or.inr (Or.inr ⟨b, rfl, hav, ?_⟩)
      unfold Disable
      rw [hget]
      simp only [hav, Bool.true_eq_false, if_false]

/-- The outcomes of `Enable`: a failure with the context unchanged, or the
binding, unavailable before, stored as available with a zero disable time and
the deposit raised. -/
theorem Enable_cases {S : Type} (env : SvcEnv S) (ctx : SvcCtx S)
    (defChainID defName bindChainID : String) (provider : AccAddress) (deposit : Coins) :
    (GetServiceBinding ctx defChainID defName bindChainID provider = none ∧
      Enable env ctx defChainID defName bindChainID provider deposit
        = (SvcRes.err SvcErr.ErrUnknownSvcBinding, ctx)) ∨
    (∃ b, GetServiceBinding ctx defChainID defName bindChainID provider = some b ∧
      b.Available = true ∧
      Enable env ctx defChainID defName bindChainID provider deposit
        = (SvcRes.err SvcErr.ErrAvailable, ctx)) ∨
    (∃ b r, GetServiceBinding ctx defChainID defName bindChainID provider = some b ∧
      b.Available = false ∧ r ≠ SvcRes.ok () ∧
      Enable env ctx defChainID defName bindChainID provider deposit = (r, ctx)) ∨
    (∃ b newDeposit supply1,
      GetServiceBinding ctx defChainID defName bindChainID provider = some b ∧
      b.Available = false ∧
      env.SendCoinsFromAccountToModule ctx.supply b.Provider env.DepositAccName deposit
        = Except.ok supply1 ∧
      Enable env ctx defChainID defName bindChainID provider deposit
        = (SvcRes.ok (),
            SetServiceBinding { ctx with supply := supply1 }
              { b with Deposit := newDeposit, Available := true, DisableTime := 0 })) := by
  cases hget : GetServiceBinding ctx defChainID defName bindChainID provider with
  | none =>
    refine Or.inl ⟨rfl, ?_⟩
    unfold Enable
    rw [hget]
  | some b =>
    cases hav : b.Available with
    | true =>
      refine Or.inr (Or.inl ⟨b, rfl, hav, ?_⟩)
      unfold Enable
      rw [hget]
      simp only [hav, if_true]
    | false =>
      refine Or.inr (Or.inr ?_)
      have hstep : Enable env ctx defChainID defName bindChainID provider deposit
          = (match (if Coins.IsAnyNegative deposit = false then Coins.Add b.Deposit deposit
                else some b.Deposit) with
            | none => (SvcRes.panic "Int overflow", ctx)
            | some newDeposit =>
              match getMinDeposit env.validDenom ctx.params.MinDepositMultiple b.Prices with
              | SvcRes.err e => (SvcRes.err e, ctx)
              | SvcRes.panic reason => (SvcRes.panic reason, ctx)
              | SvcRes.ok minDeposit =>
                if Coins.IsAllGTE newDeposit minDeposit = false then
                  (SvcRes.err SvcErr.ErrLtMinProviderDeposit, ctx)
                else
                  match env.SendCoinsFromAccountToModule ctx.supply b.Provider
                      env.DepositAccName deposit with
                  | Except.error e => (SvcRes.err e, ctx)
                  | Except.ok supply1 =>
                    (SvcRes.ok (),
                      SetServiceBinding { ctx with supply := supply1 }
                        { b with Deposit := newDeposit, Available := true,
                                 DisableTime := 0 })) := by
        unfold Enable
        rw [hget]
        simp only [hav, Bool.false_eq_true, if_false]
      rw [hstep]
      cases hnew : (if Coins.IsAnyNegative deposit = false then Coins.Add b.Deposit deposit
          else some b.Deposit) with
      | none => exact Or.inl ⟨b, _, rfl, hav, fun h => SvcRes.noConfusion h, rfl⟩
      | some newDeposit =>
        cases hmin : getMinDeposit env.validDenom ctx.params.MinDepositMultiple b.Prices with
        | err e => exact Or.inl ⟨b, _, rfl, hav, fun h => SvcRes.noConfusion h, rfl⟩
        | panic reason => exact Or.inl ⟨b, _, rfl, hav, fun h => SvcRes.noConfusion h, rfl⟩
        | ok minDeposit =>
          cases hgte : Coins.IsAllGTE newDeposit minDeposit with
          | false =>
            refine Or.inl ⟨b, SvcRes.err SvcErr.ErrLtMinProviderDeposit, rfl, hav,
              fun h => SvcRes.noConfusion h, ?_⟩
            simp only [hgte, if_true]
          | true =>
            cases hsend : env.SendCoinsFromAccountToModule ctx.supply b.Provider
                env.DepositAccName deposit with
            | error e =>
              refine Or.inl ⟨b, SvcRes.err e, rfl, hav, fun h => SvcRes.noConfusion h, ?_⟩
              simp only [hgte, hsend, Bool.true_eq_false, if_false]
            | ok supply1 =>
              refine Or.inr ⟨b, newDeposit, supply1, rfl, hav, hsend, ?_⟩
              simp only [hgte, hsend, Bool.true_eq_false, if_false]

/-- C24: `Disable` fails with `ErrUnknownSvcBinding` when the binding is
absent and with `ErrUnavailable` when it is already unavailable; otherwise it
succeeds and stores the binding with `Available = false`, `DisableTime` the
block time and every other field as it was (read back under the same key when
the binding was stored under its own key). `Enable` fails with
`ErrUnknownSvcBinding` when the binding is absent and with `ErrAvailable` when
it is already available; when it succeeds the binding was unavailable and is
stored with `Available = true` and a zero `DisableTime`. Every outcome of
either call other than success leaves the whole context, the stored bindings
included, unchanged. And `Enable` does succeed: on an unavailable binding
whose deposit, with the added coins, covers the minimum deposit and whose
transfer of the added coins goes through, it returns success with the binding
stored as available, the disable time zero and the deposit raised. -/
theorem disable_enable_contract {S : Type} (env : SvcEnv S) (ctx : SvcCtx S)
    (defChainID defName bindChainID : String) (provider : AccAddress) (deposit : Coins) :
    (GetServiceBinding ctx defChainID defName bindChainID provider = none →
      Disable ctx defChainID defName bindChainID provider
        = (SvcRes.err SvcErr.ErrUnknownSvcBinding, ctx)) ∧
    (∀ b, GetServiceBinding ctx defChainID defName bindChainID provider = some b →
      b.Available = false →
      Disable ctx defChainID defName bindChainID provider
        = (SvcRes.err SvcErr.ErrUnavailable, ctx)) ∧
    (∀ b, GetServiceBinding ctx defChainID defName bindChainID provider = some b →
      b.Available = true →
      Disable ctx defChainID defName bindChainID provider
        = (SvcRes.ok (),
            SetServiceBinding ctx { b with Available := false, DisableTime := ctx.blockTime }) ∧
      (b.key = ⟨defChainID, defName, bindChainID, provider⟩ →
        GetServiceBinding (Disable ctx defChainID defName bindChainID provider).2
            defChainID defName bindChainID provider
          = some { b with Available := false, DisableTime := ctx.blockTime })) ∧
    (GetServiceBinding ctx defChainID defName bindChainID provider = none →
      Enable env ctx defChainID defName bindChainID provider deposit
        = (SvcRes.err SvcErr.ErrUnknownSvcBinding, ctx)) ∧
    (∀ b, GetServiceBinding ctx defChainID defName bindChainID provider = some b →
      b.Available = true →
      Enable env ctx defChainID defName bindChainID provider deposit
        = (SvcRes.err SvcErr.ErrAvailable, ctx)) ∧
    (∀ ctx1, Enable env ctx defChainID defName bindChainID provider deposit
        = (SvcRes.ok (), ctx1) →
      ∃ b b1, GetServiceBinding ctx defChainID defName bindChainID provider = some b ∧
        b.Available = false ∧ ctx1.bindings b.key = some b1 ∧
        b1.Available = true ∧ b1.DisableTime = 0 ∧ b1.key = b.key ∧
        b1.Prices = b.Prices ∧ b1.Level = b.Level ∧ b1.BindingType = b.BindingType) ∧
    (∀ r ctx1, Disable ctx defChainID defName bindChainID provider = (r, ctx1) →
      r ≠ SvcRes.ok () → ctx1 = ctx) ∧
    (∀ r ctx1, Enable env ctx defChainID defName bindChainID provider deposit = (r, ctx1) →
      r ≠ SvcRes.ok () → ctx1 = ctx) ∧
    (∀ b newDeposit minDeposit supply1,
      GetServiceBinding ctx defChainID defName bindChainID provider = some b →
      b.Available = false →
      (if Coins.IsAnyNegative deposit = false then Coins.Add b.Deposit deposit
        else some b.Deposit) = some newDeposit →
      getMinDeposit env.validDenom ctx.params.MinDepositMultiple b.Prices
        = SvcRes.ok minDeposit →
      Coins.IsAllGTE newDeposit minDeposit = true →
      env.SendCoinsFromAccountToModule ctx.supply b.Provider env.DepositAccName deposit
        = Except.ok supply1 →
      Enable env ctx defChainID defName bindChainID provider deposit
        = (SvcRes.ok (),
            SetServiceBinding { ctx with supply := supply1 }
              { b with Deposit := newDeposit, Available := true, DisableTime := 0 }) ∧
      (b.key = ⟨defChainID, defName, bindChainID, provider⟩ →
        GetServiceBinding (Enable env ctx defChainID defName bindChainID provider deposit).2
            defChainID defName bindChainID provider
          = some { b with Deposit := newDeposit, Available := true, DisableTime := 0 })) := by
  have hD := Disable_cases ctx defChainID defName bindChainID provider
  have hE := Enable_cases env ctx defChainID defName bindChainID provider deposit
  refine ⟨?_, ?_, ?_, ?_, ?_, ?_, ?_, ?_, ?_⟩
  · intro hnone
    rcases hD with ⟨_, h⟩ | ⟨b, hb, _, _⟩ | ⟨b, hb, _, _⟩
    · exact h
    · rw [hnone] at hb; exact Option.noConfusion hb
    · rw [hnone] at hb; exact Option.noConfusion hb
  · intro b hget hav
    rcases hD with ⟨hn, _⟩ | ⟨b2, _, _, h⟩ | ⟨b2, hb, hav2, _⟩
    · rw [hget] at hn; exact Option.noConfusion hn
    · exact h
    · rw [hget] at hb
      rw [Option.some.inj hb, hav2] at hav
      exact Bool.noConfusion hav
  · intro b hget hav
    rcases hD with ⟨hn, _⟩ | ⟨b2, hb, hav2, _⟩ | ⟨b2, hb, _, h⟩
    · rw [hget] at hn; exact Option.noConfusion hn
    · rw [hget] at hb
      rw [Option.some.inj hb, hav2] at hav
      exact Bool.noConfusion hav
    · rw [hget] at hb
      have hbb : b = b2 := Option.some.inj hb
      subst hbb
      refine ⟨h, fun hkey => ?_⟩
      rw [h]
      show (if (⟨defChainID, defName, bindChainID, provider⟩ : BindingKey)
          = SvcBinding.key { b with Available := false, DisableTime := ctx.blockTime }
        then some { b with Available := false, DisableTime := ctx.blockTime }
        else ctx.bindings ⟨defChainID, defName, bindChainID, provider⟩) = _
      rw [if_pos]
      exact hkey.symm
  · intro hnone
    rcases hE with ⟨_, h⟩ | ⟨b, hb, _, _⟩ | ⟨b, _, hb, _, _, _⟩ | ⟨b, _, _, hb, _, _, _⟩
    · exact h
    · rw [hnone] at hb; exact Option.noConfusion hb
    · rw [hnone] at hb; exact Option.noConfusion hb
    · rw [hnone] at hb; exact Option.noConfusion hb
  · intro b hget hav
    rcases hE with ⟨hn, _⟩ | ⟨b2, _, _, h⟩ | ⟨b2, _, hb, hav2, _, _⟩ |
      ⟨b2, _, _, hb, hav2, _, _⟩
    · rw [hget] at hn; exact Option.noConfusion hn
    · exact h
    · rw [hget] at hb
      rw [Option.some.inj hb, hav2] at hav
      exact Bool.noConfusion hav
    · rw [hget] at hb
      rw [Option.some.inj hb, hav2] at hav
      exact Bool.noConfusion hav
  · intro ctx1 hok
    rcases hE with ⟨_, h⟩ | ⟨b, _, _, h⟩ | ⟨b, r, _, _, hr, h⟩ |
      ⟨b, newDeposit, supply1, hb, hav, _, h⟩
    · rw [h] at hok; exact SvcRes.noConfusion (congrArg Prod.fst hok)
    · rw [h] at hok; exact SvcRes.noConfusion (congrArg Prod.fst hok)
    · rw [h] at hok; exact absurd (congrArg Prod.fst hok) hr
    · rw [h] at hok
      have hctx : ctx1 = SetServiceBinding { ctx with supply := supply1 }
          { b with Deposit := newDeposit, Available := true, DisableTime := 0 } :=
        (congrArg Prod.snd hok).symm
      refine ⟨b, { b with Deposit := newDeposit, Available := true, DisableTime := 0 },
        hb, hav, ?_, rfl, rfl, rfl, rfl, rfl, rfl⟩
      rw [hctx]
      show (if b.key
          = SvcBinding.key { b with Deposit := newDeposit, Available := true, DisableTime := 0 }
        then some { b with Deposit := newDeposit, Available := true, DisableTime := 0 }
        else ctx.bindings b.key) = _
      exact if_pos rfl
  · intro r ctx1 h hr
    rcases hD with ⟨_, h2⟩ | ⟨b, _, _, h2⟩ | ⟨b, _, _, h2⟩
    · rw [h2] at h; exact (congrArg Prod.snd h).symm
    · rw [h2] at h; exact (congrArg Prod.snd h).symm
    · rw [h2] at h; exact absurd (congrArg Prod.fst h).symm hr
  · intro r ctx1 h hr
    rcases hE with ⟨_, h2⟩ | ⟨b, _, _, h2⟩ | ⟨b, r2, _, _, _, h2⟩ | ⟨b, _, _, _, _, _, h2⟩
    · rw [h2] at h; exact (congrArg Prod.snd h).symm
    · rw [h2] at h; exact (congrArg Prod.snd h).symm
    · rw [h2] at h; exact (congrArg Prod.snd h).symm
    · rw [h2] at h; exact absurd (congrArg Prod.fst h).symm hr
  · intro b newDeposit minDeposit supply1 hget hav hnew hmin hgte hsend
    have hen : Enable env ctx defChainID defName bindChainID provider deposit
        = (SvcRes.ok (),
            SetServiceBinding { ctx with supply := supply1 }
              { b with Deposit := newDeposit, Available := true, DisableTime := 0 }) := by
      unfold Enable
      rw [hget]
      simp only [hav, Bool.false_eq_true, if_false, hnew, hmin, hgte, Bool.true_eq_false,
        hsend]
    refine ⟨hen, fun hkey => ?_⟩
    rw [hen]
    show (if (⟨defChainID, defName, bindChainID, provider⟩ : BindingKey)
        = SvcBinding.key { b with Deposit := newDeposit, Available := true, DisableTime := 0 }
      then some { b with Deposit := newDeposit, Available := true, DisableTime := 0 }
      else ctx.bindings ⟨defChainID, defName, bindChainID, provider⟩) = _
    exact if_pos hkey.symm

/-- Witness of C24: disabling the stored sample binding succeeds and stores
it as unavailable since block time 1000; enabling the sample binding that was
disabled at time 800, with two more iris, succeeds: the two iris are
transferred to the deposit account and the binding is stored as available
with a zero disable time and 20 iris of deposit. -/
theorem disable_enable_contract_witness :
    (GetServiceBinding sampleSvcCtxBound "chain-a" "svc" "chain-b" [7] = some sampleBinding ∧
      sampleBinding.Available = true ∧
      Disable sampleSvcCtxBound "chain-a" "svc" "chain-b" [7]
        = (SvcRes.ok (),
            SetServiceBinding sampleSvcCtxBound
              { sampleBinding with Available := false,
                                   DisableTime := sampleSvcCtxBound.blockTime }) ∧
      GetServiceBinding (Disable sampleSvcCtxBound "chain-a" "svc" "chain-b" [7]).2
          "chain-a" "svc" "chain-b" [7]
        = some { sampleBinding with Available := false,
                                    DisableTime := sampleSvcCtxBound.blockTime }) ∧
    (Enable sampleSvcEnv sampleSvcCtxDisabled "chain-a" "svc" "chain-b" [7] [⟨"iris", 2⟩]
        = (SvcRes.ok (),
            SetServiceBinding
              { sampleSvcCtxDisabled with
                supply := [{ toModule := true, account := [7],
                             module := "service_deposit_account",
                             amount := [⟨"iris", 2⟩] }] }
              { sampleBinding with
                Deposit := [⟨"atom", 6⟩, ⟨"iris", 20⟩], Available := true,
                DisableTime := 0 }) ∧
      GetServiceBinding
          (Enable sampleSvcEnv sampleSvcCtxDisabled "chain-a" "svc" "chain-b" [7]
            [⟨"iris", 2⟩]).2 "chain-a" "svc" "chain-b" [7]
        = some { sampleBinding with
                 Deposit := [⟨"atom", 6⟩, ⟨"iris", 20⟩], Available := true,
                 DisableTime := 0 }) :=
  ⟨⟨by decide, by decide,
      ((disable_enable_contract sampleSvcEnv sampleSvcCtxBound "chain-a" "svc" "chain-b" [7]
        []).2.2.1 sampleBinding (by decide) (by decide)).1,
      ((disable_enable_contract sampleSvcEnv sampleSvcCtxBound "chain-a" "svc" "chain-b" [7]
        []).2.2.1 sampleBinding (by decide) (by decide)).2 (by decide)⟩,
    ⟨((disable_enable_contract sampleSvcEnv sampleSvcCtxDisabled "chain-a" "svc" "chain-b"
        [7] [⟨"iris", 2⟩]).2.2.2.2.2.2.2.2
        { sampleBinding with Available := false, DisableTime := 800 }
        [⟨"atom", 6⟩, ⟨"iris", 20⟩] [⟨"atom", 6⟩, ⟨"iris", 15⟩] _
        (by decide) (by decide) (by decide) (by decide) (by decide) rfl).1,
      ((disable_enable_contract sampleSvcEnv sampleSvcCtxDisabled "chain-a" "svc" "chain-b"
        [7] [⟨"iris", 2⟩]).2.2.2.2.2.2.2.2
        { sampleBinding with Available := false, DisableTime := 800 }
        [⟨"atom", 6⟩, ⟨"iris", 20⟩] [⟨"atom", 6⟩, ⟨"iris", 15⟩] _
        (by decide) (by decide) (by decide) (by decide) (by decide) rfl).2 (by decide)⟩⟩

/-- The outcomes of `RefundDeposit`: an error with the context unchanged, or
the refund of the stored deposit of an unavailable binding whose refund time
has come. -/
theorem RefundDeposit_cases {S : Type} (env : SvcEnv S) (ctx : SvcCtx S)
    (defChainID defName bindChainID : String) (provider : AccAddress) :
    (∃ e, RefundDeposit env ctx defChainID defName bindChainID provider
        = (SvcRes.err e, ctx)) ∨
    (∃ b supply1, GetServiceBinding ctx defChainID defName bindChainID provider = some b ∧
      b.Available = false ∧ Coins.IsZero b.Deposit = false ∧
      ¬ (ctx.blockTime
          < b.DisableTime + ctx.params.ArbitrationTimeLimit + ctx.params.ComplaintRetrospect) ∧
      env.SendCoinsFromModuleToAccount ctx.supply env.DepositAccName b.Provider b.Deposit
        = Except.ok supply1 ∧
      RefundDeposit env ctx defChainID defName bindChainID provider
        = (SvcRes.ok (),
            SetServiceBinding { ctx with supply := supply1 } { b with Deposit := [] })) := by
  cases hget : GetServiceBinding ctx defChainID defName bindChainID provider with
  | none =>
    refine Or.inl ⟨SvcErr.ErrUnknownSvcBinding, ?_⟩
    unfold RefundDeposit
    rw [hget]
  | some b =>
    cases hav : b.Available with
    | true =>
      refine Or.inl ⟨SvcErr.ErrAvailable, ?_⟩
      unfold RefundDeposit
      rw [hget]
      simp only [hav, if_true]
    | false =>
      cases hzero : Coins.IsZero b.Deposit with
      | true =>
        refine Or.inl ⟨SvcErr.ErrRefundDeposit, ?_⟩
        unfold RefundDeposit
        rw [hget]
        simp only [hav, hzero, Bool.false_eq_true, if_false, if_true]
      | false =>
        by_cases hbefore : ctx.blockTime
            < b.DisableTime + ctx.params.ArbitrationTimeLimit + ctx.params.ComplaintRetrospect
        · refine Or.inl ⟨SvcErr.ErrRefundDeposit, ?_⟩
          unfold RefundDeposit
          rw [hget]
          simp only [hav, hzero, Bool.false_eq_true, if_false, hbefore, if_true]
        · cases hsend : env.SendCoinsFromModuleToAccount ctx.supply env.DepositAccName
              b.Provider b.Deposit with
          | error e =>
            refine Or.inl ⟨e, ?_⟩
            unfold RefundDeposit
            rw [hget]
            simp only [hav, hzero, Bool.false_eq_true, if_false, hbefore, hsend]
          | ok supply1 =>
            refine Or.inr ⟨b, supply1, rfl, hav, hzero, hbefore, hsend, ?_⟩
            unfold RefundDeposit
            rw [hget]
            simp only [hav, hzero, Bool.false_eq_true, if_false, hbefore, hsend]

/-- C25: `RefundDeposit` succeeds only if the binding exists, is
unavailable, has a non-zero deposit and the block time is not before
`DisableTime + ArbitrationTimeLimit + ComplaintRetrospect`; the success is
then the one transfer of the binding's whole stored deposit from the deposit
module account to the provider, and the binding stored with an empty deposit.
Whenever those conditions hold and the transfer succeeds the call succeeds,
and a `RefundDeposit` repeated at once on the resulting context fails with
`ErrRefundDeposit` (the binding being stored under its own key). Every
outcome other than success leaves the whole context, the stored bindings
included, unchanged. -/
theorem refundDeposit_contract {S : Type} (env : SvcEnv S) (ctx : SvcCtx S)
    (defChainID defName bindChainID : String) (provider : AccAddress) :
    (∀ ctx1, RefundDeposit env ctx defChainID defName bindChainID provider
        = (SvcRes.ok (), ctx1) →
      ∃ b supply1, GetServiceBinding ctx defChainID defName bindChainID provider = some b ∧
        b.Available = false ∧ Coins.IsZero b.Deposit = false ∧
        ¬ (ctx.blockTime
          < b.DisableTime + ctx.params.ArbitrationTimeLimit + ctx.params.ComplaintRetrospect) ∧
        env.SendCoinsFromModuleToAccount ctx.supply env.DepositAccName b.Provider b.Deposit
          = Except.ok supply1 ∧
        ctx1 = SetServiceBinding { ctx with supply := supply1 } { b with Deposit := [] }) ∧
    (∀ b supply1, GetServiceBinding ctx defChainID defName bindChainID provider = some b →
      b.Available = false → Coins.IsZero b.Deposit = false →
      ¬ (ctx.blockTime
        < b.DisableTime + ctx.params.ArbitrationTimeLimit + ctx.params.ComplaintRetrospect) →
      env.SendCoinsFromModuleToAccount ctx.supply env.DepositAccName b.Provider b.Deposit
        = Except.ok supply1 →
      RefundDeposit env ctx defChainID defName bindChainID provider
        = (SvcRes.ok (),
            SetServiceBinding { ctx with supply := supply1 } { b with Deposit := [] }) ∧
      (b.key = ⟨defChainID, defName, bindChainID, provider⟩ →
        RefundDeposit env
            (SetServiceBinding { ctx with supply := supply1 } { b with Deposit := [] })
            defChainID defName bindChainID provider
          = (SvcRes.err SvcErr.ErrRefundDeposit,
              SetServiceBinding { ctx with supply := supply1 } { b with Deposit := [] }))) ∧
    (∀ r ctx1, RefundDeposit env ctx defChainID defName bindChainID provider = (r, ctx1) →
      r ≠ SvcRes.ok () → ctx1 = ctx) := by
  have hR := RefundDeposit_cases env ctx defChainID defName bindChainID provider
  refine ⟨?_, ?_, ?_⟩
  · intro ctx1 hok
    rcases hR with ⟨e, h⟩ | ⟨b, supply1, hb, hav, hz, ht, hsend, h⟩
    · rw [h] at hok; exact SvcRes.noConfusion (congrArg Prod.fst hok)
    · rw [h] at hok
      exact ⟨b, supply1, hb, hav, hz, ht, hsend, (congrArg Prod.snd hok).symm⟩
  · intro b supply1 hget hav hz ht hsend
    constructor
    · rcases hR with ⟨e, h⟩ | ⟨b2, supply2, hb, _, _, _, hsend2, h⟩
      · exfalso
        unfold RefundDeposit at h
        rw [hget] at h
        simp only [hav, hz, Bool.false_eq_true, if_false, ht, hsend] at h
        exact SvcRes.noConfusion (congrArg Prod.fst h)
      · rw [hget] at hb
        have hbb : b = b2 := Option.some.inj hb
        subst hbb
        rw [hsend] at hsend2
        have hss : supply1 = supply2 := Except.ok.inj hsend2
        subst hss
        exact h
    · intro hkey
      have hget2 : GetServiceBinding
          (SetServiceBinding { ctx with supply := supply1 } { b with Deposit := [] })
          defChainID defName bindChainID provider = some { b with Deposit := [] } := by
        show (if (⟨defChainID, defName, bindChainID, provider⟩ : BindingKey)
            = SvcBinding.key { b with Deposit := [] }
          then some { b with Deposit := [] }
          else ctx.bindings ⟨defChainID, defName, bindChainID, provider⟩) = _
        exact if_pos hkey.symm
      unfold RefundDeposit
      rw [hget2]
      have hz2 : Coins.IsZero ([] : Coins) = true := rfl
      simp only [hav, hz2, Bool.false_eq_true, if_false, if_true]
  · intro r ctx1 h hr
    rcases hR with ⟨e, h2⟩ | ⟨b, supply1, _, _, _, _, _, h2⟩
    · rw [h2] at h; exact (congrArg Prod.snd h).symm
    · rw [h2] at h; exact absurd (congrArg Prod.fst h).symm hr

/-- Witness of C25: the sample binding, disabled at time 800, is refunded at
block time 1000 (limits 100 and 50), and the repeated refund fails. -/
theorem refundDeposit_contract_witness :
    RefundDeposit sampleSvcEnv sampleSvcCtxDisabled "chain-a" "svc" "chain-b" [7]
      = (SvcRes.ok (),
          SetServiceBinding
            { sampleSvcCtxDisabled with
              supply := [{ toModule := false, account := [7],
                           module := "service_deposit_account",
                           amount := [⟨"atom", 6⟩, ⟨"iris", 18⟩] }] }
            { sampleBinding with Available := false, DisableTime := 800, Deposit := [] }) ∧
    RefundDeposit sampleSvcEnv
        (SetServiceBinding
          { sampleSvcCtxDisabled with
            supply := [{ toModule := false, account := [7],
                         module := "service_deposit_account",
                         amount := [⟨"atom", 6⟩, ⟨"iris", 18⟩] }] }
          { sampleBinding with Available := false, DisableTime := 800, Deposit := [] })
        "chain-a" "svc" "chain-b" [7]
      = (SvcRes.err SvcErr.ErrRefundDeposit,
          SetServiceBinding
            { sampleSvcCtxDisabled with
              supply := [{ toModule := false, account := [7],
                           module := "service_deposit_account",
                           amount := [⟨"atom", 6⟩, ⟨"iris", 18⟩] }] }
            { sampleBinding with Available := false, DisableTime := 800, Deposit := [] }) :=
  ⟨((refundDeposit_contract sampleSvcEnv sampleSvcCtxDisabled "chain-a" "svc" "chain-b"
      [7]).2.1 { sampleBinding with Available := false, DisableTime := 800 } _
      (by decide) (by decide) (by decide) (by decide) rfl).1,
    ((refundDeposit_contract sampleSvcEnv sampleSvcCtxDisabled "chain-a" "svc" "chain-b"
      [7]).2.1 { sampleBinding with Available := false, DisableTime := 800 } _
      (by decide) (by decide) (by decide) (by decide) rfl).2 (by decide)⟩

/-! ## The profiler commands -/

/-- C26: `add-profiler` fails when `--address` is empty, when it is not a
valid bech32 address (with the decoder's error), and when `--description` is
empty, and otherwise hands over exactly one `MsgAddProfiler(description,
address, sender)`; `delete-profiler` fails when `--address` is empty or
invalid and otherwise hands over exactly one `MsgDeleteProfiler(address,
sender)`. Delivering the add message leaves the Ordinary guardian
(description, address, added by the sender) among the profilers, and
delivering the delete message after it leaves it there no more. -/
theorem profiler_commands (env : CliEnv) (paStr description : String)
    (profilers : List Guardian) :
    (paStr.length = 0 →
      GetCmdCreateProfiler env paStr description = CmdRes.error "must use --address flag" ∧
      GetCmdDeleteProfiler env paStr = CmdRes.error "must use --address flag") ∧
    (∀ err, paStr.length ≠ 0 → env.AccAddressFromBech32 paStr = Except.error err →
      GetCmdCreateProfiler env paStr description = CmdRes.error err ∧
      GetCmdDeleteProfiler env paStr = CmdRes.error err) ∧
    (∀ pAddr, paStr.length ≠ 0 → env.AccAddressFromBech32 paStr = Except.ok pAddr →
      description.length = 0 →
      GetCmdCreateProfiler env paStr description
        = CmdRes.error "must use --description flag") ∧
    (∀ pAddr, paStr.length ≠ 0 → env.AccAddressFromBech32 paStr = Except.ok pAddr →
      (description.length ≠ 0 →
        GetCmdCreateProfiler env paStr description
          = CmdRes.broadcast [GuardianMsg.MsgAddProfiler description pAddr env.fromAddr]) ∧
      GetCmdDeleteProfiler env paStr
        = CmdRes.broadcast [GuardianMsg.MsgDeleteProfiler pAddr env.fromAddr] ∧
      NewGuardian description AccountType.Ordinary pAddr env.fromAddr
        ∈ deliverGuardianMsg profilers
            (GuardianMsg.MsgAddProfiler description pAddr env.fromAddr) ∧
      NewGuardian description AccountType.Ordinary pAddr env.fromAddr
        ∉ deliverGuardianMsg
            (deliverGuardianMsg profilers
              (GuardianMsg.MsgAddProfiler description pAddr env.fromAddr))
            (GuardianMsg.MsgDeleteProfiler pAddr env.fromAddr)) := by
  refine ⟨?_, ?_, ?_, ?_⟩
  · intro h0
    constructor
    · unfold GetCmdCreateProfiler
      simp only [h0, if_true]
    · unfold GetCmdDeleteProfiler
      simp only [h0, if_true]
  · intro err h0 hdec
    constructor
    · unfold GetCmdCreateProfiler
      simp only [h0, if_false, hdec]
    · unfold GetCmdDeleteProfiler
      simp only [h0, if_false, hdec]
  · intro pAddr h0 hdec hd
    unfold GetCmdCreateProfiler
    simp only [h0, if_false, hdec, hd, if_true]
  · intro pAddr h0 hdec
    refine ⟨?_, ?_, ?_, ?_⟩
    · intro hd
      unfold GetCmdCreateProfiler
      simp only [h0, if_false, hdec, hd]
    · unfold GetCmdDeleteProfiler
      simp only [h0, if_false, hdec]
    · exact List.mem_cons_self _ _
    · intro hmem
      have := (List.mem_filter.mp hmem).2
      simp only [NewGuardian, ne_eq, not_true_eq_false, decide_False] at this
      exact Bool.noConfusion this

/-- Witness of C26: `add-profiler --address B --description test` sent by
`A` hands over the one message adding `B`. -/
theorem profiler_commands_witness :
    GetCmdCreateProfiler sampleCliEnv "B" "test"
      = CmdRes.broadcast [GuardianMsg.MsgAddProfiler "test" [66] sampleCliEnv.fromAddr] :=
  ((profiler_commands sampleCliEnv "B" "test" []).2.2.2 [66] (by decide) rfl).1 (by decide)

end Irita
